import Mathlib

/-!
# Scene validator: static-equilibrium checking

A shallow embedding of `svlibrary/src/sceneValidator.cpp`.

Modelling conventions.

* The state of the embedding holds exact rationals (`ℚ`) for the `double`, `float` and `dReal`
  values of the program, and the functions on states compute exactly.  Where the arithmetic of
  the source types decides a statement, a second embedding of the function follows those types:
  `inStaticEquilibriumDouble` (`double` values with NaN and infinities, the differences
  rounded) and `setObjectFloat` (`float` triangles, `double` accumulators, `float` centre of
  mass and vertex buffers).  They rest on the rounding of the formats binary64 and binary32, to
  nearest with ties to even, every operation rounding to its type; the two zeros are not told
  apart.
* The file-scope `static` variables of the translation unit are the fields of `State`; every
  operation passes the state explicitly.
* `int` variables are integers; where the source can overflow (`counter ++`, the loop counter
  of `isStableStill`) the value is wrapped to 32 bits explicitly.  Container sizes are natural
  numbers (assumed below 2^31).
* Behaviour the C++ standard leaves undefined (dereferencing `m.end()`, indexing a vector or an
  array out of bounds, converting an out-of-range `double` to `int`) is the `Except.error`
  outcome with the matching `Fault`.  `Fault.fuel` is different: it only says that a loop did not
  finish within the number of iterations granted to the model.
* The Open Dynamics Engine is an external collaborator.  Its world is a list of rigid bodies
  addressed by handle; the handle of a body also addresses the single trimesh geometry attached
  to it.  One physics tick (`dSpaceCollide` with `nearCallback`, `dWorldQuickStep`,
  `dJointGroupEmpty`) is the field `tick` of `Engine`, a deterministic function of the contact
  parameters and the world.
* Printing to standard output is not part of the state.
* The `.obj` parser (`objLoader`) is an external collaborator: a function from file names to the
  vertex and face lists it delivers.
* Division by zero, which C++ leaves undefined (IEEE arithmetic gives an infinity or a NaN, for
  which the exact rationals have no value), is the fault `zeroDivide`.
-/

namespace SceneValidator

/-- Capacity of the object array: `#define NUM 200`. -/
def NUM : Nat := 200

/-- Geometries per body: `#define GPB 3`. -/
def GPB : Nat := 3

/-- Largest value of a 32-bit `int`. -/
def INT_MAX : Int := 2147483647

/-- Smallest value of a 32-bit `int`. -/
def INT_MIN : Int := -2147483648

/-- Two's-complement wrap of an integer to the 32-bit `int` range. -/
def wrapInt32 (x : Int) : Int := (x + 2147483648) % 4294967296 - 2147483648

/-- Outcomes that are not an ordinary return of the C++ code. -/
inductive Fault where
  /-- An iterator equal to `m.end()` was dereferenced (the name is not a key of the map). -/
  | unknownName
  /-- The vector `modelnames` was indexed at or beyond its size. -/
  | nameIndex
  /-- The vector `model_poses` was indexed at or beyond its size. -/
  | poseIndex
  /-- The array `obj` or `scaling` was indexed at or beyond `NUM`. -/
  | objIndex
  /-- A `double` outside the range of `int` was converted to `int`. -/
  | intRange
  /-- The loop did not finish within the granted number of iterations. -/
  | fuel
  /-- The vertex list of a loaded mesh was indexed outside its bounds. -/
  | vertexIndex
  /-- A division had a zero divisor. -/
  | zeroDivide
  /-- Control flowed off the end of a function that returns a value. -/
  | noReturn
  /-- The result of a floating-point operation or conversion was outside the finite range of
  its type. -/
  | floatRange
  deriving DecidableEq, Repr

/-- Three coordinates, as in `dReal center[3]` or the result of `dBodyGetPosition`. -/
structure Vec3 where
  x : ℚ
  y : ℚ
  z : ℚ
  deriving DecidableEq, Repr

/-- The origin. -/
def Vec3.zero : Vec3 := ⟨0, 0, 0⟩

/-- An `Eigen::Affine3d`: `coeff i j` is `a(i,j)` for row `i < 3` and column `j < 4`; column 3
is the translation. -/
structure Affine3d where
  coeff : Nat → Nat → ℚ

/-- The `a.translation()` of a pose. -/
def Affine3d.translation (a : Affine3d) : Vec3 := ⟨a.coeff 0 3, a.coeff 1 3, a.coeff 2 3⟩

/-- The `struct MyObject` of the source. -/
structure MyObject where
  body : Nat
  geom : List (Option Nat)
  matrix_dblbuff : List ℚ
  last_matrix_index : Nat
  model_ID : String
  center : Vec3
  indCount : Int
  vertCount : Int
  indexDrawVec : List (List Int)
  indexGeomVec : List Int
  vertexDrawVec : List ℚ
  vertexGeomVec : List ℚ
  centerOfMass : List ℚ

/-- A zero-initialised `MyObject`, as the elements of the static array `obj` start out. -/
def MyObject.blank : MyObject where
  body := 0
  geom := List.replicate GPB none
  matrix_dblbuff := List.replicate 32 0
  last_matrix_index := 0
  model_ID := ""
  center := Vec3.zero
  indCount := 0
  vertCount := 0
  indexDrawVec := []
  indexGeomVec := []
  vertexDrawVec := []
  vertexGeomVec := []
  centerOfMass := []

/-- The parameter statics of the source (lines 85 to 112), with their source names. -/
structure Params where
  BOUNCE : ℚ
  BOUNCE_vel : ℚ
  DEFAULT_SCALE : ℚ
  DENSITY : ℚ
  DRAW : Bool
  FRICTION_mu : ℚ
  FRICTION_mu2 : ℚ
  MAX_CONTACTS : Int
  GRAVITYx : ℚ
  GRAVITYy : ℚ
  GRAVITYz : ℚ
  PLANEa : ℚ
  PLANEb : ℚ
  PLANEc : ℚ
  PLANEd : ℚ
  PRINT_AABB : Bool
  PRINT_CHKR_RSLT : Bool
  PRINT_COM : Bool
  PRINT_DELTA_POS : Bool
  PRINT_END_POS : Bool
  PRINT_START_POS : Bool
  SOFT_CFM : ℚ
  STEP1 : Int
  STEP2 : Int
  STEP3 : Int
  STEP4 : Int
  THRESHOLD : ℚ
  TIMESTEP : ℚ

/-- The initialisers of the parameter statics. -/
def Params.initial : Params where
  BOUNCE := 0
  BOUNCE_vel := 0
  DEFAULT_SCALE := 100
  DENSITY := 5
  DRAW := false
  FRICTION_mu := 1
  FRICTION_mu2 := 0
  MAX_CONTACTS := 64
  GRAVITYx := 0
  GRAVITYy := 0
  GRAVITYz := -1/2
  PLANEa := 0
  PLANEb := 0
  PLANEc := 1
  PLANEd := 0
  PRINT_AABB := false
  PRINT_CHKR_RSLT := false
  PRINT_COM := false
  PRINT_DELTA_POS := false
  PRINT_END_POS := false
  PRINT_START_POS := false
  SOFT_CFM := 1/100
  STEP1 := 6
  STEP2 := 14
  STEP3 := 20
  STEP4 := 110
  THRESHOLD := 2/25
  TIMESTEP := 1/20

/-- A rigid body of the engine together with the trimesh geometry attached to it. -/
structure Body where
  pos : Vec3
  R : List ℚ
  lvel : Vec3
  avel : Vec3
  meshVerts : List ℚ
  meshInds : List Int
  density : ℚ

/-- A body at the origin with the identity rotation (a `dMatrix3` has 12 entries). -/
def Body.blank : Body where
  pos := Vec3.zero
  R := [1, 0, 0, 0, 0, 1, 0, 0, 0, 0, 1, 0]
  lvel := Vec3.zero
  avel := Vec3.zero
  meshVerts := []
  meshInds := []
  density := 0

/-- The engine's world: gravity, the ground planes of the space and the bodies by handle. -/
structure World where
  gravity : Vec3
  planes : List (ℚ × ℚ × ℚ × ℚ)
  bodies : List Body

/-- The `dBodyGetPosition` of the engine. -/
def dBodyGetPosition (w : World) (b : Nat) : Vec3 := (w.bodies.getD b Body.blank).pos

/-- The `dGeomGetPosition` of the engine: a geometry sits at its body. -/
def dGeomGetPosition (w : World) (g : Nat) : Vec3 := (w.bodies.getD g Body.blank).pos

/-- The `dGeomGetRotation` of the engine: a geometry turns with its body. -/
def dGeomGetRotation (w : World) (g : Nat) : List ℚ := (w.bodies.getD g Body.blank).R

/-- The `dBodySetPosition` of the engine. -/
def dBodySetPosition (w : World) (b : Nat) (p : Vec3) : World :=
  { w with bodies := w.bodies.set b { w.bodies.getD b Body.blank with pos := p } }

/-- The `dBodySetRotation` of the engine. -/
def dBodySetRotation (w : World) (b : Nat) (R : List ℚ) : World :=
  { w with bodies := w.bodies.set b { w.bodies.getD b Body.blank with R := R } }

/-- The `dBodySetLinearVel` of the engine. -/
def dBodySetLinearVel (w : World) (b : Nat) (v : Vec3) : World :=
  { w with bodies := w.bodies.set b { w.bodies.getD b Body.blank with lvel := v } }

/-- The `dBodySetAngularVel` of the engine. -/
def dBodySetAngularVel (w : World) (b : Nat) (v : Vec3) : World :=
  { w with bodies := w.bodies.set b { w.bodies.getD b Body.blank with avel := v } }

/-- What `nearCallback` and `dWorldQuickStep` read from the parameter statics. -/
structure ContactParams where
  mu : ℚ
  mu2 : ℚ
  bounce : ℚ
  bounce_vel : ℚ
  soft_cfm : ℚ
  max_contacts : Int
  timestep : ℚ

/-- The external physics collaborator: one tick of collision handling and `dWorldQuickStep`. -/
structure Engine where
  tick : ContactParams → World → World

/-- The statics of the translation unit.  `run` is the loop flag of the drawstuff library
(cleared by `dsStop`).  `simCalls` is instrumentation, not a program variable: the number of
`simLoop` invocations so far. -/
structure State where
  params : Params
  counter : Int
  dsSTEP : Int
  num : Nat
  nextobj : Int
  obj : List MyObject
  m : List (String × MyObject)
  scaling : List ℚ
  world : World
  run : Bool
  simCalls : Nat

/-- The state of the program at start-up, before any constructor has run. -/
def State.initial : State where
  params := Params.initial
  counter := 0
  dsSTEP := 100
  num := 0
  nextobj := 0
  obj := List.replicate NUM MyObject.blank
  m := []
  scaling := List.replicate NUM 0
  world := ⟨Vec3.zero, [], []⟩
  run := false
  simCalls := 0

/-- The contact parameters a tick reads. -/
def contactParams (P : Params) : ContactParams where
  mu := P.FRICTION_mu
  mu2 := P.FRICTION_mu2
  bounce := P.BOUNCE
  bounce_vel := P.BOUNCE_vel
  soft_cfm := P.SOFT_CFM
  max_contacts := P.MAX_CONTACTS
  timestep := P.TIMESTEP

/-- The `m.find(name)` of the source: `none` stands for `m.end()`. -/
def mapFind (m : List (String × MyObject)) (name : String) : Option MyObject :=
  match m with
  | [] => none
  | (k, o) :: rest => if k = name then some o else mapFind rest name

/-- In-place update of the value stored under `name` (writing through `mappedObject->second`). -/
def mapModify (m : List (String × MyObject)) (name : String) (f : MyObject → MyObject) :
    List (String × MyObject) :=
  match m with
  | [] => []
  | (k, o) :: rest => if k = name then (k, f o) :: rest else (k, o) :: mapModify rest name f

/-- The `m[name] = o` of the source: assign under an existing key or insert a new one. -/
def mapAssign (m : List (String × MyObject)) (name : String) (o : MyObject) :
    List (String × MyObject) :=
  match m with
  | [] => [(name, o)]
  | (k, old) :: rest => if k = name then (k, o) :: rest else (k, old) :: mapAssign rest name o

/-- The function `inStaticEquilibrium` of the source (lines 227 to 259) on a state of exact
values.  The function on `double` values is `inStaticEquilibriumDouble`. -/
def inStaticEquilibrium (S : State) (object : MyObject) : Bool :=
  let startX := object.center.x
  let startY := object.center.y
  let startZ := object.center.z
  let endX := (dBodyGetPosition S.world object.body).x
  let endY := (dBodyGetPosition S.world object.body).y
  let endZ := (dBodyGetPosition S.world object.body).z
  let deltaX := |startX - endX|
  let deltaY := |startY - endY|
  let deltaZ := |startZ - endZ|
  if deltaX > S.params.THRESHOLD ∨ deltaY > S.params.THRESHOLD ∨ deltaZ > S.params.THRESHOLD then
    false
  else
    true

/-- The loop of `isValid` from index `i` with `k` iterations left (`k = num - i`); the result is
the final value of `stable`. -/
def isValidFrom (S : State) (modelnames : List String) : Nat → Nat → Except Fault Bool
  | 0, _ => .ok true
  | k + 1, i =>
    match modelnames[i]? with
    | none => .error .nameIndex
    | some name =>
      match mapFind S.m name with
      | none => .error .unknownName
      | some o =>
        if !inStaticEquilibrium S o then .ok false
        else isValidFrom S modelnames k (i + 1)

/-- The function `isValid` of the source (lines 265 to 287). -/
def isValid (S : State) (modelnames : List String) : Except Fault Bool :=
  match isValidFrom S modelnames S.num 0 with
  | .error e => .error e
  | .ok stable => if stable = true then .ok true else .ok false

/-- The function `translateObject` of the source (lines 418 to 426), applied to the object stored
under `name` in the map. -/
def translateObject (S : State) (name : String) (object : MyObject) (center : Vec3)
    (R : List ℚ) : State :=
  let m1 := mapModify S.m name (fun o => { o with center := ⟨center.x, center.y, center.z⟩ })
  let w1 := dBodySetPosition S.world object.body ⟨center.x, center.y, center.z⟩
  let w2 := dBodySetRotation w1 object.body R
  let w3 := dBodySetLinearVel w2 object.body ⟨0, 0, 0⟩
  let w4 := dBodySetAngularVel w3 object.body ⟨0, 0, 0⟩
  { S with m := m1, world := w4 }

/-- The array `R` that `isValidScene` builds from a pose: nine initialisers for the twelve
entries of a `dMatrix3`, the rest zero. -/
def poseRotation (a : Affine3d) : List ℚ :=
  [a.coeff 0 0, a.coeff 0 1, a.coeff 0 2,
   a.coeff 1 0, a.coeff 1 1, a.coeff 1 2,
   a.coeff 2 0, a.coeff 2 1, a.coeff 2 2, 0, 0, 0]

/-- The first loop of `isValidScene` (lines 698 to 707) from index `i` with `k` iterations
left. -/
def poseLoop (modelnames : List String) (model_poses : List Affine3d) :
    Nat → Nat → State → Except Fault State
  | 0, _, S => .ok S
  | k + 1, i, S =>
    match modelnames[i]? with
    | none => .error .nameIndex
    | some name =>
      match model_poses[i]? with
      | none => .error .poseIndex
      | some a =>
        match mapFind S.m name with
        | none => .error .unknownName
        | some o =>
          poseLoop modelnames model_poses k (i + 1)
            (translateObject S name o a.translation (poseRotation a))

/-- Overwrite consecutive entries of a buffer, the first of them at index `base`. -/
def writeAt (buf : List ℚ) (base : Nat) (vals : List ℚ) : List ℚ :=
  match vals with
  | [] => buf
  | v :: rest => writeAt (buf.set base v) (base + 1) rest

/-- The body of the innermost block of the last loop of `simLoop` (lines 520 to 528) for one
geometry: fill the current half of the double buffer and flip to the other half. -/
def storeTransform (w : World) (o : MyObject) (g : Nat) : MyObject :=
  let Pos := dGeomGetPosition w g
  let Rot := dGeomGetRotation w g
  let p := o.last_matrix_index * 16
  { o with
    matrix_dblbuff := writeAt o.matrix_dblbuff p
      [Rot.getD 0 0, Rot.getD 1 0, Rot.getD 2 0, 0,
       Rot.getD 4 0, Rot.getD 5 0, Rot.getD 6 0, 0,
       Rot.getD 8 0, Rot.getD 9 0, Rot.getD 10 0, 0,
       Pos.x, Pos.y, Pos.z, 1]
    last_matrix_index := if o.last_matrix_index = 0 then 1 else 0 }

/-- The `j` loop of the last loop of `simLoop` for one object: every non-null geometry. -/
def storeTransforms (w : World) (o : MyObject) : MyObject :=
  (o.geom.take GPB).foldl
    (fun acc g => match g with
      | none => acc
      | some h => storeTransform w acc h) o

/-- The last loop of `simLoop` (lines 488 to 536): the objects `obj[0]` to `obj[num-1]`. -/
def updateObjects (w : World) (num : Nat) (obj : List MyObject) : List MyObject :=
  (obj.take num).map (storeTransforms w) ++ obj.drop num

/-- The function `simLoop` of the source (lines 448 to 537).  Reading `obj[i]` for an `i` at or
beyond `NUM` is the fault `objIndex`. -/
def simLoop (E : Engine) (pause : Int) (S : State) : Except Fault State :=
  let run1 := if S.counter = S.dsSTEP then false else S.run
  let counter1 := wrapInt32 (S.counter + 1)
  if NUM < S.num then .error .objIndex
  else
    let world1 := if pause = 0 then E.tick (contactParams S.params) S.world else S.world
    .ok { S with
          run := run1
          counter := counter1
          world := world1
          obj := updateObjects world1 S.num S.obj
          simCalls := S.simCalls + 1 }

/-- The headless loop of `isStableStill`, `for(int i = 0; i <= step; i++) simLoop(0);`, from the
value `i` of the loop counter, with at most `fuel` iterations. -/
def headlessLoop (E : Engine) (step : Int) : Nat → Int → State → Except Fault State
  | 0, i, S => if i ≤ step then .error .fuel else .ok S
  | fuel + 1, i, S =>
    if i ≤ step then
      match simLoop E 0 S with
      | .error e => .error e
      | .ok S1 => headlessLoop E step fuel (wrapInt32 (i + 1)) S1
    else .ok S

/-- The loop of the drawstuff library's `dsSimulationLoop` without user input: call the step
callback until `dsStop` has cleared the flag, at most `fuel` times. -/
def dsSimulationLoop (E : Engine) : Nat → State → Except Fault State
  | 0, _ => .error .fuel
  | fuel + 1, S =>
    match simLoop E 0 S with
    | .error e => .error e
    | .ok S1 => if S1.run then dsSimulationLoop E fuel S1 else .ok S1

/-- The function `drawstuffsimLoop` of the source (lines 543 to 554). -/
def drawstuffsimLoop (E : Engine) (fuel : Nat) (S : State) : Except Fault State :=
  dsSimulationLoop E fuel { S with run := true }

/-- The stepping half of `isStableStill` (lines 584 to 592). -/
def runSteps (E : Engine) (fuel : Nat) (step : Int) (S : State) : Except Fault State :=
  if S.params.DRAW then
    drawstuffsimLoop E fuel { S with counter := 0, dsSTEP := step }
  else
    headlessLoop E step fuel 0 S

/-- The function `isStableStill` of the source (lines 583 to 594): the verdict and the state
left behind. -/
def isStableStill (E : Engine) (fuel : Nat) (modelnames : List String) (step : Int)
    (S : State) : Except Fault (Bool × State) :=
  match runSteps E fuel step S with
  | .error e => .error e
  | .ok S1 =>
    match isValid S1 modelnames with
    | .error e => .error e
    | .ok b => .ok (b, S1)

/-- The function `SceneValidator::isValidScene` of the source (lines 695 to 725): the verdict
and the state left behind. -/
def isValidScene (E : Engine) (fuel : Nat) (modelnames : List String)
    (model_poses : List Affine3d) (S : State) : Except Fault (Bool × State) :=
  let S0 := { S with num := modelnames.length }
  match poseLoop modelnames model_poses S0.num 0 S0 with
  | .error e => .error e
  | .ok Sp =>
    match isStableStill E fuel modelnames Sp.params.STEP1 Sp with
    | .error e => .error e
    | .ok (b1, S1) =>
      if !b1 then .ok (false, S1)
      else
        match isStableStill E fuel modelnames S1.params.STEP2 S1 with
        | .error e => .error e
        | .ok (b2, S2) =>
          if !b2 then .ok (false, S2)
          else
            match isStableStill E fuel modelnames S2.params.STEP3 S2 with
            | .error e => .error e
            | .ok (b3, S3) =>
              if !b3 then .ok (false, S3)
              else
                match isStableStill E fuel modelnames S3.params.STEP4 S3 with
                | .error e => .error e
                | .ok (b4, S4) =>
                  if !b4 then .ok (false, S4)
                  else .ok (true, S4)

/-! ## Parameters -/

/-- Conversion of a `double` to `int`: truncation toward zero; outside the range of `int` the
conversion is undefined. -/
def doubleToInt (v : ℚ) : Except Fault Int :=
  let t := Int.tdiv v.num v.den
  if INT_MIN ≤ t ∧ t ≤ INT_MAX then .ok t else .error .intRange

/-- Conversion of a `double` to `bool`: true exactly for a non-zero value. -/
def doubleToBool (v : ℚ) : Bool := decide (v ≠ 0)

/-- The function `SceneValidator::setParams` of the source (lines 599 to 685): the returned
boolean and the state left behind. -/
def setParams (param_name : String) (param_value : ℚ) (S : State) :
    Except Fault (Bool × State) :=
  if param_name = "STEP1" then
    match doubleToInt param_value with
    | .error e => .error e
    | .ok n => .ok (true, { S with params := { S.params with STEP1 := n } })
  else if param_name = "STEP2" then
    match doubleToInt param_value with
    | .error e => .error e
    | .ok n => .ok (true, { S with params := { S.params with STEP2 := n } })
  else if param_name = "STEP3" then
    match doubleToInt param_value with
    | .error e => .error e
    | .ok n => .ok (true, { S with params := { S.params with STEP3 := n } })
  else if param_name = "STEP4" then
    match doubleToInt param_value with
    | .error e => .error e
    | .ok n => .ok (true, { S with params := { S.params with STEP4 := n } })
  else if param_name = "GRAVITYx" then
    .ok (true, S)
  else if param_name = "GRAVITYy" then
    .ok (true, S)
  else if param_name = "GRAVITYz" then
    .ok (true, S)
  else if param_name = "PLANEa" then
    .ok (true, S)
  else if param_name = "PLANEb" then
    .ok (true, S)
  else if param_name = "PLANEc" then
    .ok (true, S)
  else if param_name = "PLANEd" then
    .ok (true, S)
  else if param_name = "THRESHOLD" then
    .ok (true, { S with params := { S.params with THRESHOLD := param_value } })
  else if param_name = "TIMESTEP" then
    .ok (true, { S with params := { S.params with TIMESTEP := param_value } })
  else if param_name = "FRICTION_mu" then
    .ok (true, { S with params := { S.params with FRICTION_mu := param_value } })
  else if param_name = "FRICTION_mu2" then
    .ok (true, { S with params := { S.params with FRICTION_mu2 := param_value } })
  else if param_name = "BOUNCE" then
    .ok (true, { S with params := { S.params with BOUNCE := param_value } })
  else if param_name = "BOUNCE_vel" then
    .ok (true, { S with params := { S.params with BOUNCE_vel := param_value } })
  else if param_name = "SOFT_CFM" then
    .ok (true, { S with params := { S.params with SOFT_CFM := param_value } })
  else if param_name = "DRAW" then
    .ok (true, { S with params := { S.params with DRAW := doubleToBool param_value } })
  else if param_name = "PRINT_START_POS" then
    .ok (true, { S with params := { S.params with PRINT_START_POS := doubleToBool param_value } })
  else if param_name = "PRINT_END_POS" then
    .ok (true, { S with params := { S.params with PRINT_END_POS := doubleToBool param_value } })
  else if param_name = "PRINT_DELTA_POS" then
    .ok (true, { S with params := { S.params with PRINT_DELTA_POS := doubleToBool param_value } })
  else if param_name = "PRINT_CHKR_RSLT" then
    .ok (true, { S with params := { S.params with PRINT_CHKR_RSLT := doubleToBool param_value } })
  else if param_name = "DENSITY" then
    .ok (true, { S with params := { S.params with DENSITY := param_value } })
  else if param_name = "MAX_CONTACTS" then
    match doubleToInt param_value with
    | .error e => .error e
    | .ok n => .ok (true, { S with params := { S.params with MAX_CONTACTS := n } })
  else if param_name = "PRINT_AABB" then
    .ok (true, { S with params := { S.params with PRINT_AABB := doubleToBool param_value } })
  else if param_name = "PRINT_COM" then
    .ok (true, { S with params := { S.params with PRINT_COM := doubleToBool param_value } })
  else
    .ok (false, S)

/-- The names that the comparison chain of `setParams` handles, in the order of the chain. -/
def handledNames : List String :=
  ["STEP1", "STEP2", "STEP3", "STEP4", "GRAVITYx", "GRAVITYy", "GRAVITYz", "PLANEa", "PLANEb", "PLANEc", "PLANEd",
   "THRESHOLD", "TIMESTEP", "FRICTION_mu", "FRICTION_mu2", "BOUNCE", "BOUNCE_vel", "SOFT_CFM",
   "DRAW", "PRINT_START_POS", "PRINT_END_POS", "PRINT_DELTA_POS", "PRINT_CHKR_RSLT",
   "DENSITY", "MAX_CONTACTS", "PRINT_AABB", "PRINT_COM"]

/-- The names for which `setParams` only prints that the value belongs to the constructor. -/
def constructionOnlyNames : List String :=
  ["GRAVITYx", "GRAVITYy", "GRAVITYz", "PLANEa", "PLANEb", "PLANEc", "PLANEd"]

/-- The names whose parameter is an `int`. -/
def intNames : List String := ["STEP1", "STEP2", "STEP3", "STEP4", "MAX_CONTACTS"]

/-- A boolean parameter read as a number. -/
def boolValue (b : Bool) : ℚ := if b then 1 else 0

/-- Observation of a parameter static by its name, as a number; `none` for a name that is not a
parameter static. -/
def Params.read (P : Params) (key : String) : Option ℚ :=
  if key = "BOUNCE" then some P.BOUNCE
  else if key = "BOUNCE_vel" then some P.BOUNCE_vel
  else if key = "DEFAULT_SCALE" then some P.DEFAULT_SCALE
  else if key = "DENSITY" then some P.DENSITY
  else if key = "DRAW" then some (boolValue P.DRAW)
  else if key = "FRICTION_mu" then some P.FRICTION_mu
  else if key = "FRICTION_mu2" then some P.FRICTION_mu2
  else if key = "MAX_CONTACTS" then some (P.MAX_CONTACTS : ℚ)
  else if key = "GRAVITYx" then some P.GRAVITYx
  else if key = "GRAVITYy" then some P.GRAVITYy
  else if key = "GRAVITYz" then some P.GRAVITYz
  else if key = "PLANEa" then some P.PLANEa
  else if key = "PLANEb" then some P.PLANEb
  else if key = "PLANEc" then some P.PLANEc
  else if key = "PLANEd" then some P.PLANEd
  else if key = "PRINT_AABB" then some (boolValue P.PRINT_AABB)
  else if key = "PRINT_CHKR_RSLT" then some (boolValue P.PRINT_CHKR_RSLT)
  else if key = "PRINT_COM" then some (boolValue P.PRINT_COM)
  else if key = "PRINT_DELTA_POS" then some (boolValue P.PRINT_DELTA_POS)
  else if key = "PRINT_END_POS" then some (boolValue P.PRINT_END_POS)
  else if key = "PRINT_START_POS" then some (boolValue P.PRINT_START_POS)
  else if key = "SOFT_CFM" then some P.SOFT_CFM
  else if key = "STEP1" then some (P.STEP1 : ℚ)
  else if key = "STEP2" then some (P.STEP2 : ℚ)
  else if key = "STEP3" then some (P.STEP3 : ℚ)
  else if key = "STEP4" then some (P.STEP4 : ℚ)
  else if key = "THRESHOLD" then some P.THRESHOLD
  else if key = "TIMESTEP" then some P.TIMESTEP
  else none

/-! ## Vocabulary of the statements -/

/-- The reference positions held in the object array, slot by slot. -/
def objCenters (S : State) : List Vec3 := S.obj.map (fun o => o.center)

/-- Everything the checks read apart from the world is the same in both states: the parameter
statics, the registry map (with the reference positions stored in it), the object count, the
scaling table and the reference positions of the object array. -/
def SameRegistry (S S1 : State) : Prop :=
  S1.params = S.params ∧ S1.m = S.m ∧ S1.num = S.num ∧ S1.scaling = S.scaling ∧
    objCenters S1 = objCenters S

/-- Every name of the list is a key of the registry map. -/
def AllRegistered (S : State) (modelnames : List String) : Prop :=
  ∀ n ∈ modelnames, ∃ o, mapFind S.m n = some o

/-! ## Concrete scenes used to exercise the statements -/

/-- An engine under which nothing moves. -/
def restingEngine : Engine where
  tick := fun _ w => w

/-- An engine under which every body drops by one unit per tick. -/
def fallingEngine : Engine where
  tick := fun _ w =>
    { w with bodies := w.bodies.map (fun b => { b with pos := ⟨b.pos.x, b.pos.y, b.pos.z - 1⟩ }) }

/-- The start-up state with one registered object, named base, whose body has handle 0. -/
def oneObjectState : State :=
  { State.initial with
    m := [("base", { MyObject.blank with model_ID := "base" })]
    world := ⟨Vec3.zero, [], [Body.blank]⟩ }

/-- The state `oneObjectState` with one step configured for each phase. -/
def quickState : State :=
  { oneObjectState with
    params := { Params.initial with STEP1 := 1, STEP2 := 1, STEP3 := 1, STEP4 := 1 } }

/-- The pose with the identity rotation and no translation. -/
def identityPose : Affine3d where
  coeff := fun i j => if i = j then 1 else 0

/-- The pose with the identity rotation and the translation (1, 2, 3). -/
def liftedPose : Affine3d where
  coeff := fun i j => if j = 3 then (i : ℚ) + 1 else if i = j then 1 else 0

/-! ## Registration of models -/

/-- An `obj_face` of the loader: the three `vertex_index` entries of a triangle. -/
structure obj_face where
  vertex_index0 : Int
  vertex_index1 : Int
  vertex_index2 : Int

/-- What an `objLoader` holds after `load`: the vertex list and the face list.  The counts
`vertexCount` and `faceCount` are the lengths of the lists. -/
structure objLoader where
  vertexList : List Vec3
  faceList : List obj_face

/-- The `class data` of the source: the nine coordinates of a triangle. -/
structure data where
  x1 : ℚ
  y1 : ℚ
  z1 : ℚ
  x2 : ℚ
  y2 : ℚ
  z2 : ℚ
  x3 : ℚ
  y3 : ℚ
  z3 : ℚ

/-- Reading `objData->vertexList[i]`; an index outside the list is the fault `vertexIndex`. -/
def vertexAt (objData : objLoader) (i : Int) : Except Fault Vec3 :=
  if 0 ≤ i then
    match objData.vertexList[i.toNat]? with
    | some v => .ok v
    | none => .error .vertexIndex
  else .error .vertexIndex

/-- The loop that fills the `triangles` array of `setObject` (lines 305 to 316). -/
def fillTriangles (objData : objLoader) : List obj_face → Except Fault (List data)
  | [] => .ok []
  | o :: rest =>
    match vertexAt objData o.vertex_index0 with
    | .error e => .error e
    | .ok a =>
      match vertexAt objData o.vertex_index1 with
      | .error e => .error e
      | .ok b =>
        match vertexAt objData o.vertex_index2 with
        | .error e => .error e
        | .ok c =>
          match fillTriangles objData rest with
          | .error e => .error e
          | .ok ts => .ok (⟨a.x, a.y, a.z, b.x, b.y, b.z, c.x, c.y, c.z⟩ :: ts)

/-- The value assigned to `currentVolume` in the loop of `setObject` (line 321). -/
def currentVolume (t : data) : ℚ :=
  (t.x1 * t.y2 * t.z3 - t.x1 * t.y3 * t.z2 - t.x2 * t.y1 * t.z3 + t.x2 * t.y3 * t.z1
    + t.x3 * t.y1 * t.z2 - t.x3 * t.y2 * t.z1) / 6

/-- The accumulators `totalVolume`, `xCenter`, `yCenter`, `zCenter` of `setObject`. -/
structure Accum where
  totalVolume : ℚ
  xCenter : ℚ
  yCenter : ℚ
  zCenter : ℚ

/-- The accumulation loop of `setObject` (lines 319 to 325). -/
def accumulate : List data → Accum → Accum
  | [], acc => acc
  | t :: rest, acc =>
    accumulate rest
      { totalVolume := acc.totalVolume + currentVolume t
        xCenter := acc.xCenter + ((t.x1 + t.x2 + t.x3) / 4) * currentVolume t
        yCenter := acc.yCenter + ((t.y1 + t.y2 + t.y3) / 4) * currentVolume t
        zCenter := acc.zCenter + ((t.z1 + t.z2 + t.z3) / 4) * currentVolume t }

/-- A quotient of two `double` values; a zero divisor is the fault `zeroDivide`. -/
def divide (a b : ℚ) : Except Fault ℚ :=
  if b = 0 then .error .zeroDivide else .ok (a / b)

/-- The centre of mass `{COMX, COMY, COMZ}` that `setObject` computes from the triangles
(lines 317 to 328). -/
def centerOfMassOf (triangles : List data) (SCALE : ℚ) : Except Fault (List ℚ) :=
  let acc := accumulate triangles ⟨0, 0, 0, 0⟩
  match divide acc.xCenter acc.totalVolume with
  | .error e => .error e
  | .ok qx =>
    match divide qx SCALE with
    | .error e => .error e
    | .ok COMX =>
      match divide acc.yCenter acc.totalVolume with
      | .error e => .error e
      | .ok qy =>
        match divide qy SCALE with
        | .error e => .error e
        | .ok COMY =>
          match divide acc.zCenter acc.totalVolume with
          | .error e => .error e
          | .ok qz =>
            match divide qz SCALE with
            | .error e => .error e
            | .ok COMZ => .ok [COMX, COMY, COMZ]

/-- The entries that the index loops of `setObject` append to `indexDrawVec`. -/
def faceRows (faces : List obj_face) : List (List Int) :=
  faces.map (fun f => [f.vertex_index0, f.vertex_index1, f.vertex_index2])

/-- The entries that the index loops of `setObject` append to `indexGeomVec`. -/
def faceIndices : List obj_face → List Int
  | [] => []
  | f :: rest => f.vertex_index0 :: f.vertex_index1 :: f.vertex_index2 :: faceIndices rest

/-- The entries that the vertex loops of `setObject` append to a vertex buffer: each raw
coordinate divided by `SCALE` and shifted by the centre of mass.  `SCALE` is not zero here,
the centre of mass has been computed. -/
def recentred (verts : List Vec3) (SCALE : ℚ) (centerOfMass : List ℚ) : List ℚ :=
  match verts with
  | [] => []
  | v :: rest =>
    (v.x / SCALE - centerOfMass.getD 0 0) :: (v.y / SCALE - centerOfMass.getD 1 0) ::
      (v.z / SCALE - centerOfMass.getD 2 0) :: recentred rest SCALE centerOfMass

/-- The function `setObject` of the source (lines 292 to 375) in exact arithmetic; `load` stands
for the `.obj` parser.  The buffers are appended to, as `push_back` does.  The function in the
types of the source is `setObjectFloat`. -/
def setObject (load : String → objLoader) (object : MyObject) (number : ℚ)
    (filename : String) : Except Fault MyObject :=
  let SCALE := number
  let objData := load filename
  match fillTriangles objData objData.faceList with
  | .error e => .error e
  | .ok triangles =>
    match centerOfMassOf triangles SCALE with
    | .error e => .error e
    | .ok com =>
      .ok { object with
            indCount := objData.faceList.length
            vertCount := objData.vertexList.length
            centerOfMass := com
            indexDrawVec := object.indexDrawVec ++ faceRows objData.faceList
            indexGeomVec := object.indexGeomVec ++ faceIndices objData.faceList
            vertexDrawVec := object.vertexDrawVec ++ recentred objData.vertexList SCALE com
            vertexGeomVec := object.vertexGeomVec ++ recentred objData.vertexList SCALE com }

/-- The function `makeObject` of the source (lines 379 to 413): a new body with a trimesh built
from the first `vertCount` vertices and the first `3 * indCount` indices of the geometry
buffers; its handle is stored in `body` and in `geom[0]`. -/
def makeObject (P : Params) (w : World) (object : MyObject) : MyObject × World :=
  let handle := w.bodies.length
  let newBody : Body :=
    { Body.blank with
      meshVerts := object.vertexGeomVec.take (3 * object.vertCount.toNat)
      meshInds := object.indexGeomVec.take (3 * object.indCount.toNat)
      density := P.DENSITY }
  ({ object with body := handle, geom := object.geom.set 0 (some handle) },
    { w with bodies := w.bodies ++ [newBody] })

/-- Reading `obj[i]`; an index at or beyond `NUM` is the fault `objIndex`. -/
def objAt (S : State) (i : Nat) : Except Fault MyObject :=
  if i < NUM then
    match S.obj[i]? with
    | some o => .ok o
    | none => .error .objIndex
  else .error .objIndex

/-- Reading `scaling[i]`; an index at or beyond `NUM` is the fault `objIndex`. -/
def scalingAt (S : State) (i : Nat) : Except Fault ℚ :=
  if i < NUM then
    match S.scaling[i]? with
    | some x => .ok x
    | none => .error .objIndex
  else .error .objIndex

/-- The registration loop of `setModels` (lines 566 to 572) from index `i` with `k` iterations
left. -/
def registerLoop (load : String → objLoader) (modelnames filenames : List String) :
    Nat → Nat → State → Except Fault State
  | 0, _, S => .ok S
  | k + 1, i, S =>
    match objAt S i with
    | .error e => .error e
    | .ok o =>
      match modelnames[i]? with
      | none => .error .nameIndex
      | some name =>
        match filenames[i]? with
        | none => .error .nameIndex
        | some file =>
          match scalingAt S i with
          | .error e => .error e
          | .ok sc =>
            match setObject load { o with model_ID := name } sc file with
            | .error e => .error e
            | .ok o1 =>
              registerLoop load modelnames filenames k (i + 1)
                { S with
                  obj := S.obj.set i (makeObject S.params S.world o1).1
                  world := (makeObject S.params S.world o1).2 }

/-- The loop of `setModels` that copies the objects into the map (lines 575 to 577) from
index `i` with `k` iterations left. -/
def mapLoop (modelnames : List String) : Nat → Nat → State → Except Fault State
  | 0, _, S => .ok S
  | k + 1, i, S =>
    match modelnames[i]? with
    | none => .error .nameIndex
    | some name =>
      match objAt S i with
      | .error e => .error e
      | .ok o => mapLoop modelnames k (i + 1) { S with m := mapAssign S.m name o }

/-- The function `SceneValidator::setModels` of the source (lines 559 to 578). -/
def setModels (load : String → objLoader) (modelnames filenames : List String)
    (S : State) : Except Fault State :=
  if modelnames.length ≠ filenames.length then
    mapLoop modelnames S.num 0 S
  else
    match registerLoop load modelnames filenames filenames.length 0
        { S with num := filenames.length } with
    | .error e => .error e
    | .ok S1 => mapLoop modelnames S1.num 0 S1

/-- The body of `SceneValidator::setScale` (line 689): the assignment
`scaling[thisObject] = scaleFactor;`. -/
def setScaleBody (thisObject : Int) (scaleFactor : ℚ) (S : State) : Except Fault State :=
  if 0 ≤ thisObject ∧ thisObject < NUM then
    .ok { S with scaling := S.scaling.set thisObject.toNat scaleFactor }
  else .error .objIndex

/-- The function `SceneValidator::setScale` of the source (lines 688 to 690), declared to return
`bool`.  After the assignment the closing brace is reached without a `return` statement, which
is undefined behaviour: no call returns. -/
def setScale (thisObject : Int) (scaleFactor : ℚ) (S : State) : Except Fault (Bool × State) :=
  match setScaleBody thisObject scaleFactor S with
  | .error e => .error e
  | .ok _ => .error .noReturn

/-- The default constructor `SceneValidator::SceneValidator()` of the source (lines 751 to
770): a new empty world with the gravity and the ground plane of the parameter statics, and
every entry of the scaling table set to `DEFAULT_SCALE`. -/
def constructDefault (S : State) : State :=
  { S with
    world :=
      { gravity := ⟨S.params.GRAVITYx, S.params.GRAVITYy, S.params.GRAVITYz⟩
        planes := [(S.params.PLANEa, S.params.PLANEb, S.params.PLANEc, S.params.PLANEd)]
        bodies := [] }
    scaling := List.replicate NUM S.params.DEFAULT_SCALE }

/-! ## Vocabulary of the statements about meshes -/

/-- The scalar triple product `a . (b x c)`. -/
def tripleProduct (a b c : Vec3) : ℚ :=
  a.x * (b.y * c.z - b.z * c.y) + a.y * (b.z * c.x - b.x * c.z) + a.z * (b.x * c.y - b.y * c.x)

/-- The first vertex of a triangle. -/
def data.a (t : data) : Vec3 := ⟨t.x1, t.y1, t.z1⟩

/-- The second vertex of a triangle. -/
def data.b (t : data) : Vec3 := ⟨t.x2, t.y2, t.z2⟩

/-- The third vertex of a triangle. -/
def data.c (t : data) : Vec3 := ⟨t.x3, t.y3, t.z3⟩

/-- The signed volume `V = a . (b x c) / 6` of the tetrahedron that a triangle forms with the
origin. -/
def tetraVolume (t : data) : ℚ := tripleProduct t.a t.b t.c / 6

/-- The total signed volume of a triangle list: the sum of the `V_i`. -/
def volumeSum (ts : List data) : ℚ := (ts.map tetraVolume).sum

/-- The x coordinate of the sum over the triangles of `V_i * (a_i + b_i + c_i) / 4`. -/
def momentX (ts : List data) : ℚ :=
  (ts.map (fun t => tetraVolume t * ((t.a.x + t.b.x + t.c.x) / 4))).sum

/-- The y coordinate of the sum over the triangles of `V_i * (a_i + b_i + c_i) / 4`. -/
def momentY (ts : List data) : ℚ :=
  (ts.map (fun t => tetraVolume t * ((t.a.y + t.b.y + t.c.y) / 4))).sum

/-- The z coordinate of the sum over the triangles of `V_i * (a_i + b_i + c_i) / 4`. -/
def momentZ (ts : List data) : ℚ :=
  (ts.map (fun t => tetraVolume t * ((t.a.z + t.b.z + t.c.z) / 4))).sum

/-- The centre of mass as the specification words it: the volume-weighted sum of the
tetrahedron centroids, divided by the total signed volume, divided by the scale. -/
def centroidSpec (ts : List data) (scale : ℚ) : List ℚ :=
  [momentX ts / volumeSum ts / scale, momentY ts / volumeSum ts / scale,
    momentZ ts / volumeSum ts / scale]

/-- The directed edges of the faces of a mesh, as pairs of vertex indices. -/
def edgesOf : List obj_face → List (Int × Int)
  | [] => []
  | f :: rest =>
    (f.vertex_index0, f.vertex_index1) :: (f.vertex_index1, f.vertex_index2) ::
      (f.vertex_index2, f.vertex_index0) :: edgesOf rest

/-- A closed, consistently oriented mesh: reversing every directed edge permutes the directed
edges, so each directed edge is matched by exactly one oppositely directed edge. -/
def ClosedOriented (faces : List obj_face) : Prop :=
  ((edgesOf faces).map Prod.swap).Perm (edgesOf faces)

/-- The vertices held in a flat vertex buffer, three coordinates each. -/
def bufferVertices : List ℚ → List Vec3
  | x :: y :: z :: rest => ⟨x, y, z⟩ :: bufferVertices rest
  | _ => []

/-- A vertex as the vertex loops of `setObject` store it: divided by `s` and shifted by the
centre of mass `c`. -/
def recentreVertex (s : ℚ) (c : List ℚ) (v : Vec3) : Vec3 :=
  ⟨v.x / s - c.getD 0 0, v.y / s - c.getD 1 0, v.z / s - c.getD 2 0⟩

/-- A triangle with its three vertices recentred. -/
def recentreTriangle (s : ℚ) (c : List ℚ) (t : data) : data :=
  ⟨t.x1 / s - c.getD 0 0, t.y1 / s - c.getD 1 0, t.z1 / s - c.getD 2 0,
    t.x2 / s - c.getD 0 0, t.y2 / s - c.getD 1 0, t.z2 / s - c.getD 2 0,
    t.x3 / s - c.getD 0 0, t.y3 / s - c.getD 1 0, t.z3 / s - c.getD 2 0⟩

/-- The vertex a valid index denotes (the origin for an index outside the list). -/
def vertexOr (objData : objLoader) (i : Int) : Vec3 :=
  objData.vertexList.getD i.toNat Vec3.zero

/-- The sum over the three directed edges of a triangle of a function of the edge's end
points. -/
def edgeSum (h : Vec3 → Vec3 → ℚ) (t : data) : ℚ := h t.a t.b + h t.b t.c + h t.c t.a

/-- The unit tetrahedron with outward faces. -/
def tetraMesh : objLoader where
  vertexList := [⟨0, 0, 0⟩, ⟨1, 0, 0⟩, ⟨0, 1, 0⟩, ⟨0, 0, 1⟩]
  faceList := [⟨0, 2, 1⟩, ⟨0, 1, 3⟩, ⟨0, 3, 2⟩, ⟨1, 2, 3⟩]

/-- The triangles of the unit tetrahedron. -/
def tetraTriangles : List data :=
  [⟨0, 0, 0, 0, 1, 0, 1, 0, 0⟩, ⟨0, 0, 0, 1, 0, 0, 0, 0, 1⟩, ⟨0, 0, 0, 0, 0, 1, 0, 1, 0⟩,
    ⟨1, 0, 0, 0, 1, 0, 0, 0, 1⟩]

/-- A single flat triangle in the plane `z = 0`: a mesh of zero volume. -/
def flatMesh : objLoader where
  vertexList := [⟨0, 0, 0⟩, ⟨1, 0, 0⟩, ⟨0, 1, 0⟩]
  faceList := [⟨0, 1, 2⟩]

/-- A parser that delivers the unit tetrahedron for every file but `flat.obj`, for which it
delivers the flat triangle. -/
def demoLoad (filename : String) : objLoader :=
  if filename = "flat.obj" then flatMesh else tetraMesh

/-! ## Validator objects, and further vocabulary -/

/-- The custom constructor `SceneValidator::SceneValidator(double GRAVITYx, ...)` of the source
(lines 728 to 747).  Its parameters shadow the statics of the same names: the new empty world
gets the gravity and the ground plane of the arguments, every entry of the scaling table is set
to the argument `DEFAULT_SCALE`, and the parameter statics are not written. -/
def constructCustom (GRAVITYx GRAVITYy GRAVITYz PLANEa PLANEb PLANEc PLANEd DEFAULT_SCALE : ℚ)
    (S : State) : State :=
  { S with
    world :=
      { gravity := ⟨GRAVITYx, GRAVITYy, GRAVITYz⟩
        planes := [(PLANEa, PLANEb, PLANEc, PLANEd)]
        bodies := [] }
    scaling := List.replicate NUM DEFAULT_SCALE }

/-- The data members of a `SceneValidator` object (sceneValidator.h, lines 22 to 24): the handles
of its thread pool and of its threading implementation.  Everything else the member functions
use is a file-scope static of sceneValidator.cpp, held in `State`. -/
structure Validator where
  pool : Nat
  threading : Nat
  deriving DecidableEq, Repr

/-- What the member functions called on a validator object read: the statics, whichever the
object. -/
def Validator.view (_self : Validator) (S : State) : State := S

/-- The call `self->setParams(param_name, param_value)`. -/
def Validator.callSetParams (_self : Validator) (param_name : String) (param_value : ℚ)
    (S : State) : Except Fault (Bool × State) :=
  setParams param_name param_value S

/-- The call `self->setScale(thisObject, scaleFactor)`. -/
def Validator.callSetScale (_self : Validator) (thisObject : Int) (scaleFactor : ℚ)
    (S : State) : Except Fault (Bool × State) :=
  setScale thisObject scaleFactor S

/-- The call `self->setModels(modelnames, filenames)`. -/
def Validator.callSetModels (_self : Validator) (load : String → objLoader)
    (modelnames filenames : List String) (S : State) : Except Fault State :=
  setModels load modelnames filenames S

/-- The call `self->isValidScene(modelnames, model_poses)`. -/
def Validator.callIsValidScene (_self : Validator) (E : Engine) (fuel : Nat)
    (modelnames : List String) (model_poses : List Affine3d) (S : State) :
    Except Fault (Bool × State) :=
  isValidScene E fuel modelnames model_poses S

/-- Truncation toward zero, as the specification words the conversion to `int`: the floor of a
non-negative value, the ceiling of a negative one. -/
def truncSpec (v : ℚ) : Int := if 0 ≤ v then ⌊v⌋ else ⌈v⌉

/-- The state with the parameter `THRESHOLD` replaced. -/
def withThreshold (t : ℚ) (S : State) : State :=
  { S with params := { S.params with THRESHOLD := t } }

/-- A face with its vertex order reversed. -/
def reverseFace (f : obj_face) : obj_face :=
  ⟨f.vertex_index2, f.vertex_index1, f.vertex_index0⟩

/-- A mesh with the vertex order of every face reversed. -/
def reverseMesh (objData : objLoader) : objLoader :=
  { objData with faceList := objData.faceList.map reverseFace }

/-- A triangle with its vertex order reversed. -/
def reverseTriangle (t : data) : data :=
  ⟨t.x3, t.y3, t.z3, t.x2, t.y2, t.z2, t.x1, t.y1, t.z1⟩

/-- The one-object state with the largest `int` as the step count of phase 1. -/
def maxStepState : State :=
  { oneObjectState with params := { Params.initial with STEP1 := INT_MAX } }

/-- Rounding of a rational to the nearest integer, a tie going to the even one. -/
def roundHalfEven (z : ℚ) : Int :=
  if z - ⌊z⌋ < 1 / 2 then ⌊z⌋
  else if 1 / 2 < z - ⌊z⌋ then ⌊z⌋ + 1
  else if ⌊z⌋ % 2 = 0 then ⌊z⌋ else ⌊z⌋ + 1

/-- A binary floating-point format: `prec` significand bits, `emin` the exponent of the least
positive value, `emax` the exponent of the largest binade. -/
structure Format where
  prec : Nat
  emin : Int
  emax : Int

/-- The format of `double`. -/
def binary64 : Format := ⟨53, -1074, 1023⟩

/-- The format of `float`. -/
def binary32 : Format := ⟨24, -149, 127⟩

/-- The exponent of the spacing of the format's values at the magnitude of `x`. -/
def Format.quantum (F : Format) (x : ℚ) : Int := max (Int.log 2 |x| - (F.prec - 1)) F.emin

/-- Rounding of a non-negative rational to the grid of the format at its magnitude, to nearest,
ties to even, the exponent range unbounded above. -/
def Format.roundPos (F : Format) (x : ℚ) : ℚ :=
  roundHalfEven (x / 2 ^ F.quantum x) * 2 ^ F.quantum x

/-- Rounding of a rational, by magnitude and sign. -/
def Format.roundQ (F : Format) (x : ℚ) : ℚ :=
  if 0 ≤ x then F.roundPos x else -F.roundPos (-x)

/-- A value of a floating-point type: not a number, an infinity, or a finite value.  The two
zeros are not told apart. -/
inductive FP where
  | nan
  | inf (negative : Bool)
  | fin (value : ℚ)
  deriving DecidableEq

/-- Rounding of a rational to the format: to nearest, ties to even; a result beyond the largest
finite value is an infinity. -/
def Format.round (F : Format) (x : ℚ) : FP :=
  if 2 ^ (F.emax + 1) ≤ |F.roundQ x| then .inf (decide (x < 0)) else .fin (F.roundQ x)

/-- The finite values of the format: those that rounding leaves as they are. -/
def Format.Representable (F : Format) (x : ℚ) : Prop := F.round x = .fin x

/-- Subtraction in the format. -/
def FP.sub (F : Format) : FP → FP → FP
  | .nan, _ => .nan
  | _, .nan => .nan
  | .inf a, .inf b => if a = b then .nan else .inf a
  | .inf a, .fin _ => .inf a
  | .fin _, .inf b => .inf (!b)
  | .fin x, .fin y => F.round (x - y)

/-- Absolute value, `std::abs`. -/
def FP.abs : FP → FP
  | .nan => .nan
  | .inf _ => .inf false
  | .fin x => .fin |x|

/-- The comparison `a > b`: false when an operand is not a number. -/
def FP.gt : FP → FP → Bool
  | .nan, _ => false
  | _, .nan => false
  | .inf a, .inf b => !a && b
  | .inf a, .fin _ => !a
  | .fin _, .inf b => b
  | .fin x, .fin y => decide (y < x)

/-- The comparison `a <= b`: false when an operand is not a number. -/
def FP.le : FP → FP → Bool
  | .nan, _ => false
  | _, .nan => false
  | .inf a, .inf b => a || !b
  | .inf a, .fin _ => a
  | .fin _, .inf b => !b
  | .fin x, .fin y => decide (x ≤ y)

/-- Three `double` values. -/
structure FPVec3 where
  x : FP
  y : FP
  z : FP

/-- The value `std::abs(start - end)` of `inStaticEquilibrium`, in `double`. -/
def deltaDouble (start finish : FP) : FP := FP.abs (FP.sub binary64 start finish)

/-- The function `inStaticEquilibrium` of the source (lines 227 to 259) in `double` arithmetic:
the reference position `center`, the position `pos` of the body and `THRESHOLD` are `double`
values, the differences are rounded, and a comparison with a NaN operand is false. -/
def inStaticEquilibriumDouble (THRESHOLD : FP) (center pos : FPVec3) : Bool :=
  let deltaX := deltaDouble center.x pos.x
  let deltaY := deltaDouble center.y pos.y
  let deltaZ := deltaDouble center.z pos.z
  if FP.gt deltaX THRESHOLD || FP.gt deltaY THRESHOLD || FP.gt deltaZ THRESHOLD then
    false
  else
    true

/-- The coordinates of a vector as finite `double` values. -/
def Vec3.toFP (v : Vec3) : FPVec3 := ⟨.fin v.x, .fin v.y, .fin v.z⟩

/-! ## The arithmetic of `setObject` in the types of the source -/

/-- The result of an operation or a conversion in a format, on finite operands: the exact
result rounded.  A result outside the finite range of the type is undefined behaviour, the
fault `floatRange`. -/
def Format.finite (F : Format) (x : ℚ) : Except Fault ℚ :=
  match F.round x with
  | .fin y => .ok y
  | _ => .error .floatRange

/-- A result of type `float`. -/
def f32 (x : ℚ) : Except Fault ℚ := binary32.finite x

/-- A result of type `double`. -/
def f64 (x : ℚ) : Except Fault ℚ := binary64.finite x

/-- A quotient of two `double` values, rounded; a zero divisor is the fault `zeroDivide`. -/
def divideDouble (a b : ℚ) : Except Fault ℚ :=
  if b = 0 then .error .zeroDivide else f64 (a / b)

/-- The loop that fills the `triangles` array of `setObject` (lines 305 to 316), the members of
`class data` being of type `float`: every coordinate is converted to `float`. -/
def fillTrianglesFloat (objData : objLoader) : List obj_face → Except Fault (List data)
  | [] => .ok []
  | o :: rest => do
    let a ← vertexAt objData o.vertex_index0
    let x1 ← f32 a.x
    let y1 ← f32 a.y
    let z1 ← f32 a.z
    let b ← vertexAt objData o.vertex_index1
    let x2 ← f32 b.x
    let y2 ← f32 b.y
    let z2 ← f32 b.z
    let c ← vertexAt objData o.vertex_index2
    let x3 ← f32 c.x
    let y3 ← f32 c.y
    let z3 ← f32 c.z
    let ts ← fillTrianglesFloat objData rest
    .ok (⟨x1, y1, z1, x2, y2, z2, x3, y3, z3⟩ :: ts)

/-- The value assigned to `currentVolume` (line 321): an expression of `float` operands, every
product, difference, sum and the quotient by 6 rounded to `float`, evaluated left to right. -/
def currentVolumeFloat (t : data) : Except Fault ℚ := do
  let p1 ← f32 (t.x1 * t.y2)
  let p1 ← f32 (p1 * t.z3)
  let p2 ← f32 (t.x1 * t.y3)
  let p2 ← f32 (p2 * t.z2)
  let p3 ← f32 (t.x2 * t.y1)
  let p3 ← f32 (p3 * t.z3)
  let p4 ← f32 (t.x2 * t.y3)
  let p4 ← f32 (p4 * t.z1)
  let p5 ← f32 (t.x3 * t.y1)
  let p5 ← f32 (p5 * t.z2)
  let p6 ← f32 (t.x3 * t.y2)
  let p6 ← f32 (p6 * t.z1)
  let s ← f32 (p1 - p2)
  let s ← f32 (s - p3)
  let s ← f32 (s + p4)
  let s ← f32 (s + p5)
  let s ← f32 (s - p6)
  f32 (s / 6)

/-- The term `((a + b + c) / 4) * currentVolume` of the accumulation loop: the sum and the
quotient in `float`, the product with the `double` volume in `double`. -/
def momentTermFloat (a b c currentVolume : ℚ) : Except Fault ℚ := do
  let s ← f32 (a + b)
  let s ← f32 (s + c)
  let s ← f32 (s / 4)
  f64 (s * currentVolume)

/-- The accumulation loop of `setObject` (lines 319 to 325) with `double` accumulators. -/
def accumulateFloat : List data → Accum → Except Fault Accum
  | [], acc => .ok acc
  | t :: rest, acc => do
    let cv ← currentVolumeFloat t
    let totalVolume ← f64 (acc.totalVolume + cv)
    let mx ← momentTermFloat t.x1 t.x2 t.x3 cv
    let xCenter ← f64 (acc.xCenter + mx)
    let my ← momentTermFloat t.y1 t.y2 t.y3 cv
    let yCenter ← f64 (acc.yCenter + my)
    let mz ← momentTermFloat t.z1 t.z2 t.z3 cv
    let zCenter ← f64 (acc.zCenter + mz)
    accumulateFloat rest ⟨totalVolume, xCenter, yCenter, zCenter⟩

/-- The centre of mass that `setObject` stores (lines 317 to 333): `COMX`, `COMY`, `COMZ` are
computed in `double` and converted to `float` on being stored in `centerOfMass`. -/
def centerOfMassFloat (triangles : List data) (SCALE : ℚ) : Except Fault (List ℚ) := do
  let acc ← accumulateFloat triangles ⟨0, 0, 0, 0⟩
  let qx ← divideDouble acc.xCenter acc.totalVolume
  let COMX ← divideDouble qx SCALE
  let qy ← divideDouble acc.yCenter acc.totalVolume
  let COMY ← divideDouble qy SCALE
  let qz ← divideDouble acc.zCenter acc.totalVolume
  let COMZ ← divideDouble qz SCALE
  let cx ← f32 COMX
  let cy ← f32 COMY
  let cz ← f32 COMZ
  .ok [cx, cy, cz]

/-- The value pushed into a vertex buffer (lines 363 to 372): the quotient and the difference in
`double`, the result converted to `float`. -/
def bufferEntry (raw SCALE com : ℚ) : Except Fault ℚ := do
  let q ← divideDouble raw SCALE
  let d ← f64 (q - com)
  f32 d

/-- The entries that the vertex loops of `setObject` append to a vertex buffer of `float`. -/
def recentredFloat (verts : List Vec3) (SCALE : ℚ) (centerOfMass : List ℚ) :
    Except Fault (List ℚ) :=
  match verts with
  | [] => .ok []
  | v :: rest => do
    let x ← bufferEntry v.x SCALE (centerOfMass.getD 0 0)
    let y ← bufferEntry v.y SCALE (centerOfMass.getD 1 0)
    let z ← bufferEntry v.z SCALE (centerOfMass.getD 2 0)
    let r ← recentredFloat rest SCALE centerOfMass
    .ok (x :: y :: z :: r)

/-- The function `setObject` of the source (lines 292 to 375) in the types of the source:
`float` triangles, `double` accumulators, `float` centre of mass and `float` vertex buffers. -/
def setObjectFloat (load : String → objLoader) (object : MyObject) (number : ℚ)
    (filename : String) : Except Fault MyObject := do
  let SCALE := number
  let objData := load filename
  let triangles ← fillTrianglesFloat objData objData.faceList
  let com ← centerOfMassFloat triangles SCALE
  let vs ← recentredFloat objData.vertexList SCALE com
  .ok { object with
        indCount := objData.faceList.length
        vertCount := objData.vertexList.length
        centerOfMass := com
        indexDrawVec := object.indexDrawVec ++ faceRows objData.faceList
        indexGeomVec := object.indexGeomVec ++ faceIndices objData.faceList
        vertexDrawVec := object.vertexDrawVec ++ vs
        vertexGeomVec := object.vertexGeomVec ++ vs }

/-! ## A second mesh -/

/-- A triangular bipyramid with outward faces: the apexes (0,0,1) and (0,0,-1) over the triangle
(1,0,0), (0,1,0), (-1,-1,0).  Its centre of mass is the origin. -/
def bipyramidMesh : objLoader where
  vertexList := [⟨0, 0, 1⟩, ⟨1, 0, 0⟩, ⟨0, 1, 0⟩, ⟨-1, -1, 0⟩, ⟨0, 0, -1⟩]
  faceList := [⟨0, 1, 2⟩, ⟨0, 2, 3⟩, ⟨0, 3, 1⟩, ⟨4, 2, 1⟩, ⟨4, 3, 2⟩, ⟨4, 1, 3⟩]

/-- A parser that delivers the bipyramid for `bipyramid.obj` and is `demoLoad` otherwise. -/
def sceneLoad (filename : String) : objLoader :=
  if filename = "bipyramid.obj" then bipyramidMesh else demoLoad filename

/-- The triangles of the bipyramid. -/
def bipyramidTriangles : List data :=
  [⟨0, 0, 1, 1, 0, 0, 0, 1, 0⟩, ⟨0, 0, 1, 0, 1, 0, -1, -1, 0⟩, ⟨0, 0, 1, -1, -1, 0, 1, 0, 0⟩,
    ⟨0, 0, -1, 0, 1, 0, 1, 0, 0⟩, ⟨0, 0, -1, -1, -1, 0, 0, 1, 0⟩, ⟨0, 0, -1, 1, 0, 0, -1, -1, 0⟩]

/-- The triangles that the faces of the unit tetrahedron select among the first four vertices of
the bipyramid. -/
def staleTriangles : List data :=
  [⟨0, 0, 1, 0, 1, 0, 1, 0, 0⟩, ⟨0, 0, 1, 1, 0, 0, -1, -1, 0⟩, ⟨0, 0, 1, -1, -1, 0, 0, 1, 0⟩,
    ⟨1, 0, 0, 0, 1, 0, -1, -1, 0⟩]

/-! ## Static equilibrium of one object -/

/-- In exact arithmetic `inStaticEquilibrium` returns true exactly when the displacement between
the recorded reference position and the body's current position is at most `THRESHOLD` on each
of the three axes; a displacement equal to `THRESHOLD` on every axis is stable, and a
displacement above `THRESHOLD` on any single axis is not. -/
theorem inStaticEquilibrium_iff (S : State) (object : MyObject) :
    (inStaticEquilibrium S object = true ↔
      |object.center.x - (dBodyGetPosition S.world object.body).x| ≤ S.params.THRESHOLD ∧
      |object.center.y - (dBodyGetPosition S.world object.body).y| ≤ S.params.THRESHOLD ∧
      |object.center.z - (dBodyGetPosition S.world object.body).z| ≤ S.params.THRESHOLD) ∧
    (|object.center.x - (dBodyGetPosition S.world object.body).x| = S.params.THRESHOLD →
      |object.center.y - (dBodyGetPosition S.world object.body).y| = S.params.THRESHOLD →
      |object.center.z - (dBodyGetPosition S.world object.body).z| = S.params.THRESHOLD →
      inStaticEquilibrium S object = true) ∧
    (|object.center.x - (dBodyGetPosition S.world object.body).x| > S.params.THRESHOLD ∨
      |object.center.y - (dBodyGetPosition S.world object.body).y| > S.params.THRESHOLD ∨
      |object.center.z - (dBodyGetPosition S.world object.body).z| > S.params.THRESHOLD →
      inStaticEquilibrium S object = false) := by
  have key : inStaticEquilibrium S object = true ↔
      |object.center.x - (dBodyGetPosition S.world object.body).x| ≤ S.params.THRESHOLD ∧
      |object.center.y - (dBodyGetPosition S.world object.body).y| ≤ S.params.THRESHOLD ∧
      |object.center.z - (dBodyGetPosition S.world object.body).z| ≤ S.params.THRESHOLD := by
    unfold inStaticEquilibrium
    simp only [gt_iff_lt]
    split_ifs with h
    · simp only [Bool.false_eq_true, false_iff, not_and_or, not_le]
      exact h
    · simp only [true_iff]
      simp only [not_or, not_lt] at h
      exact h
  refine ⟨key, ?_, ?_⟩
  · intro hx hy hz
    exact key.mpr ⟨hx.le, hy.le, hz.le⟩
  · intro h
    cases hb : inStaticEquilibrium S object with
    | false => rfl
    | true =>
      have h3 := key.mp hb
      rcases h with h | h | h
      · exact absurd h3.1 (not_le.mpr h)
      · exact absurd h3.2.1 (not_le.mpr h)
      · exact absurd h3.2.2 (not_le.mpr h)

/-! ## Parameters -/

/-- An integer inside the `int` range converts to itself. -/
theorem doubleToInt_intCast (n : Int) (hlo : INT_MIN ≤ n) (hhi : n ≤ INT_MAX) :
    doubleToInt (n : ℚ) = .ok n := by
  simp [doubleToInt, hlo, hhi]

/-- The numbers 1 and 0 convert to the booleans they stand for. -/
theorem doubleToBool_boolValue (b : Bool) : doubleToBool (boolValue b) = b := by
  cases b <;> simp [doubleToBool, boolValue]

/-- C8: for a name outside the comparison chain of `setParams` and any value, `setParams`
returns false and leaves the whole state, hence every parameter, unchanged. -/
theorem setParams_unhandled (S : State) (param_name : String) (param_value : ℚ)
    (h : param_name ∉ handledNames) :
    setParams param_name param_value S = .ok (false, S) := by
  simp only [handledNames, List.mem_cons, List.mem_singleton, List.not_mem_nil, or_false,
    not_or] at h
  unfold setParams
  simp [h]

/-- Witness for C8: the name NOT_A_KEY on the start-up state. -/
theorem setParams_unhandled_witness :
    setParams "NOT_A_KEY" 1 State.initial = .ok (false, State.initial) :=
  setParams_unhandled State.initial "NOT_A_KEY" 1 (by decide)

/-- C9: for each supported key and each value of its type, `setParams` returns true and the
stored parameter is the given value: any `v` for the real-valued keys, any integer `n` of the
`int` range for the integer keys, and 1 or 0 (the value of a boolean `b`) for the toggles. -/
theorem setParams_stores (S : State) (v : ℚ) (n : Int) (b : Bool)
    (hlo : INT_MIN ≤ n) (hhi : n ≤ INT_MAX) :
    (∃ S1, setParams "THRESHOLD" v S = .ok (true, S1) ∧ S1.params.THRESHOLD = v) ∧
    (∃ S1, setParams "TIMESTEP" v S = .ok (true, S1) ∧ S1.params.TIMESTEP = v) ∧
    (∃ S1, setParams "FRICTION_mu" v S = .ok (true, S1) ∧ S1.params.FRICTION_mu = v) ∧
    (∃ S1, setParams "FRICTION_mu2" v S = .ok (true, S1) ∧ S1.params.FRICTION_mu2 = v) ∧
    (∃ S1, setParams "BOUNCE" v S = .ok (true, S1) ∧ S1.params.BOUNCE = v) ∧
    (∃ S1, setParams "BOUNCE_vel" v S = .ok (true, S1) ∧ S1.params.BOUNCE_vel = v) ∧
    (∃ S1, setParams "SOFT_CFM" v S = .ok (true, S1) ∧ S1.params.SOFT_CFM = v) ∧
    (∃ S1, setParams "DENSITY" v S = .ok (true, S1) ∧ S1.params.DENSITY = v) ∧
    (∃ S1, setParams "STEP1" (n : ℚ) S = .ok (true, S1) ∧ S1.params.STEP1 = n) ∧
    (∃ S1, setParams "STEP2" (n : ℚ) S = .ok (true, S1) ∧ S1.params.STEP2 = n) ∧
    (∃ S1, setParams "STEP3" (n : ℚ) S = .ok (true, S1) ∧ S1.params.STEP3 = n) ∧
    (∃ S1, setParams "STEP4" (n : ℚ) S = .ok (true, S1) ∧ S1.params.STEP4 = n) ∧
    (∃ S1, setParams "MAX_CONTACTS" (n : ℚ) S = .ok (true, S1) ∧ S1.params.MAX_CONTACTS = n) ∧
    (∃ S1, setParams "DRAW" (boolValue b) S = .ok (true, S1) ∧ S1.params.DRAW = b) ∧
    (∃ S1, setParams "PRINT_START_POS" (boolValue b) S = .ok (true, S1) ∧ S1.params.PRINT_START_POS = b) ∧
    (∃ S1, setParams "PRINT_END_POS" (boolValue b) S = .ok (true, S1) ∧ S1.params.PRINT_END_POS = b) ∧
    (∃ S1, setParams "PRINT_DELTA_POS" (boolValue b) S = .ok (true, S1) ∧ S1.params.PRINT_DELTA_POS = b) ∧
    (∃ S1, setParams "PRINT_CHKR_RSLT" (boolValue b) S = .ok (true, S1) ∧ S1.params.PRINT_CHKR_RSLT = b) ∧
    (∃ S1, setParams "PRINT_AABB" (boolValue b) S = .ok (true, S1) ∧ S1.params.PRINT_AABB = b) ∧
    (∃ S1, setParams "PRINT_COM" (boolValue b) S = .ok (true, S1) ∧ S1.params.PRINT_COM = b) := by
  have hn := doubleToInt_intCast n hlo hhi
  have hb := doubleToBool_boolValue b
  refine ⟨?_, ?_, ?_, ?_, ?_, ?_, ?_, ?_, ?_, ?_, ?_, ?_, ?_, ?_, ?_, ?_, ?_, ?_, ?_, ?_⟩ <;>
    simp [setParams, hn, hb]

/-- Witness for C9: the value 6 for the integer keys, 1/2 for the real keys, true for the
toggles, on the start-up state. -/
theorem setParams_stores_witness :
    ∃ S1, setParams "STEP1" ((6 : Int) : ℚ) State.initial = .ok (true, S1) ∧
      S1.params.STEP1 = 6 :=
  (setParams_stores State.initial (1/2) 6 true (by decide) (by decide)).2.2.2.2.2.2.2.2.1

/-- An out-of-range conversion is the only way `doubleToInt` fails. -/
theorem doubleToInt_cases (v : ℚ) :
    (∃ n, doubleToInt v = .ok n) ∨
    (doubleToInt v = .error .intRange ∧
      ¬ (INT_MIN ≤ Int.tdiv v.num v.den ∧ Int.tdiv v.num v.den ≤ INT_MAX)) := by
  unfold doubleToInt
  by_cases h : INT_MIN ≤ Int.tdiv v.num v.den ∧ Int.tdiv v.num v.den ≤ INT_MAX
  · left
    exact ⟨Int.tdiv v.num v.den, by simp [h]⟩
  · right
    exact ⟨by simp [h], h⟩

/-- Reading by name sees every parameter static: two parameter records with the same readings
are equal. -/
theorem Params.read_complete (P Q : Params) (h : ∀ key, P.read key = Q.read key) : P = Q := by
  have hb : ∀ a b : Bool, boolValue a = boolValue b → a = b := by
    intro a b
    cases a <;> cases b <;> simp [boolValue]
  cases P
  cases Q
  simp only [Params.mk.injEq]
  refine ⟨?_, ?_, ?_, ?_, ?_, ?_, ?_, ?_, ?_, ?_, ?_, ?_, ?_, ?_, ?_, ?_, ?_, ?_, ?_, ?_, ?_,
    ?_, ?_, ?_, ?_, ?_, ?_, ?_⟩
  · simpa [Params.read] using h "BOUNCE"
  · simpa [Params.read] using h "BOUNCE_vel"
  · simpa [Params.read] using h "DEFAULT_SCALE"
  · simpa [Params.read] using h "DENSITY"
  · exact hb _ _ (by simpa [Params.read] using h "DRAW")
  · simpa [Params.read] using h "FRICTION_mu"
  · simpa [Params.read] using h "FRICTION_mu2"
  · simpa [Params.read] using h "MAX_CONTACTS"
  · simpa [Params.read] using h "GRAVITYx"
  · simpa [Params.read] using h "GRAVITYy"
  · simpa [Params.read] using h "GRAVITYz"
  · simpa [Params.read] using h "PLANEa"
  · simpa [Params.read] using h "PLANEb"
  · simpa [Params.read] using h "PLANEc"
  · simpa [Params.read] using h "PLANEd"
  · exact hb _ _ (by simpa [Params.read] using h "PRINT_AABB")
  · exact hb _ _ (by simpa [Params.read] using h "PRINT_CHKR_RSLT")
  · exact hb _ _ (by simpa [Params.read] using h "PRINT_COM")
  · exact hb _ _ (by simpa [Params.read] using h "PRINT_DELTA_POS")
  · exact hb _ _ (by simpa [Params.read] using h "PRINT_END_POS")
  · exact hb _ _ (by simpa [Params.read] using h "PRINT_START_POS")
  · simpa [Params.read] using h "SOFT_CFM"
  · simpa [Params.read] using h "STEP1"
  · simpa [Params.read] using h "STEP2"
  · simpa [Params.read] using h "STEP3"
  · simpa [Params.read] using h "STEP4"
  · simpa [Params.read] using h "THRESHOLD"
  · simpa [Params.read] using h "TIMESTEP"

/-- C10: `setParams` changes at most the parameter it is called with.  Whenever the call is
defined, everything outside the parameter statics (the scaling table, the object array, the
registry map with its reference positions, the world, the counters) is unchanged, every
parameter read under another name is unchanged, and for the construction-only names the whole
state is unchanged.  The call is undefined only when an `int` parameter is given a value whose
truncation is outside the `int` range. -/
theorem setParams_frame (S : State) (param_name : String) (param_value : ℚ) :
    (∃ b S1, setParams param_name param_value S = .ok (b, S1) ∧
        S1.scaling = S.scaling ∧ S1.m = S.m ∧ S1.obj = S.obj ∧ S1.world = S.world ∧
        S1.num = S.num ∧ S1 = { S with params := S1.params } ∧
        (∀ key, key ≠ param_name → S1.params.read key = S.params.read key) ∧
        (param_name ∈ constructionOnlyNames → S1 = S)) ∨
    (setParams param_name param_value S = .error .intRange ∧ param_name ∈ intNames ∧
        ¬ (INT_MIN ≤ Int.tdiv param_value.num param_value.den ∧
            Int.tdiv param_value.num param_value.den ≤ INT_MAX)) := by
  by_cases hk : param_name ∈ handledNames
  · simp only [handledNames, List.mem_cons, List.mem_singleton, List.not_mem_nil,
      or_false] at hk
    rcases hk with h | h | h | h | h | h | h | h | h | h | h | h | h | h | h | h | h | h | h |
      h | h | h | h | h | h | h | h <;> subst h
    all_goals first
      | (left
         simp only [setParams, String.reduceEq, if_true, if_false]
         refine ⟨_, _, rfl, rfl, rfl, rfl, rfl, rfl, rfl, ?_, ?_⟩
         · intro key hkey
           first
             | rfl
             | simp [Params.read, hkey]
         · first
             | (intro _
                rfl)
             | simp [constructionOnlyNames])
      | (rcases doubleToInt_cases param_value with ⟨n, hn⟩ | ⟨he, hr⟩
         · left
           simp only [setParams, String.reduceEq, if_true, if_false, hn]
           refine ⟨_, _, rfl, rfl, rfl, rfl, rfl, rfl, rfl, ?_, ?_⟩
           · intro key hkey
             simp [Params.read, hkey]
           · simp [constructionOnlyNames]
         · right
           exact ⟨by simp [setParams, he], by simp [intNames], hr⟩)
  · left
    refine ⟨false, S, setParams_unhandled S param_name param_value hk, rfl, rfl, rfl, rfl,
      rfl, rfl, ?_, ?_⟩
    · intro key _
      rfl
    · intro _
      rfl

/-! ## The stepping loops -/

/-- A value of the `int` range is left alone by the wrap. -/
theorem wrapInt32_of_range (x : Int) (hlo : INT_MIN ≤ x) (hhi : x ≤ INT_MAX) :
    wrapInt32 x = x := by
  unfold wrapInt32
  unfold INT_MIN at hlo
  unfold INT_MAX at hhi
  omega

theorem SameRegistry.refl (S : State) : SameRegistry S S :=
  ⟨rfl, rfl, rfl, rfl, rfl⟩

theorem SameRegistry.trans {S S1 S2 : State} (h1 : SameRegistry S S1)
    (h2 : SameRegistry S1 S2) : SameRegistry S S2 := by
  obtain ⟨a1, b1, c1, d1, e1⟩ := h1
  obtain ⟨a2, b2, c2, d2, e2⟩ := h2
  exact ⟨a2.trans a1, b2.trans b1, c2.trans c1, d2.trans d1, e2.trans e1⟩

/-- Storing a transform does not touch the reference position. -/
theorem storeTransforms_center (w : World) (o : MyObject) :
    (storeTransforms w o).center = o.center := by
  unfold storeTransforms
  generalize o.geom.take GPB = gs
  induction gs generalizing o with
  | nil => rfl
  | cons g rest ih =>
    rw [List.foldl_cons]
    cases g with
    | none => exact ih o
    | some h =>
      rw [ih]
      rfl

/-- The last loop of `simLoop` leaves every reference position of the object array alone. -/
theorem updateObjects_centers (w : World) (num : Nat) (obj : List MyObject) :
    (updateObjects w num obj).map (fun o => o.center) = obj.map (fun o => o.center) := by
  unfold updateObjects
  rw [List.map_append, List.map_map]
  have h : ((fun o => o.center) ∘ storeTransforms w) = (fun o : MyObject => o.center) := by
    funext o
    exact storeTransforms_center w o
  rw [h, ← List.map_append, List.take_append_drop]

/-- With at most `NUM` objects a call of `simLoop` returns, and what it returns. -/
theorem simLoop_ok (E : Engine) (pause : Int) (S : State) (h : S.num ≤ NUM) :
    ∃ S1, simLoop E pause S = .ok S1 ∧ SameRegistry S S1 ∧ S1.simCalls = S.simCalls + 1 ∧
      S1.dsSTEP = S.dsSTEP ∧ S1.counter = wrapInt32 (S.counter + 1) ∧
      S1.run = (if S.counter = S.dsSTEP then false else S.run) := by
  unfold simLoop
  rw [if_neg (Nat.not_lt.mpr h)]
  exact ⟨_, rfl, ⟨rfl, rfl, rfl, rfl, updateObjects_centers _ _ _⟩, rfl, rfl, rfl, rfl⟩

/-- Whatever a returning call of `simLoop` does, it is one more call and it leaves the
parameters, the registry map, the object count, the scaling table and every reference position
alone. -/
theorem simLoop_frame (E : Engine) (pause : Int) (S S1 : State)
    (h : simLoop E pause S = .ok S1) :
    SameRegistry S S1 ∧ S1.simCalls = S.simCalls + 1 := by
  by_cases hn : S.num ≤ NUM
  · obtain ⟨S2, hs, hr, hc, -⟩ := simLoop_ok E pause S hn
    rw [hs] at h
    injection h with h
    subst h
    exact ⟨hr, hc⟩
  · unfold simLoop at h
    rw [if_pos (Nat.lt_of_not_le hn)] at h
    cases h

/-- A returning run of the headless loop leaves the registry alone and never lowers the number
of `simLoop` calls. -/
theorem headlessLoop_frame (E : Engine) (step : Int) (fuel : Nat) :
    ∀ (i : Int) (S S1 : State), headlessLoop E step fuel i S = .ok S1 →
      SameRegistry S S1 ∧ S.simCalls ≤ S1.simCalls := by
  induction fuel with
  | zero =>
    intro i S S1 h
    unfold headlessLoop at h
    split_ifs at h
    injection h with h
    subst h
    exact ⟨SameRegistry.refl _, le_refl _⟩
  | succ f ih =>
    intro i S S1 h
    unfold headlessLoop at h
    split_ifs at h
    · cases hs : simLoop E 0 S with
      | error e =>
        rw [hs] at h
        cases h
      | ok S2 =>
        rw [hs] at h
        obtain ⟨hr, hc⟩ := simLoop_frame E 0 S S2 hs
        obtain ⟨hr2, hc2⟩ := ih _ S2 S1 h
        exact ⟨hr.trans hr2, by omega⟩
    · injection h with h
      subst h
      exact ⟨SameRegistry.refl _, le_refl _⟩

/-- The headless loop entered with counter `i` between 0 and `step + 1`, for a `step` below the
largest `int`, returns once it has the fuel for `step + 1 - i` iterations, and it has then
called `simLoop` exactly `step + 1 - i` times. -/
theorem headlessLoop_calls (E : Engine) (step : Int) (hstep : step < INT_MAX) (fuel : Nat) :
    ∀ (i : Int) (S : State), 0 ≤ i → i ≤ step + 1 → S.num ≤ NUM →
      (step + 1 - i).toNat ≤ fuel →
      ∃ S1, headlessLoop E step fuel i S = .ok S1 ∧
        S1.simCalls = S.simCalls + (step + 1 - i).toNat := by
  induction fuel with
  | zero =>
    intro i S h0 h1 _ hf
    have hi : ¬ i ≤ step := by omega
    unfold headlessLoop
    rw [if_neg hi]
    exact ⟨S, rfl, by omega⟩
  | succ f ih =>
    intro i S h0 h1 hn hf
    unfold headlessLoop
    by_cases hi : i ≤ step
    · rw [if_pos hi]
      obtain ⟨S2, hs, hr, hc, -⟩ := simLoop_ok E 0 S hn
      rw [hs]
      have hw : wrapInt32 (i + 1) = i + 1 := by
        apply wrapInt32_of_range
        · unfold INT_MIN
          omega
        · unfold INT_MAX at *
          omega
      rw [hw]
      have hn2 : S2.num ≤ NUM := by
        rw [hr.2.2.1]
        exact hn
      obtain ⟨S1, h1', hc1⟩ := ih (i + 1) S2 (by omega) (by omega) hn2 (by omega)
      exact ⟨S1, h1', by omega⟩
    · rw [if_neg hi]
      exact ⟨S, rfl, by omega⟩

/-- A returning run of the drawstuff loop leaves the registry alone and never lowers the number
of `simLoop` calls. -/
theorem dsSimulationLoop_frame (E : Engine) (fuel : Nat) :
    ∀ (S S1 : State), dsSimulationLoop E fuel S = .ok S1 →
      SameRegistry S S1 ∧ S.simCalls ≤ S1.simCalls := by
  induction fuel with
  | zero =>
    intro S S1 h
    unfold dsSimulationLoop at h
    cases h
  | succ f ih =>
    intro S S1 h
    unfold dsSimulationLoop at h
    cases hs : simLoop E 0 S with
    | error e =>
      rw [hs] at h
      cases h
    | ok S2 =>
      rw [hs] at h
      obtain ⟨hr, hc⟩ := simLoop_frame E 0 S S2 hs
      simp only at h
      split_ifs at h
      · obtain ⟨hr2, hc2⟩ := ih S2 S1 h
        exact ⟨hr.trans hr2, by omega⟩
      · injection h with h
        subst h
        exact ⟨hr, by omega⟩

/-- The stepping half of `isStableStill` leaves the registry alone and never lowers the number
of `simLoop` calls. -/
theorem runSteps_frame (E : Engine) (fuel : Nat) (step : Int) (S S1 : State)
    (h : runSteps E fuel step S = .ok S1) :
    SameRegistry S S1 ∧ S.simCalls ≤ S1.simCalls := by
  unfold runSteps at h
  split_ifs at h
  · unfold drawstuffsimLoop at h
    have hd := dsSimulationLoop_frame E fuel _ S1 h
    exact hd
  · exact headlessLoop_frame E step fuel 0 S S1 h

/-- The drawstuff loop entered with the flag set and `counter` between 0 and `dsSTEP` returns
once it has the fuel for `dsSTEP - counter + 1` iterations, and it has then called `simLoop`
exactly `dsSTEP - counter + 1` times: the call in which `counter` equals `dsSTEP` asks for the
stop and still runs. -/
theorem dsSimulationLoop_calls (E : Engine) (step : Int) (hstep : step ≤ INT_MAX)
    (fuel : Nat) :
    ∀ (S : State), S.dsSTEP = step → S.run = true → 0 ≤ S.counter → S.counter ≤ step →
      S.num ≤ NUM → (step - S.counter).toNat + 1 ≤ fuel →
      ∃ S1, dsSimulationLoop E fuel S = .ok S1 ∧
        S1.simCalls = S.simCalls + (step - S.counter).toNat + 1 := by
  induction fuel with
  | zero =>
    intro S _ _ _ _ _ hf
    omega
  | succ f ih =>
    intro S hds hrun h0 h1 hn hf
    unfold dsSimulationLoop
    obtain ⟨S2, hs, hr, hc, hd, hcnt, hrun2⟩ := simLoop_ok E 0 S hn
    rw [hs]
    simp only
    by_cases hlast : S.counter = S.dsSTEP
    · rw [if_pos hlast] at hrun2
      rw [hrun2]
      refine ⟨S2, by simp, ?_⟩
      rw [hc]
      have : (step - S.counter).toNat = 0 := by
        rw [hlast, hds]
        simp
      omega
    · rw [if_neg hlast, hrun] at hrun2
      rw [hrun2, if_pos rfl]
      have hlt : S.counter < step := by
        rw [hds] at hlast
        omega
      have hw : wrapInt32 (S.counter + 1) = S.counter + 1 := by
        apply wrapInt32_of_range
        · unfold INT_MIN
          omega
        · omega
      rw [hw] at hcnt
      have hn2 : S2.num ≤ NUM := by
        rw [hr.2.2.1]
        exact hn
      obtain ⟨S1, h1', hc1⟩ := ih S2 (hd.trans hds) hrun2 (by omega) (by omega) hn2
        (by rw [hcnt]; omega)
      refine ⟨S1, h1', ?_⟩
      rw [hc1, hc, hcnt]
      omega

/-- In either stepping mode, a phase with a step count `step` between 0 and the largest `int`
(exclusive) returns once it has the fuel, after exactly `step + 1` calls of `simLoop`. -/
theorem runSteps_calls (E : Engine) (fuel : Nat) (step : Int) (S : State)
    (h0 : 0 ≤ step) (hstep : step < INT_MAX) (hn : S.num ≤ NUM)
    (hf : (step + 1).toNat ≤ fuel) :
    ∃ S1, runSteps E fuel step S = .ok S1 ∧ S1.simCalls = S.simCalls + (step + 1).toNat := by
  unfold runSteps
  by_cases hd : S.params.DRAW = true
  · rw [if_pos hd]
    unfold drawstuffsimLoop
    obtain ⟨S1, h1, hc⟩ := dsSimulationLoop_calls E step (le_of_lt hstep) fuel
      { S with counter := 0, dsSTEP := step, run := true } rfl rfl (le_refl _) h0 hn
      (by simp only [sub_zero]; omega)
    refine ⟨S1, h1, ?_⟩
    rw [hc]
    simp only [sub_zero]
    omega
  · rw [if_neg hd]
    obtain ⟨S1, h1, hc⟩ := headlessLoop_calls E step hstep fuel 0 S (le_refl _) (by omega) hn
      (by simpa using hf)
    exact ⟨S1, h1, by simpa using hc⟩

/-! ## The registry map -/

theorem mapFind_mapModify_same (m : List (String × MyObject)) (name : String)
    (f : MyObject → MyObject) (o : MyObject) (h : mapFind m name = some o) :
    mapFind (mapModify m name f) name = some (f o) := by
  induction m with
  | nil => simp [mapFind] at h
  | cons p rest ih =>
    obtain ⟨k, v⟩ := p
    unfold mapFind at h
    unfold mapModify
    by_cases hk : k = name
    · rw [if_pos hk] at h
      rw [if_pos hk]
      unfold mapFind
      rw [if_pos hk]
      injection h with h
      rw [h]
    · rw [if_neg hk] at h
      rw [if_neg hk]
      unfold mapFind
      rw [if_neg hk]
      exact ih h

theorem mapFind_mapModify_other (m : List (String × MyObject)) (name other : String)
    (f : MyObject → MyObject) (h : other ≠ name) :
    mapFind (mapModify m name f) other = mapFind m other := by
  induction m with
  | nil => rfl
  | cons p rest ih =>
    obtain ⟨k, v⟩ := p
    unfold mapModify
    by_cases hk : k = name
    · rw [if_pos hk]
      unfold mapFind
      have : ¬ k = other := by
        rw [hk]
        exact fun e => h e.symm
      rw [if_neg this, if_neg this]
    · rw [if_neg hk]
      unfold mapFind
      by_cases ho : k = other
      · rw [if_pos ho, if_pos ho]
      · rw [if_neg ho, if_neg ho]
        exact ih

theorem mapFind_mapModify_none (m : List (String × MyObject)) (name other : String)
    (f : MyObject → MyObject) (h : mapFind m other = none) :
    mapFind (mapModify m name f) other = none := by
  by_cases ho : other = name
  · subst ho
    induction m with
    | nil => rfl
    | cons p rest ih =>
      obtain ⟨k, v⟩ := p
      unfold mapFind at h
      by_cases hk : k = other
      · rw [if_pos hk] at h
        cases h
      · rw [if_neg hk] at h
        unfold mapModify
        rw [if_neg hk]
        unfold mapFind
        rw [if_neg hk]
        exact ih h
  · rw [mapFind_mapModify_other m name other f ho]
    exact h

/-! ## The scene check -/

/-- The loop of `isValid` over the names from index `i` on, all of them registered: it returns,
and its verdict is the conjunction of `inStaticEquilibrium` over exactly those names. -/
theorem isValidFrom_spec (S : State) (modelnames : List String) :
    ∀ (k i : Nat), i + k = modelnames.length →
      (∀ n ∈ modelnames.drop i, ∃ o, mapFind S.m n = some o) →
      ∃ b, isValidFrom S modelnames k i = .ok b ∧
        (b = true ↔ ∀ n ∈ modelnames.drop i,
          ∃ o, mapFind S.m n = some o ∧ inStaticEquilibrium S o = true) := by
  intro k
  induction k with
  | zero =>
    intro i hi _
    refine ⟨true, rfl, ?_⟩
    have : modelnames.drop i = [] := List.drop_eq_nil_of_le (by omega)
    rw [this]
    simp
  | succ k ih =>
    intro i hi hreg
    have hlt : i < modelnames.length := by omega
    have hdrop : modelnames.drop i = modelnames[i] :: modelnames.drop (i + 1) :=
      List.drop_eq_getElem_cons hlt
    rw [hdrop] at hreg ⊢
    obtain ⟨o, ho⟩ := hreg modelnames[i] (List.mem_cons_self _ _)
    unfold isValidFrom
    rw [List.getElem?_eq_getElem hlt]
    simp only [ho]
    cases hb : inStaticEquilibrium S o with
    | false =>
      refine ⟨false, by simp, ?_⟩
      simp only [Bool.false_eq_true, false_iff, not_forall]
      refine ⟨modelnames[i], List.mem_cons_self _ _, ?_⟩
      rintro ⟨o2, ho2, hb2⟩
      rw [ho] at ho2
      injection ho2 with ho2
      rw [← ho2, hb] at hb2
      cases hb2
    | true =>
      obtain ⟨b, hrec, hiff⟩ := ih (i + 1) (by omega)
        (fun n hn => hreg n (List.mem_cons_of_mem _ hn))
      refine ⟨b, by simpa using hrec, ?_⟩
      rw [hiff]
      constructor
      · intro h n hn
        rcases List.mem_cons.mp hn with h1 | h1
        · subst h1
          exact ⟨o, ho, hb⟩
        · exact h n h1
      · intro h n hn
        exact h n (List.mem_cons_of_mem _ hn)

/-- The scene check returns the final value of `stable`. -/
theorem isValid_eq (S : State) (modelnames : List String) (b : Bool)
    (h : isValidFrom S modelnames S.num 0 = .ok b) : isValid S modelnames = .ok b := by
  unfold isValid
  rw [h]
  cases b <;> simp

/-! ## Applying the poses -/

/-- What `translateObject` leaves alone. -/
theorem translateObject_frame (S : State) (name : String) (o : MyObject) (c : Vec3)
    (R : List ℚ) :
    (translateObject S name o c R).params = S.params ∧
    (translateObject S name o c R).num = S.num ∧
    (translateObject S name o c R).scaling = S.scaling ∧
    (translateObject S name o c R).obj = S.obj ∧
    (translateObject S name o c R).simCalls = S.simCalls ∧
    (translateObject S name o c R).counter = S.counter :=
  ⟨rfl, rfl, rfl, rfl, rfl, rfl⟩

/-- The registry entry that `translateObject` writes through afterwards holds the given
position as its reference position. -/
theorem translateObject_center (S : State) (name : String) (o : MyObject) (c : Vec3)
    (R : List ℚ) (h : mapFind S.m name = some o) :
    ∃ o1, mapFind (translateObject S name o c R).m name = some o1 ∧ o1.center = c ∧
      o1.body = o.body := by
  refine ⟨_, mapFind_mapModify_same S.m name _ o h, ?_, rfl⟩
  cases c
  rfl

/-- The first loop of `isValidScene` makes no `simLoop` call and leaves the parameters, the
object count, the scaling table and the object array alone. -/
theorem poseLoop_frame (modelnames : List String) (model_poses : List Affine3d) :
    ∀ (k i : Nat) (S Sp : State), poseLoop modelnames model_poses k i S = .ok Sp →
      Sp.params = S.params ∧ Sp.num = S.num ∧ Sp.scaling = S.scaling ∧ Sp.obj = S.obj ∧
        Sp.simCalls = S.simCalls ∧ Sp.counter = S.counter := by
  intro k
  induction k with
  | zero =>
    intro i S Sp h
    unfold poseLoop at h
    injection h with h
    subst h
    exact ⟨rfl, rfl, rfl, rfl, rfl, rfl⟩
  | succ k ih =>
    intro i S Sp h
    unfold poseLoop at h
    cases hn : modelnames[i]? with
    | none => simp [hn] at h
    | some name =>
      cases hp : model_poses[i]? with
      | none => simp [hn, hp] at h
      | some a =>
        cases hf : mapFind S.m name with
        | none => simp [hn, hp, hf] at h
        | some o =>
          simp only [hn, hp, hf] at h
          have hrec := ih _ _ _ h
          exact hrec

/-- A name that the remaining iterations do not mention keeps its registry entry. -/
theorem poseLoop_untouched (modelnames : List String) (model_poses : List Affine3d)
    (name : String) :
    ∀ (k i : Nat) (S Sp : State), poseLoop modelnames model_poses k i S = .ok Sp →
      (∀ j, i ≤ j → j < i + k → modelnames[j]? ≠ some name) →
      mapFind Sp.m name = mapFind S.m name := by
  intro k
  induction k with
  | zero =>
    intro i S Sp h _
    unfold poseLoop at h
    injection h with h
    subst h
    rfl
  | succ k ih =>
    intro i S Sp h hno
    unfold poseLoop at h
    cases hn : modelnames[i]? with
    | none => simp [hn] at h
    | some name1 =>
      cases hp : model_poses[i]? with
      | none => simp [hn, hp] at h
      | some a =>
        cases hf : mapFind S.m name1 with
        | none => simp [hn, hp, hf] at h
        | some o =>
          simp only [hn, hp, hf] at h
          have hne : name ≠ name1 := by
            intro e
            apply hno i (le_refl _) (by omega)
            rw [hn, e]
          rw [ih _ _ _ h (fun j h1 h2 => hno j (by omega) (by omega))]
          exact mapFind_mapModify_other S.m name1 name _ hne

/-- After the first loop of `isValidScene`, the registry entry of a name holds the translation
of the pose at the last index at which the name occurs. -/
theorem poseLoop_center (modelnames : List String) (model_poses : List Affine3d)
    (name : String) (a : Affine3d) (j : Nat) (hname : modelnames[j]? = some name)
    (hpose : model_poses[j]? = some a) :
    ∀ (k i : Nat) (S Sp : State), poseLoop modelnames model_poses k i S = .ok Sp →
      i ≤ j → j < i + k →
      (∀ j1, j < j1 → j1 < i + k → modelnames[j1]? ≠ some name) →
      ∃ o, mapFind Sp.m name = some o ∧ o.center = a.translation := by
  intro k
  induction k with
  | zero =>
    intro i S Sp _ h1 h2 _
    omega
  | succ k ih =>
    intro i S Sp h h1 h2 hlast
    unfold poseLoop at h
    cases hn : modelnames[i]? with
    | none => simp [hn] at h
    | some name1 =>
      cases hp : model_poses[i]? with
      | none => simp [hn, hp] at h
      | some a1 =>
        cases hf : mapFind S.m name1 with
        | none => simp [hn, hp, hf] at h
        | some o =>
          simp only [hn, hp, hf] at h
          by_cases hij : i = j
          · subst hij
            rw [hn] at hname
            injection hname with hname
            subst hname
            rw [hp] at hpose
            injection hpose with hpose
            subst hpose
            obtain ⟨o1, ho1, hc1, -⟩ :=
              translateObject_center S name1 o a1.translation (poseRotation a1) hf
            refine ⟨o1, ?_, hc1⟩
            rw [poseLoop_untouched modelnames model_poses name1 k (i + 1) _ Sp h
              (fun j1 h3 h4 => hlast j1 (by omega) (by omega))]
            exact ho1
          · exact ih (i + 1) _ Sp h (by omega) (by omega)
              (fun j1 h3 h4 => hlast j1 h3 (by omega))

/-! ## The four phases -/

/-- A phase returns a verdict exactly when its stepping half returns and the scene check on the
state it leaves returns that verdict. -/
theorem isStableStill_ok_iff (E : Engine) (fuel : Nat) (modelnames : List String)
    (step : Int) (S S1 : State) (b : Bool) :
    isStableStill E fuel modelnames step S = .ok (b, S1) ↔
      runSteps E fuel step S = .ok S1 ∧ isValid S1 modelnames = .ok b := by
  unfold isStableStill
  cases hr : runSteps E fuel step S with
  | error e => simp
  | ok S2 =>
    simp only [Except.ok.injEq]
    constructor
    · intro h
      cases hv : isValid S2 modelnames with
      | error e =>
        rw [hv] at h
        cases h
      | ok b2 =>
        rw [hv] at h
        simp only [Except.ok.injEq, Prod.mk.injEq] at h
        obtain ⟨h1, h2⟩ := h
        subst h1 h2
        exact ⟨rfl, hv⟩
    · rintro ⟨h1, h2⟩
      subst h1
      rw [h2]

/-- The stepping half of a phase leaves the parameter statics alone. -/
theorem runSteps_params (E : Engine) (fuel : Nat) (step : Int) (S S1 : State)
    (h : runSteps E fuel step S = .ok S1) : S1.params = S.params :=
  (runSteps_frame E fuel step S S1 h).1.1

/-- The verdict true of `isValidScene`, phase by phase, with the step count of each phase read
from the state the phase starts in. -/
theorem isValidScene_true_chain (E : Engine) (fuel : Nat) (modelnames : List String)
    (model_poses : List Affine3d) (S S4 : State) :
    isValidScene E fuel modelnames model_poses S = .ok (true, S4) ↔
      ∃ Sp S1 S2 S3,
        poseLoop modelnames model_poses modelnames.length 0
          { S with num := modelnames.length } = .ok Sp ∧
        isStableStill E fuel modelnames Sp.params.STEP1 Sp = .ok (true, S1) ∧
        isStableStill E fuel modelnames S1.params.STEP2 S1 = .ok (true, S2) ∧
        isStableStill E fuel modelnames S2.params.STEP3 S2 = .ok (true, S3) ∧
        isStableStill E fuel modelnames S3.params.STEP4 S3 = .ok (true, S4) := by
  unfold isValidScene
  simp only
  constructor
  · intro h
    cases hp : poseLoop modelnames model_poses modelnames.length 0
        { S with num := modelnames.length } with
    | error e => simp [hp] at h
    | ok Sp =>
      simp only [hp] at h
      cases h1 : isStableStill E fuel modelnames Sp.params.STEP1 Sp with
      | error e => simp [h1] at h
      | ok r1 =>
        obtain ⟨b1, S1⟩ := r1
        simp only [h1] at h
        cases b1 with
        | false => simp at h
        | true =>
          simp only [Bool.not_true, Bool.false_eq_true, if_false] at h
          cases h2 : isStableStill E fuel modelnames S1.params.STEP2 S1 with
          | error e => simp [h2] at h
          | ok r2 =>
            obtain ⟨b2, S2⟩ := r2
            simp only [h2] at h
            cases b2 with
            | false => simp at h
            | true =>
              simp only [Bool.not_true, Bool.false_eq_true, if_false] at h
              cases h3 : isStableStill E fuel modelnames S2.params.STEP3 S2 with
              | error e => simp [h3] at h
              | ok r3 =>
                obtain ⟨b3, S3⟩ := r3
                simp only [h3] at h
                cases b3 with
                | false => simp at h
                | true =>
                  simp only [Bool.not_true, Bool.false_eq_true, if_false] at h
                  cases h4 : isStableStill E fuel modelnames S3.params.STEP4 S3 with
                  | error e => simp [h4] at h
                  | ok r4 =>
                    obtain ⟨b4, S4a⟩ := r4
                    simp only [h4] at h
                    cases b4 with
                    | false => simp at h
                    | true =>
                      simp only [Bool.not_true, Bool.false_eq_true, if_false,
                        Except.ok.injEq, Prod.mk.injEq, true_and] at h
                      subst h
                      exact ⟨Sp, S1, S2, S3, rfl, h1, h2, h3, h4⟩
  · rintro ⟨Sp, S1, S2, S3, hp, h1, h2, h3, h4⟩
    simp [hp, h1, h2, h3, h4]

/-- C2: `isValidScene` returns true (leaving the state `S4`) exactly when the four phases run in
the order 1, 2, 3, 4 with the step counts `STEP1`, `STEP2`, `STEP3`, `STEP4` of the call, each
phase steps on from the state the previous phase left, and the scene check returns true after
each of them; the state returned with the verdict true is the one the fourth phase left, so all
four phases have been executed. -/
theorem isValidScene_true_iff (E : Engine) (fuel : Nat) (modelnames : List String)
    (model_poses : List Affine3d) (S S4 : State) :
    isValidScene E fuel modelnames model_poses S = .ok (true, S4) ↔
      ∃ Sp S1 S2 S3,
        poseLoop modelnames model_poses modelnames.length 0
          { S with num := modelnames.length } = .ok Sp ∧
        runSteps E fuel S.params.STEP1 Sp = .ok S1 ∧ isValid S1 modelnames = .ok true ∧
        runSteps E fuel S.params.STEP2 S1 = .ok S2 ∧ isValid S2 modelnames = .ok true ∧
        runSteps E fuel S.params.STEP3 S2 = .ok S3 ∧ isValid S3 modelnames = .ok true ∧
        runSteps E fuel S.params.STEP4 S3 = .ok S4 ∧ isValid S4 modelnames = .ok true := by
  rw [isValidScene_true_chain]
  constructor
  · rintro ⟨Sp, S1, S2, S3, hp, h1, h2, h3, h4⟩
    rw [isStableStill_ok_iff] at h1 h2 h3 h4
    have e0 : Sp.params = S.params := (poseLoop_frame _ _ _ _ _ _ hp).1
    have e1 := runSteps_params _ _ _ _ _ h1.1
    have e2 := runSteps_params _ _ _ _ _ h2.1
    have e3 := runSteps_params _ _ _ _ _ h3.1
    refine ⟨Sp, S1, S2, S3, hp, ?_, h1.2, ?_, h2.2, ?_, h3.2, ?_, h4.2⟩
    · rw [← e0]
      exact h1.1
    · rw [← e0, ← e1]
      exact h2.1
    · rw [← e0, ← e1, ← e2]
      exact h3.1
    · rw [← e0, ← e1, ← e2, ← e3]
      exact h4.1
  · rintro ⟨Sp, S1, S2, S3, hp, r1, v1, r2, v2, r3, v3, r4, v4⟩
    have e0 : Sp.params = S.params := (poseLoop_frame _ _ _ _ _ _ hp).1
    have e1 := runSteps_params _ _ _ _ _ r1
    have e2 := runSteps_params _ _ _ _ _ r2
    have e3 := runSteps_params _ _ _ _ _ r3
    refine ⟨Sp, S1, S2, S3, hp, ?_, ?_, ?_, ?_⟩
    · rw [isStableStill_ok_iff, e0]
      exact ⟨r1, v1⟩
    · rw [isStableStill_ok_iff, e1, e0]
      exact ⟨r2, v2⟩
    · rw [isStableStill_ok_iff, e2, e1, e0]
      exact ⟨r3, v3⟩
    · rw [isStableStill_ok_iff, e3, e2, e1, e0]
      exact ⟨r4, v4⟩

/-- A returning phase leaves the registry alone and never lowers the number of `simLoop`
calls. -/
theorem isStableStill_frame (E : Engine) (fuel : Nat) (modelnames : List String)
    (step : Int) (S S1 : State) (b : Bool)
    (h : isStableStill E fuel modelnames step S = .ok (b, S1)) :
    SameRegistry S S1 ∧ S.simCalls ≤ S1.simCalls :=
  runSteps_frame E fuel step S S1 ((isStableStill_ok_iff E fuel modelnames step S S1 b).mp h).1

/-- C3: `isValidScene` stops at the first failing check.  If the check after phase `k` (for `k`
1, 2 or 3) is the first that returns false, the call returns false together with the state that
phase `k` left: nothing of the later phases has run, in particular the count of `simLoop` calls
of the whole call is the count reached at the end of phase `k`. -/
theorem isValidScene_short_circuit (E : Engine) (fuel : Nat) (modelnames : List String)
    (model_poses : List Affine3d) (S Sp S1 S2 S3 : State)
    (hp : poseLoop modelnames model_poses modelnames.length 0
      { S with num := modelnames.length } = .ok Sp) :
    (runSteps E fuel S.params.STEP1 Sp = .ok S1 → isValid S1 modelnames = .ok false →
      isValidScene E fuel modelnames model_poses S = .ok (false, S1)) ∧
    (runSteps E fuel S.params.STEP1 Sp = .ok S1 → isValid S1 modelnames = .ok true →
      runSteps E fuel S.params.STEP2 S1 = .ok S2 → isValid S2 modelnames = .ok false →
      isValidScene E fuel modelnames model_poses S = .ok (false, S2)) ∧
    (runSteps E fuel S.params.STEP1 Sp = .ok S1 → isValid S1 modelnames = .ok true →
      runSteps E fuel S.params.STEP2 S1 = .ok S2 → isValid S2 modelnames = .ok true →
      runSteps E fuel S.params.STEP3 S2 = .ok S3 → isValid S3 modelnames = .ok false →
      isValidScene E fuel modelnames model_poses S = .ok (false, S3)) := by
  have e0 : Sp.params = S.params := (poseLoop_frame _ _ _ _ _ _ hp).1
  refine ⟨?_, ?_, ?_⟩
  · intro r1 v1
    have i1 : isStableStill E fuel modelnames Sp.params.STEP1 Sp = .ok (false, S1) := by
      rw [isStableStill_ok_iff, e0]
      exact ⟨r1, v1⟩
    unfold isValidScene
    simp [hp, i1]
  · intro r1 v1 r2 v2
    have e1 := runSteps_params _ _ _ _ _ r1
    have i1 : isStableStill E fuel modelnames Sp.params.STEP1 Sp = .ok (true, S1) := by
      rw [isStableStill_ok_iff, e0]
      exact ⟨r1, v1⟩
    have i2 : isStableStill E fuel modelnames S1.params.STEP2 S1 = .ok (false, S2) := by
      rw [isStableStill_ok_iff, e1, e0]
      exact ⟨r2, v2⟩
    unfold isValidScene
    simp [hp, i1, i2]
  · intro r1 v1 r2 v2 r3 v3
    have e1 := runSteps_params _ _ _ _ _ r1
    have e2 := runSteps_params _ _ _ _ _ r2
    have i1 : isStableStill E fuel modelnames Sp.params.STEP1 Sp = .ok (true, S1) := by
      rw [isStableStill_ok_iff, e0]
      exact ⟨r1, v1⟩
    have i2 : isStableStill E fuel modelnames S1.params.STEP2 S1 = .ok (true, S2) := by
      rw [isStableStill_ok_iff, e1, e0]
      exact ⟨r2, v2⟩
    have i3 : isStableStill E fuel modelnames S2.params.STEP3 S2 = .ok (false, S3) := by
      rw [isStableStill_ok_iff, e2, e1, e0]
      exact ⟨r3, v3⟩
    unfold isValidScene
    simp [hp, i1, i2, i3]

/-- C4: with every name of the scene registered and `num` equal to the number of names (as
`isValidScene` sets it), the scene check returns, and it returns true exactly when
`inStaticEquilibrium` is true for the registered object of every name of the scene; no other
object is consulted, and the check of the empty scene is true. -/
theorem isValid_iff_all (S : State) (modelnames : List String)
    (hnum : S.num = modelnames.length) (hreg : AllRegistered S modelnames) :
    ∃ b, isValid S modelnames = .ok b ∧
      (b = true ↔ ∀ n ∈ modelnames,
        ∃ o, mapFind S.m n = some o ∧ inStaticEquilibrium S o = true) ∧
      (modelnames = [] → b = true) := by
  obtain ⟨b, hb, hiff⟩ := isValidFrom_spec S modelnames modelnames.length 0 (by omega)
    (by simpa using hreg)
  rw [← hnum] at hb
  refine ⟨b, isValid_eq S modelnames b hb, by simpa using hiff, ?_⟩
  intro hnil
  rw [hiff, hnil]
  simp

/-- C6, what the code does: in the headless mode a phase with a positive step count `step`
below the largest `int` calls `simLoop` exactly `step + 1` times before its check, one more than
the step count, because the loop condition is `i <= step`. -/
theorem runSteps_headless_calls (E : Engine) (fuel : Nat) (step : Int) (S : State)
    (hd : S.params.DRAW = false) (hpos : 0 < step) (hmax : step < INT_MAX)
    (hn : S.num ≤ NUM) (hf : (step + 1).toNat ≤ fuel) :
    ∃ S1, runSteps E fuel step S = .ok S1 ∧ S1.simCalls = S.simCalls + step.toNat + 1 ∧
      S1.simCalls ≠ S.simCalls + step.toNat ∧
      headlessLoop E step fuel 0 S = .ok S1 := by
  obtain ⟨S1, h1, hc⟩ := runSteps_calls E fuel step S (le_of_lt hpos) hmax hn hf
  have hc2 : S1.simCalls = S.simCalls + step.toNat + 1 := by
    rw [hc]
    omega
  refine ⟨S1, h1, hc2, by omega, ?_⟩
  unfold runSteps at h1
  rw [hd] at h1
  simpa using h1

/-- An unregistered name among the names still to be processed makes the first loop of
`isValidScene` dereference `m.end()`. -/
theorem poseLoop_unknown (modelnames : List String) (model_poses : List Affine3d)
    (hposes : modelnames.length ≤ model_poses.length) :
    ∀ (k i : Nat) (S : State), i + k = modelnames.length →
      (∃ j n, i ≤ j ∧ modelnames[j]? = some n ∧ mapFind S.m n = none) →
      poseLoop modelnames model_poses k i S = .error .unknownName := by
  intro k
  induction k with
  | zero =>
    intro i S hi hex
    obtain ⟨j, n, hij, hj, -⟩ := hex
    have hlt : j < modelnames.length := by
      by_contra hge
      rw [List.getElem?_eq_none (by omega)] at hj
      cases hj
    omega
  | succ k ih =>
    intro i S hi hex
    obtain ⟨j, n, hij, hj, hmiss⟩ := hex
    have hlt : i < modelnames.length := by omega
    have hlt2 : i < model_poses.length := by omega
    unfold poseLoop
    rw [List.getElem?_eq_getElem hlt, List.getElem?_eq_getElem hlt2]
    simp only
    cases hf : mapFind S.m modelnames[i] with
    | none => rfl
    | some o =>
      simp only
      apply ih (i + 1) _ (by omega)
      have hne : i ≠ j := by
        intro e
        subst e
        rw [List.getElem?_eq_getElem hlt] at hj
        injection hj with hj
        rw [hj, hmiss] at hf
        cases hf
      exact ⟨j, n, by omega, hj, mapFind_mapModify_none S.m _ n _ hmiss⟩

/-- C7, what the code does: when a name of the scene is not a key of the registry map (and a
pose is supplied for every name), `isValidScene` dereferences the end iterator returned by
`m.find`.  This is undefined behaviour of the C++ program, not an error reported to the caller:
the function makes no check and its only results are true and false. -/
theorem isValidScene_unknown_name (E : Engine) (fuel : Nat) (modelnames : List String)
    (model_poses : List Affine3d) (S : State)
    (hposes : modelnames.length ≤ model_poses.length)
    (hmiss : ∃ n ∈ modelnames, mapFind S.m n = none) :
    isValidScene E fuel modelnames model_poses S = .error .unknownName := by
  obtain ⟨n, hn, hnone⟩ := hmiss
  obtain ⟨j, hj, hjn⟩ := List.getElem_of_mem hn
  have hp := poseLoop_unknown modelnames model_poses hposes modelnames.length 0
    { S with num := modelnames.length } (by omega)
    ⟨j, n, Nat.zero_le _, by rw [List.getElem?_eq_getElem hj, hjn], hnone⟩
  unfold isValidScene
  simp only [hp]

/-- A returning call of `isValidScene` applies the poses and then leaves the registry alone. -/
theorem isValidScene_frame (E : Engine) (fuel : Nat) (modelnames : List String)
    (model_poses : List Affine3d) (S Sf : State) (b : Bool)
    (h : isValidScene E fuel modelnames model_poses S = .ok (b, Sf)) :
    ∃ Sp, poseLoop modelnames model_poses modelnames.length 0
        { S with num := modelnames.length } = .ok Sp ∧
      SameRegistry Sp Sf ∧ Sp.simCalls ≤ Sf.simCalls := by
  unfold isValidScene at h
  simp only at h
  cases hp : poseLoop modelnames model_poses modelnames.length 0
      { S with num := modelnames.length } with
  | error e => simp [hp] at h
  | ok Sp =>
    refine ⟨Sp, rfl, ?_⟩
    simp only [hp] at h
    cases h1 : isStableStill E fuel modelnames Sp.params.STEP1 Sp with
    | error e => simp [h1] at h
    | ok r1 =>
      obtain ⟨b1, S1⟩ := r1
      have f1 := isStableStill_frame _ _ _ _ _ _ _ h1
      simp only [h1] at h
      cases b1 with
      | false =>
        simp only [Bool.not_false, if_true, Except.ok.injEq, Prod.mk.injEq] at h
        rw [← h.2]
        exact f1
      | true =>
        simp only [Bool.not_true, Bool.false_eq_true, if_false] at h
        cases h2 : isStableStill E fuel modelnames S1.params.STEP2 S1 with
        | error e => simp [h2] at h
        | ok r2 =>
          obtain ⟨b2, S2⟩ := r2
          have f2 := isStableStill_frame _ _ _ _ _ _ _ h2
          have g2 : SameRegistry Sp S2 ∧ Sp.simCalls ≤ S2.simCalls :=
            ⟨f1.1.trans f2.1, le_trans f1.2 f2.2⟩
          simp only [h2] at h
          cases b2 with
          | false =>
            simp only [Bool.not_false, if_true, Except.ok.injEq, Prod.mk.injEq] at h
            rw [← h.2]
            exact g2
          | true =>
            simp only [Bool.not_true, Bool.false_eq_true, if_false] at h
            cases h3 : isStableStill E fuel modelnames S2.params.STEP3 S2 with
            | error e => simp [h3] at h
            | ok r3 =>
              obtain ⟨b3, S3⟩ := r3
              have f3 := isStableStill_frame _ _ _ _ _ _ _ h3
              have g3 : SameRegistry Sp S3 ∧ Sp.simCalls ≤ S3.simCalls :=
                ⟨g2.1.trans f3.1, le_trans g2.2 f3.2⟩
              simp only [h3] at h
              cases b3 with
              | false =>
                simp only [Bool.not_false, if_true, Except.ok.injEq, Prod.mk.injEq] at h
                rw [← h.2]
                exact g3
              | true =>
                simp only [Bool.not_true, Bool.false_eq_true, if_false] at h
                cases h4 : isStableStill E fuel modelnames S3.params.STEP4 S3 with
                | error e => simp [h4] at h
                | ok r4 =>
                  obtain ⟨b4, S4⟩ := r4
                  have f4 := isStableStill_frame _ _ _ _ _ _ _ h4
                  have g4 : SameRegistry Sp S4 ∧ Sp.simCalls ≤ S4.simCalls :=
                    ⟨g3.1.trans f4.1, le_trans g3.2 f4.2⟩
                  simp only [h4] at h
                  cases b4 with
                  | false =>
                    simp only [Bool.not_false, if_true, Except.ok.injEq, Prod.mk.injEq] at h
                    rw [← h.2]
                    exact g4
                  | true =>
                    simp only [Bool.not_true, Bool.false_eq_true, if_false, Except.ok.injEq,
                      Prod.mk.injEq] at h
                    rw [← h.2]
                    exact g4

/-- C5: in a returning call of `isValidScene` the poses are applied before any `simLoop` call:
the state `Sp` the first loop leaves has the same count of `simLoop` calls as the state the call
started in, and in it the registry entry of every named object holds as its reference position
the translation of the pose supplied for it (at the last index at which the name occurs).  The
stepping half of any phase leaves the registry map and the reference positions of the object
array alone, the check changes no state at all, and the state the call returns has the registry
map of `Sp`.  Hence in every state with that registry map, in particular after each of the four
phases, the check of a named object compares the current position of its body with the
translation originally supplied. -/
theorem isValidScene_reference_fixed (E : Engine) (fuel : Nat) (modelnames : List String)
    (model_poses : List Affine3d) (S Sf : State) (b : Bool)
    (h : isValidScene E fuel modelnames model_poses S = .ok (b, Sf)) :
    ∃ Sp, poseLoop modelnames model_poses modelnames.length 0
        { S with num := modelnames.length } = .ok Sp ∧
      Sp.simCalls = S.simCalls ∧
      (∀ (j : Nat) (name : String) (a : Affine3d),
        modelnames[j]? = some name → model_poses[j]? = some a →
        (∀ j1 : Nat, j < j1 → modelnames[j1]? ≠ some name) →
        ∃ o, mapFind Sp.m name = some o ∧ o.center = a.translation) ∧
      (∀ step S1 S2, runSteps E fuel step S1 = .ok S2 →
        S2.m = S1.m ∧ objCenters S2 = objCenters S1) ∧
      Sf.m = Sp.m ∧
      (∀ (Sk : State) (j : Nat) (name : String) (a : Affine3d), Sk.m = Sp.m →
        modelnames[j]? = some name → model_poses[j]? = some a →
        (∀ j1 : Nat, j < j1 → modelnames[j1]? ≠ some name) →
        ∃ o, mapFind Sk.m name = some o ∧
          (inStaticEquilibrium Sk o = true ↔
            |a.translation.x - (dBodyGetPosition Sk.world o.body).x| ≤ Sk.params.THRESHOLD ∧
            |a.translation.y - (dBodyGetPosition Sk.world o.body).y| ≤ Sk.params.THRESHOLD ∧
            |a.translation.z - (dBodyGetPosition Sk.world o.body).z| ≤ Sk.params.THRESHOLD)) := by
  obtain ⟨Sp, hp, hreg, -⟩ := isValidScene_frame E fuel modelnames model_poses S Sf b h
  have hcenter : ∀ (j : Nat) (name : String) (a : Affine3d),
      modelnames[j]? = some name → model_poses[j]? = some a →
      (∀ j1 : Nat, j < j1 → modelnames[j1]? ≠ some name) →
      ∃ o, mapFind Sp.m name = some o ∧ o.center = a.translation := by
    intro j name a hname hpose hlast
    have hlt : j < modelnames.length := by
      by_contra hge
      rw [List.getElem?_eq_none (by omega)] at hname
      cases hname
    exact poseLoop_center modelnames model_poses name a j hname hpose modelnames.length 0 _ Sp
      hp (Nat.zero_le _) (by omega) (fun j1 h1 _ => hlast j1 h1)
  refine ⟨Sp, hp, (poseLoop_frame _ _ _ _ _ _ hp).2.2.2.2.1, hcenter, ?_, hreg.2.1, ?_⟩
  · intro step S1 S2 hr
    have hf := (runSteps_frame E fuel step S1 S2 hr).1
    exact ⟨hf.2.1, hf.2.2.2.2⟩
  · intro Sk j name a hm hname hpose hlast
    obtain ⟨o, ho, hc⟩ := hcenter j name a hname hpose hlast
    refine ⟨o, by rw [hm]; exact ho, ?_⟩
    unfold inStaticEquilibrium
    simp only [gt_iff_lt, hc]
    split_ifs with hgt
    · simp only [Bool.false_eq_true, false_iff, not_and_or, not_le]
      exact hgt
    · simp only [true_iff]
      simp only [not_or, not_lt] at hgt
      exact hgt

/-! ## Returning calls -/

/-- Writing through a registry entry keeps every registered name registered. -/
theorem mapFind_mapModify_some (m : List (String × MyObject)) (name other : String)
    (f : MyObject → MyObject) (o : MyObject) (h : mapFind m other = some o) :
    ∃ o1, mapFind (mapModify m name f) other = some o1 := by
  by_cases ho : other = name
  · subst ho
    exact ⟨f o, mapFind_mapModify_same m other f o h⟩
  · exact ⟨o, by rw [mapFind_mapModify_other m name other f ho]; exact h⟩

/-- With every name registered and a pose for every name, the first loop of `isValidScene`
returns, and every name is still registered afterwards. -/
theorem poseLoop_ok (modelnames : List String) (model_poses : List Affine3d)
    (hposes : modelnames.length ≤ model_poses.length) :
    ∀ (k i : Nat) (S : State), i + k ≤ modelnames.length → AllRegistered S modelnames →
      ∃ Sp, poseLoop modelnames model_poses k i S = .ok Sp ∧ AllRegistered Sp modelnames := by
  intro k
  induction k with
  | zero =>
    intro i S _ hreg
    exact ⟨S, rfl, hreg⟩
  | succ k ih =>
    intro i S hi hreg
    have hlt : i < modelnames.length := by omega
    have hlt2 : i < model_poses.length := by omega
    obtain ⟨o, ho⟩ := hreg modelnames[i] (List.getElem_mem _)
    unfold poseLoop
    rw [List.getElem?_eq_getElem hlt, List.getElem?_eq_getElem hlt2]
    simp only [ho]
    apply ih (i + 1) _ (by omega)
    intro n hn
    obtain ⟨o2, ho2⟩ := hreg n hn
    exact mapFind_mapModify_some S.m _ n _ o2 ho2

/-- With every name registered, at most `NUM` names and a step count between 0 and the largest
`int` (exclusive), a phase returns a verdict once it has the fuel for `step + 1` iterations. -/
theorem isStableStill_returns (E : Engine) (fuel : Nat) (modelnames : List String)
    (step : Int) (S : State) (hreg : AllRegistered S modelnames)
    (hnum : S.num = modelnames.length) (hcap : modelnames.length ≤ NUM)
    (h0 : 0 ≤ step) (hmax : step < INT_MAX) (hf : (step + 1).toNat ≤ fuel) :
    ∃ b S1, isStableStill E fuel modelnames step S = .ok (b, S1) ∧
      AllRegistered S1 modelnames ∧ S1.num = modelnames.length ∧ S1.params = S.params ∧
      S1.simCalls = S.simCalls + (step + 1).toNat := by
  obtain ⟨S1, hr, hc⟩ := runSteps_calls E fuel step S h0 hmax (by omega) hf
  obtain ⟨hp, hm, hn, -, -⟩ := (runSteps_frame E fuel step S S1 hr).1
  have hreg1 : AllRegistered S1 modelnames := by
    intro n hmem
    rw [hm]
    exact hreg n hmem
  obtain ⟨b, hb, -⟩ := isValidFrom_spec S1 modelnames modelnames.length 0 (by omega)
    (by simpa using hreg1)
  rw [← hnum, ← hn] at hb
  refine ⟨b, S1, ?_, hreg1, by rw [hn, hnum], hp, hc⟩
  rw [isStableStill_ok_iff]
  exact ⟨hr, isValid_eq S1 modelnames b hb⟩

/-- Whenever every name of the scene is registered, a pose is supplied for every name, there are
at most `NUM` names and the four step counts lie between 0 and the largest `int` (exclusive),
`isValidScene` returns a verdict once the fuel covers the longest phase. -/
theorem isValidScene_returns (E : Engine) (fuel : Nat) (modelnames : List String)
    (model_poses : List Affine3d) (S : State) (hreg : AllRegistered S modelnames)
    (hposes : modelnames.length ≤ model_poses.length) (hcap : modelnames.length ≤ NUM)
    (h1 : 0 ≤ S.params.STEP1 ∧ S.params.STEP1 < INT_MAX ∧ (S.params.STEP1 + 1).toNat ≤ fuel)
    (h2 : 0 ≤ S.params.STEP2 ∧ S.params.STEP2 < INT_MAX ∧ (S.params.STEP2 + 1).toNat ≤ fuel)
    (h3 : 0 ≤ S.params.STEP3 ∧ S.params.STEP3 < INT_MAX ∧ (S.params.STEP3 + 1).toNat ≤ fuel)
    (h4 : 0 ≤ S.params.STEP4 ∧ S.params.STEP4 < INT_MAX ∧ (S.params.STEP4 + 1).toNat ≤ fuel) :
    ∃ b Sf, isValidScene E fuel modelnames model_poses S = .ok (b, Sf) := by
  obtain ⟨Sp, hp, hregp⟩ := poseLoop_ok modelnames model_poses hposes modelnames.length 0
    { S with num := modelnames.length } (by omega) hreg
  obtain ⟨e0, n0, -⟩ := poseLoop_frame _ _ _ _ _ _ hp
  have n0' : Sp.num = modelnames.length := n0
  have e0' : Sp.params = S.params := e0
  obtain ⟨b1, S1, i1, r1, n1, e1, -⟩ := isStableStill_returns E fuel modelnames
    Sp.params.STEP1 Sp hregp n0' hcap (by rw [e0']; exact h1.1) (by rw [e0']; exact h1.2.1)
    (by rw [e0']; exact h1.2.2)
  have e1' : S1.params = S.params := e1.trans e0'
  obtain ⟨b2, S2, i2, r2, n2, e2, -⟩ := isStableStill_returns E fuel modelnames
    S1.params.STEP2 S1 r1 n1 hcap (by rw [e1']; exact h2.1) (by rw [e1']; exact h2.2.1)
    (by rw [e1']; exact h2.2.2)
  have e2' : S2.params = S.params := e2.trans e1'
  obtain ⟨b3, S3, i3, r3, n3, e3, -⟩ := isStableStill_returns E fuel modelnames
    S2.params.STEP3 S2 r2 n2 hcap (by rw [e2']; exact h3.1) (by rw [e2']; exact h3.2.1)
    (by rw [e2']; exact h3.2.2)
  have e3' : S3.params = S.params := e3.trans e2'
  obtain ⟨b4, S4, i4, -⟩ := isStableStill_returns E fuel modelnames
    S3.params.STEP4 S3 r3 n3 hcap (by rw [e3']; exact h4.1) (by rw [e3']; exact h4.2.1)
    (by rw [e3']; exact h4.2.2)
  unfold isValidScene
  simp only [hp, i1]
  cases b1 with
  | false => exact ⟨false, S1, by simp⟩
  | true =>
    simp only [i2, Bool.not_true, Bool.false_eq_true, if_false]
    cases b2 with
    | false => exact ⟨false, S2, by simp⟩
    | true =>
      simp only [i3, Bool.not_true, Bool.false_eq_true, if_false]
      cases b3 with
      | false => exact ⟨false, S3, by simp⟩
      | true =>
        simp only [i4, Bool.not_true, Bool.false_eq_true, if_false]
        cases b4 with
        | false => exact ⟨false, S4, by simp⟩
        | true => exact ⟨true, S4, by simp⟩

/-! ## The statements at concrete scenes -/

/-- Under the falling engine the scene with the object base placed by the identity pose fails
the check of phase 1: after the seven ticks of the phase the body is seven units below its
reference position. -/
theorem fallingScene_phase1 :
    ∃ Sp S1, poseLoop ["base"] [identityPose] 1 0 { oneObjectState with num := 1 } = .ok Sp ∧
      runSteps fallingEngine 7 6 Sp = .ok S1 ∧ isValid S1 ["base"] = .ok false ∧
      S1.simCalls = 7 := by
  refine ⟨_, _, rfl, rfl, ?_, rfl⟩
  simp [isValid, isValidFrom, mapFind, mapModify, inStaticEquilibrium, dBodyGetPosition,
    dBodySetPosition, dBodySetRotation, dBodySetLinearVel, dBodySetAngularVel, fallingEngine,
    oneObjectState, State.initial, Params.initial, translateObject, Body.blank, MyObject.blank,
    Vec3.zero, identityPose, Affine3d.translation]
  norm_num

/-- Witness for C3: under the falling engine the check after phase 1 fails, and the call returns
false with the state phase 1 left, after 7 calls of `simLoop` in all. -/
theorem isValidScene_short_circuit_witness :
    ∃ S1, isValidScene fallingEngine 7 ["base"] [identityPose] oneObjectState =
      .ok (false, S1) ∧ S1.simCalls = 7 := by
  obtain ⟨Sp, S1, hp, hr, hv, hc⟩ := fallingScene_phase1
  exact ⟨S1, (isValidScene_short_circuit fallingEngine 7 ["base"] [identityPose]
    oneObjectState Sp S1 S1 S1 hp).1 hr hv, hc⟩

/-- Witness for C4: the scene of the single registered name base. -/
theorem isValid_iff_all_witness :
    ∃ b, isValid { oneObjectState with num := 1 } ["base"] = .ok b ∧
      (b = true ↔ ∀ n ∈ ["base"], ∃ o, mapFind ({ oneObjectState with num := 1 } : State).m n =
        some o ∧ inStaticEquilibrium { oneObjectState with num := 1 } o = true) ∧
      (["base"] = ([] : List String) → b = true) :=
  isValid_iff_all { oneObjectState with num := 1 } ["base"] rfl
    (by
      intro n hn
      rw [List.mem_singleton] at hn
      subst hn
      exact ⟨_, rfl⟩)

/-- Under the falling engine the scene with the object base placed at (1, 2, 3) is reported
invalid after phase 1. -/
theorem fallingScene_lifted :
    ∃ S1, isValidScene fallingEngine 7 ["base"] [liftedPose] oneObjectState =
      .ok (false, S1) := by
  simp [isValidScene, isStableStill, runSteps, headlessLoop, simLoop, poseLoop, wrapInt32, NUM,
    isValid, isValidFrom, mapFind, mapModify, inStaticEquilibrium, dBodyGetPosition,
    dBodySetPosition, dBodySetRotation, dBodySetLinearVel, dBodySetAngularVel, fallingEngine,
    oneObjectState, State.initial, Params.initial, translateObject, Body.blank, MyObject.blank,
    Vec3.zero, liftedPose, Affine3d.translation]
  norm_num

/-- Witness for C5: the object base placed at (1, 2, 3) keeps that reference position in the
state the call returns, although its body has fallen. -/
theorem isValidScene_reference_fixed_witness :
    ∃ Sf o, isValidScene fallingEngine 7 ["base"] [liftedPose] oneObjectState =
        .ok (false, Sf) ∧
      mapFind Sf.m "base" = some o ∧ o.center = ⟨1, 2, 3⟩ := by
  obtain ⟨Sf, h⟩ := fallingScene_lifted
  obtain ⟨Sp, -, -, hc, -, hm, -⟩ := isValidScene_reference_fixed fallingEngine 7 ["base"]
    [liftedPose] oneObjectState Sf false h
  obtain ⟨o, ho, hcen⟩ := hc 0 "base" liftedPose rfl rfl (by
    intro j1 hj
    have : ([("base" : String)])[j1]? = none := List.getElem?_eq_none (by simpa using hj)
    rw [this]
    exact fun e => by cases e)
  refine ⟨Sf, o, h, by rw [hm]; exact ho, ?_⟩
  rw [hcen]
  simp [liftedPose, Affine3d.translation]
  norm_num

/-- Witness for C6: with the default step count 6 of phase 1 the headless loop calls `simLoop`
7 times. -/
theorem runSteps_headless_calls_witness :
    ∃ S1, runSteps restingEngine 7 6 State.initial = .ok S1 ∧
      S1.simCalls = State.initial.simCalls + (6 : Int).toNat + 1 ∧
      S1.simCalls ≠ State.initial.simCalls + (6 : Int).toNat ∧
      headlessLoop restingEngine 6 7 0 State.initial = .ok S1 :=
  runSteps_headless_calls restingEngine 7 6 State.initial rfl (by decide) (by decide)
    (by decide) (by decide)

/-- Witness for C7: the name top is not registered in the one-object state. -/
theorem isValidScene_unknown_name_witness :
    isValidScene restingEngine 7 ["top"] [identityPose] oneObjectState =
      .error .unknownName :=
  isValidScene_unknown_name restingEngine 7 ["top"] [identityPose] oneObjectState
    (by decide) ⟨"top", List.mem_singleton.mpr rfl, rfl⟩

/-- The right-hand side of C2 is reachable: under the resting engine, with one step configured
per phase, all four checks pass and the call returns true after 8 calls of `simLoop`. -/
theorem isValidScene_true_iff_witness :
    ∃ S4, isValidScene restingEngine 2 ["base"] [identityPose] quickState = .ok (true, S4) ∧
      S4.simCalls = 8 := by
  have hv : ∀ S : State, S.m = [("base", { MyObject.blank with model_ID := "base" })] →
      S.num = 1 → S.world = ⟨Vec3.zero, [], [{ Body.blank with R := poseRotation identityPose }]⟩ →
      S.params.THRESHOLD = 2 / 25 → isValid S ["base"] = .ok true := by
    intro S hm hn hw ht
    simp [isValid, isValidFrom, hm, hn, hw, ht, mapFind, inStaticEquilibrium,
      dBodyGetPosition, Body.blank, MyObject.blank, Vec3.zero]
    norm_num
  refine ⟨_, (isValidScene_true_iff restingEngine 2 ["base"] [identityPose] quickState _).mpr
    ⟨_, _, _, _, rfl, rfl, hv _ rfl rfl rfl rfl, rfl, hv _ rfl rfl rfl rfl, rfl,
      hv _ rfl rfl rfl rfl, rfl, hv _ rfl rfl rfl rfl⟩, rfl⟩

/-! ## Construction-only parameters -/

/-- C11, as the code behaves: for the seven gravity and plane names `setParams` leaves the state
unchanged and returns true, whatever the value; for `DEFAULT_SCALE`, which the comparison chain
does not know, it leaves the state unchanged and returns false. -/
theorem setParams_constructionOnly (S : State) (v : ℚ) :
    setParams "GRAVITYx" v S = .ok (true, S) ∧ setParams "GRAVITYy" v S = .ok (true, S) ∧
    setParams "GRAVITYz" v S = .ok (true, S) ∧ setParams "PLANEa" v S = .ok (true, S) ∧
    setParams "PLANEb" v S = .ok (true, S) ∧ setParams "PLANEc" v S = .ok (true, S) ∧
    setParams "PLANEd" v S = .ok (true, S) ∧
    setParams "DEFAULT_SCALE" v S = .ok (false, S) := by
  refine ⟨?_, ?_, ?_, ?_, ?_, ?_, ?_, ?_⟩ <;> simp [setParams]

/-- C11 fails as stated: on the start-up state `setParams` with the name GRAVITYx returns true,
not false. -/
theorem setParams_gravity_not_rejected :
    setParams "GRAVITYx" 1 State.initial = .ok (true, State.initial) ∧
    ¬ ∃ S1, setParams "GRAVITYx" 1 State.initial = .ok (false, S1) := by
  have h : setParams "GRAVITYx" 1 State.initial = .ok (true, State.initial) := by
    simp [setParams]
  refine ⟨h, ?_⟩
  rintro ⟨S1, h1⟩
  rw [h] at h1
  simp at h1

/-! ## The centre of mass -/

/-- The six-term expression of the code is the scalar triple product divided by 6. -/
theorem currentVolume_eq (t : data) : currentVolume t = tetraVolume t := by
  unfold currentVolume tetraVolume tripleProduct data.a data.b data.c
  ring

/-- The accumulation loop adds the sums over the triangle list to the accumulators. -/
theorem accumulate_eq (ts : List data) :
    ∀ acc : Accum, accumulate ts acc =
      { totalVolume := acc.totalVolume + volumeSum ts
        xCenter := acc.xCenter + momentX ts
        yCenter := acc.yCenter + momentY ts
        zCenter := acc.zCenter + momentZ ts } := by
  induction ts with
  | nil =>
    intro acc
    simp [accumulate, volumeSum, momentX, momentY, momentZ]
  | cons t rest ih =>
    intro acc
    unfold accumulate
    rw [ih]
    simp only [volumeSum, momentX, momentY, momentZ, List.map_cons, List.sum_cons,
      currentVolume_eq, data.a, data.b, data.c]
    congr 1 <;> ring

/-- With a non-zero total signed volume and a non-zero scale the centre of mass is computed,
and it is the one the specification words. -/
theorem centerOfMassOf_eq (ts : List data) (scale : ℚ) (hV : volumeSum ts ≠ 0)
    (hs : scale ≠ 0) : centerOfMassOf ts scale = .ok (centroidSpec ts scale) := by
  unfold centerOfMassOf
  rw [accumulate_eq]
  simp [divide, hV, hs, centroidSpec]

/-- What `setObject` returns when the triangles can be read and the centre of mass computed. -/
theorem setObject_eq (load : String → objLoader) (object : MyObject) (number : ℚ)
    (filename : String) (ts : List data) (com : List ℚ)
    (hfill : fillTriangles (load filename) (load filename).faceList = .ok ts)
    (hcom : centerOfMassOf ts number = .ok com) :
    setObject load object number filename = .ok
      { object with
        indCount := (load filename).faceList.length
        vertCount := (load filename).vertexList.length
        centerOfMass := com
        indexDrawVec := object.indexDrawVec ++ faceRows (load filename).faceList
        indexGeomVec := object.indexGeomVec ++ faceIndices (load filename).faceList
        vertexDrawVec := object.vertexDrawVec ++ recentred (load filename).vertexList number com
        vertexGeomVec := object.vertexGeomVec ++
          recentred (load filename).vertexList number com } := by
  unfold setObject
  simp only [hfill, hcom]

/-- C12: for a triangle list with non-zero total signed volume and a non-zero scale, the six-term
expression of the code is the scalar triple product `a . (b x c)` divided by 6, and the centre of
mass that `setObject` computes and stores is the sum of `V_i (a_i + b_i + c_i) / 4` divided by
the sum of the `V_i`, divided by the scale. -/
theorem setObject_centerOfMass (load : String → objLoader) (object : MyObject) (number : ℚ)
    (filename : String) (ts : List data)
    (hfill : fillTriangles (load filename) (load filename).faceList = .ok ts)
    (hV : volumeSum ts ≠ 0) (hs : number ≠ 0) :
    (∀ t : data, currentVolume t = tripleProduct t.a t.b t.c / 6) ∧
    centerOfMassOf ts number = .ok (centroidSpec ts number) ∧
    ∃ o, setObject load object number filename = .ok o ∧
      o.centerOfMass = centroidSpec ts number :=
  ⟨currentVolume_eq, centerOfMassOf_eq ts number hV hs,
    _, setObject_eq load object number filename ts _ hfill (centerOfMassOf_eq ts number hV hs),
    rfl⟩

/-- The unit tetrahedron has the triangles listed and the volume 1/6. -/
theorem tetra_facts :
    fillTriangles (demoLoad "tetra.obj") (demoLoad "tetra.obj").faceList = .ok tetraTriangles ∧
    volumeSum tetraTriangles = 1 / 6 ∧
    centroidSpec tetraTriangles 1 = [1 / 4, 1 / 4, 1 / 4] := by
  refine ⟨rfl, ?_, ?_⟩
  · simp [volumeSum, tetraVolume, tripleProduct, tetraTriangles, data.a, data.b, data.c]
  · simp [centroidSpec, volumeSum, momentX, momentY, momentZ, tetraVolume, tripleProduct,
      tetraTriangles, data.a, data.b, data.c]
    norm_num

/-- Witness for C12: the unit tetrahedron with scale 1 has its centre of mass at
(1/4, 1/4, 1/4). -/
theorem setObject_centerOfMass_witness :
    ∃ o, setObject demoLoad MyObject.blank 1 "tetra.obj" = .ok o ∧
      o.centerOfMass = [1 / 4, 1 / 4, 1 / 4] := by
  obtain ⟨hfill, hV, hc⟩ := tetra_facts
  obtain ⟨-, -, o, ho, hcom⟩ := setObject_centerOfMass demoLoad MyObject.blank 1 "tetra.obj"
    tetraTriangles hfill (by rw [hV]; norm_num) one_ne_zero
  exact ⟨o, ho, by rw [hcom, hc]⟩

/-! ## The buffers of a registered object -/

theorem recentred_length (vs : List Vec3) (s : ℚ) (com : List ℚ) :
    (recentred vs s com).length = 3 * vs.length := by
  induction vs with
  | nil => rfl
  | cons v rest ih =>
    simp only [recentred, List.length_cons, ih]
    omega

/-- The recentred buffer holds the three coordinates of vertex `i` at `3 i`, `3 i + 1` and
`3 i + 2`. -/
theorem recentred_getElem (s : ℚ) (com : List ℚ) :
    ∀ (vs : List Vec3) (i : Nat) (v : Vec3), vs[i]? = some v →
      (recentred vs s com)[3 * i]? = some (v.x / s - com.getD 0 0) ∧
      (recentred vs s com)[3 * i + 1]? = some (v.y / s - com.getD 1 0) ∧
      (recentred vs s com)[3 * i + 2]? = some (v.z / s - com.getD 2 0) := by
  intro vs
  induction vs with
  | nil =>
    intro i v h
    simp at h
  | cons w rest ih =>
    intro i v h
    cases i with
    | zero =>
      simp only [List.getElem?_cons_zero, Option.some.injEq] at h
      subst h
      simp [recentred]
    | succ j =>
      simp only [List.getElem?_cons_succ] at h
      obtain ⟨h0, h1, h2⟩ := ih j v h
      have e0 : 3 * (j + 1) = 3 * j + 1 + 1 + 1 := by omega
      have e1 : 3 * (j + 1) + 1 = 3 * j + 1 + 1 + 1 + 1 := by omega
      have e2 : 3 * (j + 1) + 2 = 3 * j + 2 + 1 + 1 + 1 := by omega
      rw [e1, e2, e0]
      simp only [recentred, List.getElem?_cons_succ]
      exact ⟨h0, h1, h2⟩

theorem faceIndices_length (faces : List obj_face) :
    (faceIndices faces).length = 3 * faces.length := by
  induction faces with
  | nil => rfl
  | cons f rest ih =>
    simp only [faceIndices, List.length_cons, ih]
    omega

/-- The index buffer holds the three vertex indices of face `k` at `3 k`, `3 k + 1` and
`3 k + 2`. -/
theorem faceIndices_getElem :
    ∀ (faces : List obj_face) (k : Nat) (f : obj_face), faces[k]? = some f →
      (faceIndices faces)[3 * k]? = some f.vertex_index0 ∧
      (faceIndices faces)[3 * k + 1]? = some f.vertex_index1 ∧
      (faceIndices faces)[3 * k + 2]? = some f.vertex_index2 := by
  intro faces
  induction faces with
  | nil =>
    intro k f h
    simp at h
  | cons g rest ih =>
    intro k f h
    cases k with
    | zero =>
      simp only [List.getElem?_cons_zero, Option.some.injEq] at h
      subst h
      simp [faceIndices]
    | succ j =>
      simp only [List.getElem?_cons_succ] at h
      obtain ⟨h0, h1, h2⟩ := ih j f h
      have e0 : 3 * (j + 1) = 3 * j + 1 + 1 + 1 := by omega
      have e1 : 3 * (j + 1) + 1 = 3 * j + 1 + 1 + 1 + 1 := by omega
      have e2 : 3 * (j + 1) + 2 = 3 * j + 2 + 1 + 1 + 1 := by omega
      rw [e1, e2, e0]
      simp only [faceIndices, List.getElem?_cons_succ]
      exact ⟨h0, h1, h2⟩

/-- In exact arithmetic: for an object whose buffers are empty before the call, and a mesh that
can be read with non-zero total volume and non-zero scale `number`, `setObject` returns an
object in which the geometry and the drawing vertex buffers both have length `3 * vertCount`
and hold at `3 i + j` the raw coordinate `j` of vertex `i` divided by the scale, minus
coordinate `j` of the centre of mass, and the geometry index buffer has length `3 * faceCount`
and holds the vertex indices of face `k` at `3 k`, `3 k + 1`, `3 k + 2`. -/
theorem setObject_buffers (load : String → objLoader) (object : MyObject) (number : ℚ)
    (filename : String) (ts : List data)
    (hG : object.vertexGeomVec = []) (hD : object.vertexDrawVec = [])
    (hI : object.indexGeomVec = [])
    (hfill : fillTriangles (load filename) (load filename).faceList = .ok ts)
    (hV : volumeSum ts ≠ 0) (hs : number ≠ 0) :
    ∃ o, setObject load object number filename = .ok o ∧
      o.vertCount = (load filename).vertexList.length ∧
      o.indCount = (load filename).faceList.length ∧
      o.vertexGeomVec.length = 3 * (load filename).vertexList.length ∧
      o.vertexDrawVec.length = 3 * (load filename).vertexList.length ∧
      (∀ (i : Nat) (v : Vec3), (load filename).vertexList[i]? = some v →
        o.vertexGeomVec[3 * i]? = some (v.x / number - o.centerOfMass.getD 0 0) ∧
        o.vertexGeomVec[3 * i + 1]? = some (v.y / number - o.centerOfMass.getD 1 0) ∧
        o.vertexGeomVec[3 * i + 2]? = some (v.z / number - o.centerOfMass.getD 2 0) ∧
        o.vertexDrawVec[3 * i]? = some (v.x / number - o.centerOfMass.getD 0 0) ∧
        o.vertexDrawVec[3 * i + 1]? = some (v.y / number - o.centerOfMass.getD 1 0) ∧
        o.vertexDrawVec[3 * i + 2]? = some (v.z / number - o.centerOfMass.getD 2 0)) ∧
      o.indexGeomVec.length = 3 * (load filename).faceList.length ∧
      (∀ (k : Nat) (f : obj_face), (load filename).faceList[k]? = some f →
        o.indexGeomVec[3 * k]? = some f.vertex_index0 ∧
        o.indexGeomVec[3 * k + 1]? = some f.vertex_index1 ∧
        o.indexGeomVec[3 * k + 2]? = some f.vertex_index2) := by
  have hcom := centerOfMassOf_eq ts number hV hs
  refine ⟨_, setObject_eq load object number filename ts _ hfill hcom, rfl, rfl, ?_, ?_, ?_,
    ?_, ?_⟩
  · simp only [hG, List.nil_append]
    exact recentred_length _ _ _
  · simp only [hD, List.nil_append]
    exact recentred_length _ _ _
  · intro i v hv
    simp only [hG, hD, List.nil_append]
    obtain ⟨h0, h1, h2⟩ := recentred_getElem number (centroidSpec ts number) _ i v hv
    exact ⟨h0, h1, h2, h0, h1, h2⟩
  · simp only [hI, List.nil_append]
    exact faceIndices_length _
  · intro k f hf
    simp only [hI, List.nil_append]
    exact faceIndices_getElem _ k f hf

/-- In exact arithmetic the unit tetrahedron registered with scale 1 in a blank object gives
buffers of 12 vertex coordinates and 12 indices. -/
theorem setObject_buffers_tetra :
    ∃ o, setObject demoLoad MyObject.blank 1 "tetra.obj" = .ok o ∧
      o.vertexGeomVec.length = 12 ∧ o.indexGeomVec.length = 12 := by
  obtain ⟨hfill, hV, -⟩ := tetra_facts
  obtain ⟨o, ho, -, -, hl, -, -, hi, -⟩ := setObject_buffers demoLoad MyObject.blank 1
    "tetra.obj" tetraTriangles rfl rfl rfl hfill (by rw [hV]; norm_num) one_ne_zero
  exact ⟨o, ho, hl, hi⟩

/-! ## The centering invariant -/

/-- A function of the directed edges that changes sign when the edge is reversed sums to zero
over the edges of a closed, consistently oriented mesh. -/
theorem edges_sum_zero (faces : List obj_face) (hclosed : ClosedOriented faces)
    (H : Int × Int → ℚ) (hanti : ∀ e, H e.swap = - H e) :
    ((edgesOf faces).map H).sum = 0 := by
  have h1 : (((edgesOf faces).map Prod.swap).map H).sum = ((edgesOf faces).map H).sum :=
    (hclosed.map H).sum_eq
  rw [List.map_map] at h1
  have h2 : (H ∘ Prod.swap) = fun e => - H e := by
    funext e
    exact hanti e
  rw [h2] at h1
  have h3 : ((edgesOf faces).map (fun e => - H e)).sum = - ((edgesOf faces).map H).sum := by
    generalize edgesOf faces = l
    induction l with
    | nil => simp
    | cons e rest ih =>
      simp only [List.map_cons, List.sum_cons, ih]
      ring
  rw [h3] at h1
  linarith

/-- A vertex that can be read is the vertex its index denotes. -/
theorem vertexAt_eq (objData : objLoader) (i : Int) (v : Vec3)
    (h : vertexAt objData i = .ok v) : v = vertexOr objData i := by
  unfold vertexAt at h
  unfold vertexOr
  split_ifs at h
  cases hv : objData.vertexList[i.toNat]? with
  | none => simp [hv] at h
  | some w =>
    simp only [hv, Except.ok.injEq] at h
    rw [List.getD_eq_getElem?_getD, hv]
    exact h.symm

/-- Over the triangles read from the faces, a sum over the edges of each triangle is the sum
over the directed edges of the mesh. -/
theorem fill_edgeSum (objData : objLoader) (h : Vec3 → Vec3 → ℚ) :
    ∀ (faces : List obj_face) (ts : List data), fillTriangles objData faces = .ok ts →
      (ts.map (edgeSum h)).sum =
        ((edgesOf faces).map (fun e => h (vertexOr objData e.1) (vertexOr objData e.2))).sum := by
  intro faces
  induction faces with
  | nil =>
    intro ts hf
    unfold fillTriangles at hf
    injection hf with hf
    subst hf
    rfl
  | cons f rest ih =>
    intro ts hf
    unfold fillTriangles at hf
    cases ha : vertexAt objData f.vertex_index0 with
    | error e => simp [ha] at hf
    | ok a =>
      cases hb : vertexAt objData f.vertex_index1 with
      | error e => simp [ha, hb] at hf
      | ok b =>
        cases hc : vertexAt objData f.vertex_index2 with
        | error e => simp [ha, hb, hc] at hf
        | ok c =>
          cases hr : fillTriangles objData rest with
          | error e => simp [ha, hb, hc, hr] at hf
          | ok ts1 =>
            simp only [ha, hb, hc, hr, Except.ok.injEq] at hf
            subst hf
            have ea := vertexAt_eq objData _ a ha
            have eb := vertexAt_eq objData _ b hb
            have ec := vertexAt_eq objData _ c hc
            simp only [List.map_cons, List.sum_cons, edgesOf, ih ts1 hr, edgeSum, data.a,
              data.b, data.c, ← ea, ← eb, ← ec]
            ring

/-- Over the triangles of a closed, consistently oriented mesh, the edge sums of a function
that changes sign when its arguments are exchanged add up to zero. -/
theorem closed_edgeSum_zero (objData : objLoader) (faces : List obj_face) (ts : List data)
    (hfill : fillTriangles objData faces = .ok ts) (hclosed : ClosedOriented faces)
    (h : Vec3 → Vec3 → ℚ) (hanti : ∀ p q, h q p = - h p q) :
    (ts.map (edgeSum h)).sum = 0 := by
  rw [fill_edgeSum objData h faces ts hfill]
  exact edges_sum_zero faces hclosed _ (fun e => hanti _ _)

/-- The flat buffer of recentred coordinates holds the recentred vertices. -/
theorem bufferVertices_recentred (s : ℚ) (c : List ℚ) (vs : List Vec3) :
    bufferVertices (recentred vs s c) = vs.map (recentreVertex s c) := by
  induction vs with
  | nil => rfl
  | cons v rest ih =>
    simp only [recentred, bufferVertices, List.map_cons, ih, recentreVertex]

/-- Reading a vertex of the recentred vertex list gives the recentred vertex. -/
theorem vertexAt_recentred (s : ℚ) (c : List ℚ) (vs : List Vec3) (fs gs : List obj_face)
    (i : Int) (v : Vec3) (h : vertexAt ⟨vs, fs⟩ i = .ok v) :
    vertexAt ⟨vs.map (recentreVertex s c), gs⟩ i = .ok (recentreVertex s c v) := by
  unfold vertexAt at h ⊢
  split_ifs at h with h0
  rw [if_pos h0]
  simp only at h ⊢
  cases hv : vs[i.toNat]? with
  | none => simp [hv] at h
  | some w =>
    simp only [hv, Except.ok.injEq] at h
    subst h
    simp [List.getElem?_map, hv]

/-- The triangles read from the recentred vertex list are the recentred triangles. -/
theorem fillTriangles_recentred (s : ℚ) (c : List ℚ) (vs : List Vec3)
    (fs gs : List obj_face) :
    ∀ (faces : List obj_face) (ts : List data), fillTriangles ⟨vs, fs⟩ faces = .ok ts →
      fillTriangles ⟨vs.map (recentreVertex s c), gs⟩ faces =
        .ok (ts.map (recentreTriangle s c)) := by
  intro faces
  induction faces with
  | nil =>
    intro ts hf
    unfold fillTriangles at hf
    injection hf with hf
    subst hf
    rfl
  | cons f rest ih =>
    intro ts hf
    unfold fillTriangles at hf
    cases ha : vertexAt ⟨vs, fs⟩ f.vertex_index0 with
    | error e => simp [ha] at hf
    | ok a =>
      cases hb : vertexAt ⟨vs, fs⟩ f.vertex_index1 with
      | error e => simp [ha, hb] at hf
      | ok b =>
        cases hc : vertexAt ⟨vs, fs⟩ f.vertex_index2 with
        | error e => simp [ha, hb, hc] at hf
        | ok c1 =>
          cases hr : fillTriangles ⟨vs, fs⟩ rest with
          | error e => simp [ha, hb, hc, hr] at hf
          | ok ts1 =>
            simp only [ha, hb, hc, hr, Except.ok.injEq] at hf
            subst hf
            unfold fillTriangles
            rw [vertexAt_recentred s c vs fs gs _ a ha, vertexAt_recentred s c vs fs gs _ b hb,
              vertexAt_recentred s c vs fs gs _ c1 hc, ih ts1 hr]
            rfl

/-- The signed volume of a recentred triangle. -/
theorem tetraVolume_recentre (s : ℚ) (hs : s ≠ 0) (c : List ℚ) (t : data) :
    tetraVolume (recentreTriangle s c t) =
      (tetraVolume t - s / 6 *
        edgeSum (tripleProduct ⟨c.getD 0 0, c.getD 1 0, c.getD 2 0⟩) t) / s ^ 3 := by
  simp only [tetraVolume, tripleProduct, recentreTriangle, edgeSum, data.a, data.b, data.c]
  field_simp
  ring

/-- The x moment of a recentred triangle. -/
theorem momentTerm_recentre_x (s : ℚ) (hs : s ≠ 0) (c : List ℚ) (t : data) :
    tetraVolume (recentreTriangle s c t) *
        (((recentreTriangle s c t).a.x + (recentreTriangle s c t).b.x +
          (recentreTriangle s c t).c.x) / 4) =
      (tetraVolume t * ((t.a.x + t.b.x + t.c.x) / 4) - s * c.getD 0 0 * tetraVolume t
        - s / 24 * edgeSum (fun p q =>
            tripleProduct ⟨c.getD 0 0, c.getD 1 0, c.getD 2 0⟩ p q * (p.x + q.x)) t
        + s ^ 2 * c.getD 0 0 / 8 *
          edgeSum (tripleProduct ⟨c.getD 0 0, c.getD 1 0, c.getD 2 0⟩) t) / s ^ 4 := by
  simp only [tetraVolume, tripleProduct, recentreTriangle, edgeSum, data.a, data.b, data.c]
  field_simp
  ring

/-- The y moment of a recentred triangle. -/
theorem momentTerm_recentre_y (s : ℚ) (hs : s ≠ 0) (c : List ℚ) (t : data) :
    tetraVolume (recentreTriangle s c t) *
        (((recentreTriangle s c t).a.y + (recentreTriangle s c t).b.y +
          (recentreTriangle s c t).c.y) / 4) =
      (tetraVolume t * ((t.a.y + t.b.y + t.c.y) / 4) - s * c.getD 1 0 * tetraVolume t
        - s / 24 * edgeSum (fun p q =>
            tripleProduct ⟨c.getD 0 0, c.getD 1 0, c.getD 2 0⟩ p q * (p.y + q.y)) t
        + s ^ 2 * c.getD 1 0 / 8 *
          edgeSum (tripleProduct ⟨c.getD 0 0, c.getD 1 0, c.getD 2 0⟩) t) / s ^ 4 := by
  simp only [tetraVolume, tripleProduct, recentreTriangle, edgeSum, data.a, data.b, data.c]
  field_simp
  ring

/-- The z moment of a recentred triangle. -/
theorem momentTerm_recentre_z (s : ℚ) (hs : s ≠ 0) (c : List ℚ) (t : data) :
    tetraVolume (recentreTriangle s c t) *
        (((recentreTriangle s c t).a.z + (recentreTriangle s c t).b.z +
          (recentreTriangle s c t).c.z) / 4) =
      (tetraVolume t * ((t.a.z + t.b.z + t.c.z) / 4) - s * c.getD 2 0 * tetraVolume t
        - s / 24 * edgeSum (fun p q =>
            tripleProduct ⟨c.getD 0 0, c.getD 1 0, c.getD 2 0⟩ p q * (p.z + q.z)) t
        + s ^ 2 * c.getD 2 0 / 8 *
          edgeSum (tripleProduct ⟨c.getD 0 0, c.getD 1 0, c.getD 2 0⟩) t) / s ^ 4 := by
  simp only [tetraVolume, tripleProduct, recentreTriangle, edgeSum, data.a, data.b, data.c]
  field_simp
  ring

/-- The total signed volume of the recentred triangle list. -/
theorem volumeSum_recentre (s : ℚ) (hs : s ≠ 0) (c : List ℚ) (ts : List data) :
    volumeSum (ts.map (recentreTriangle s c)) =
      (volumeSum ts - s / 6 *
        (ts.map (edgeSum (tripleProduct ⟨c.getD 0 0, c.getD 1 0, c.getD 2 0⟩))).sum) /
        s ^ 3 := by
  induction ts with
  | nil => simp [volumeSum]
  | cons t rest ih =>
    unfold volumeSum at ih ⊢
    simp only [List.map_cons, List.sum_cons]
    rw [ih, tetraVolume_recentre s hs c t]
    field_simp
    ring

/-- The x moment of the recentred triangle list. -/
theorem momentX_recentre (s : ℚ) (hs : s ≠ 0) (c : List ℚ) (ts : List data) :
    momentX (ts.map (recentreTriangle s c)) =
      (momentX ts - s * c.getD 0 0 * volumeSum ts
        - s / 24 * (ts.map (edgeSum (fun p q =>
            tripleProduct ⟨c.getD 0 0, c.getD 1 0, c.getD 2 0⟩ p q * (p.x + q.x)))).sum
        + s ^ 2 * c.getD 0 0 / 8 *
          (ts.map (edgeSum (tripleProduct ⟨c.getD 0 0, c.getD 1 0, c.getD 2 0⟩))).sum) /
        s ^ 4 := by
  induction ts with
  | nil => simp [momentX, volumeSum]
  | cons t rest ih =>
    unfold momentX volumeSum at ih ⊢
    simp only [List.map_cons, List.sum_cons]
    rw [ih, momentTerm_recentre_x s hs c t]
    field_simp
    ring

/-- The y moment of the recentred triangle list. -/
theorem momentY_recentre (s : ℚ) (hs : s ≠ 0) (c : List ℚ) (ts : List data) :
    momentY (ts.map (recentreTriangle s c)) =
      (momentY ts - s * c.getD 1 0 * volumeSum ts
        - s / 24 * (ts.map (edgeSum (fun p q =>
            tripleProduct ⟨c.getD 0 0, c.getD 1 0, c.getD 2 0⟩ p q * (p.y + q.y)))).sum
        + s ^ 2 * c.getD 1 0 / 8 *
          (ts.map (edgeSum (tripleProduct ⟨c.getD 0 0, c.getD 1 0, c.getD 2 0⟩))).sum) /
        s ^ 4 := by
  induction ts with
  | nil => simp [momentY, volumeSum]
  | cons t rest ih =>
    unfold momentY volumeSum at ih ⊢
    simp only [List.map_cons, List.sum_cons]
    rw [ih, momentTerm_recentre_y s hs c t]
    field_simp
    ring

/-- The z moment of the recentred triangle list. -/
theorem momentZ_recentre (s : ℚ) (hs : s ≠ 0) (c : List ℚ) (ts : List data) :
    momentZ (ts.map (recentreTriangle s c)) =
      (momentZ ts - s * c.getD 2 0 * volumeSum ts
        - s / 24 * (ts.map (edgeSum (fun p q =>
            tripleProduct ⟨c.getD 0 0, c.getD 1 0, c.getD 2 0⟩ p q * (p.z + q.z)))).sum
        + s ^ 2 * c.getD 2 0 / 8 *
          (ts.map (edgeSum (tripleProduct ⟨c.getD 0 0, c.getD 1 0, c.getD 2 0⟩))).sum) /
        s ^ 4 := by
  induction ts with
  | nil => simp [momentZ, volumeSum]
  | cons t rest ih =>
    unfold momentZ volumeSum at ih ⊢
    simp only [List.map_cons, List.sum_cons]
    rw [ih, momentTerm_recentre_z s hs c t]
    field_simp
    ring

/-- The scalar triple product changes sign when its last two arguments are exchanged. -/
theorem tripleProduct_swap (c p q : Vec3) : tripleProduct c q p = - tripleProduct c p q := by
  unfold tripleProduct
  ring

/-- C13: for a mesh that can be read, is closed and consistently oriented, has non-zero (in
particular positive) total signed volume, and a non-zero (in particular positive) scale,
registered in an object with an empty geometry vertex buffer: running the centre-of-mass
computation of `setObject` again on the stored recentred vertex buffer, with the same faces and
scale 1, returns the zero vector. -/
theorem setObject_centering (load : String → objLoader) (object : MyObject) (number : ℚ)
    (filename : String) (ts : List data)
    (hG : object.vertexGeomVec = [])
    (hfill : fillTriangles (load filename) (load filename).faceList = .ok ts)
    (hclosed : ClosedOriented (load filename).faceList)
    (hV : volumeSum ts ≠ 0) (hs : number ≠ 0) :
    ∃ o ts1, setObject load object number filename = .ok o ∧
      fillTriangles ⟨bufferVertices o.vertexGeomVec, (load filename).faceList⟩
        (load filename).faceList = .ok ts1 ∧
      centerOfMassOf ts1 1 = .ok [0, 0, 0] := by
  have hcom := centerOfMassOf_eq ts number hV hs
  refine ⟨_, ts.map (recentreTriangle number (centroidSpec ts number)),
    setObject_eq load object number filename ts _ hfill hcom, ?_, ?_⟩
  · simp only [hG, List.nil_append, bufferVertices_recentred]
    exact fillTriangles_recentred number (centroidSpec ts number) (load filename).vertexList
      (load filename).faceList (load filename).faceList (load filename).faceList ts hfill
  · have hE : (ts.map (edgeSum (tripleProduct
        ⟨(centroidSpec ts number).getD 0 0, (centroidSpec ts number).getD 1 0,
          (centroidSpec ts number).getD 2 0⟩))).sum = 0 :=
      closed_edgeSum_zero (load filename) _ ts hfill hclosed _
        (fun p q => tripleProduct_swap _ p q)
    have hX : (ts.map (edgeSum (fun p q => tripleProduct
        ⟨(centroidSpec ts number).getD 0 0, (centroidSpec ts number).getD 1 0,
          (centroidSpec ts number).getD 2 0⟩ p q * (p.x + q.x)))).sum = 0 :=
      closed_edgeSum_zero (load filename) _ ts hfill hclosed _
        (fun p q => by rw [tripleProduct_swap]; ring)
    have hY : (ts.map (edgeSum (fun p q => tripleProduct
        ⟨(centroidSpec ts number).getD 0 0, (centroidSpec ts number).getD 1 0,
          (centroidSpec ts number).getD 2 0⟩ p q * (p.y + q.y)))).sum = 0 :=
      closed_edgeSum_zero (load filename) _ ts hfill hclosed _
        (fun p q => by rw [tripleProduct_swap]; ring)
    have hZ : (ts.map (edgeSum (fun p q => tripleProduct
        ⟨(centroidSpec ts number).getD 0 0, (centroidSpec ts number).getD 1 0,
          (centroidSpec ts number).getD 2 0⟩ p q * (p.z + q.z)))).sum = 0 :=
      closed_edgeSum_zero (load filename) _ ts hfill hclosed _
        (fun p q => by rw [tripleProduct_swap]; ring)
    have hvol := volumeSum_recentre number hs (centroidSpec ts number) ts
    have hmx := momentX_recentre number hs (centroidSpec ts number) ts
    have hmy := momentY_recentre number hs (centroidSpec ts number) ts
    have hmz := momentZ_recentre number hs (centroidSpec ts number) ts
    rw [hE] at hvol
    rw [hE, hX] at hmx
    rw [hE, hY] at hmy
    rw [hE, hZ] at hmz
    have hvol1 : volumeSum (ts.map (recentreTriangle number (centroidSpec ts number))) ≠ 0 := by
      rw [hvol]
      simp only [mul_zero, sub_zero]
      exact div_ne_zero hV (pow_ne_zero 3 hs)
    have hmx0 : momentX (ts.map (recentreTriangle number (centroidSpec ts number))) = 0 := by
      rw [hmx]
      simp only [centroidSpec, List.getD_cons_zero]
      field_simp
      ring
    have hmy0 : momentY (ts.map (recentreTriangle number (centroidSpec ts number))) = 0 := by
      rw [hmy]
      simp only [centroidSpec, List.getD_cons_succ, List.getD_cons_zero]
      field_simp
      ring
    have hmz0 : momentZ (ts.map (recentreTriangle number (centroidSpec ts number))) = 0 := by
      rw [hmz]
      simp only [centroidSpec, List.getD_cons_succ, List.getD_cons_zero]
      field_simp
      ring
    unfold centerOfMassOf
    rw [accumulate_eq]
    simp [divide, hvol1, hmx0, hmy0, hmz0]

/-- The unit tetrahedron is closed and consistently oriented. -/
theorem tetra_closed : ClosedOriented (demoLoad "tetra.obj").faceList := by
  have h : (demoLoad "tetra.obj").faceList = tetraMesh.faceList := rfl
  rw [h]
  unfold ClosedOriented
  decide

/-- Witness for C13: the unit tetrahedron registered with scale 1. -/
theorem setObject_centering_witness :
    ∃ o ts1, setObject demoLoad MyObject.blank 1 "tetra.obj" = .ok o ∧
      fillTriangles ⟨bufferVertices o.vertexGeomVec, (demoLoad "tetra.obj").faceList⟩
        (demoLoad "tetra.obj").faceList = .ok ts1 ∧
      centerOfMassOf ts1 1 = .ok [0, 0, 0] := by
  obtain ⟨hfill, hV, -⟩ := tetra_facts
  exact setObject_centering demoLoad MyObject.blank 1 "tetra.obj" tetraTriangles rfl hfill
    tetra_closed (by rw [hV]; norm_num) one_ne_zero

/-! ## Registration through `setModels` -/

/-- C14, what the code does: for a mesh that can be read and has total signed volume zero,
`setObject` divides by the zero volume.  The division is undefined behaviour of the C++ program
(with IEEE arithmetic a centre of mass that is not a number), not a reported mesh error: the
code makes no check of the volume. -/
theorem setObject_zero_volume (load : String → objLoader) (object : MyObject) (number : ℚ)
    (filename : String) (ts : List data)
    (hfill : fillTriangles (load filename) (load filename).faceList = .ok ts)
    (hV : volumeSum ts = 0) :
    setObject load object number filename = .error .zeroDivide := by
  unfold setObject
  simp only [hfill]
  unfold centerOfMassOf
  rw [accumulate_eq]
  simp [divide, hV]

/-- The flat triangle can be read and has volume zero. -/
theorem flat_facts :
    fillTriangles (demoLoad "flat.obj") (demoLoad "flat.obj").faceList =
      .ok [⟨0, 0, 0, 1, 0, 0, 0, 1, 0⟩] ∧
    volumeSum [⟨0, 0, 0, 1, 0, 0, 0, 1, 0⟩] = 0 := by
  refine ⟨rfl, ?_⟩
  simp [volumeSum, tetraVolume, tripleProduct, data.a, data.b, data.c]

/-- Witness for C14: the single flat triangle. -/
theorem setObject_zero_volume_witness :
    setObject demoLoad MyObject.blank 100 "flat.obj" = .error .zeroDivide :=
  setObject_zero_volume demoLoad MyObject.blank 100 "flat.obj" _ flat_facts.1 flat_facts.2

theorem mapFind_mapAssign_same (m : List (String × MyObject)) (name : String) (o : MyObject) :
    mapFind (mapAssign m name o) name = some o := by
  induction m with
  | nil => simp [mapAssign, mapFind]
  | cons p rest ih =>
    obtain ⟨k, v⟩ := p
    unfold mapAssign
    by_cases hk : k = name
    · rw [if_pos hk]
      unfold mapFind
      rw [if_pos hk]
    · rw [if_neg hk]
      unfold mapFind
      rw [if_neg hk]
      exact ih

theorem mapFind_mapAssign_other (m : List (String × MyObject)) (name other : String)
    (o : MyObject) (h : other ≠ name) :
    mapFind (mapAssign m name o) other = mapFind m other := by
  induction m with
  | nil =>
    have : ¬ name = other := fun e => h e.symm
    simp [mapAssign, mapFind, this]
  | cons p rest ih =>
    obtain ⟨k, v⟩ := p
    unfold mapAssign
    by_cases hk : k = name
    · rw [if_pos hk]
      unfold mapFind
      have : ¬ k = other := by
        rw [hk]
        exact fun e => h e.symm
      rw [if_neg this, if_neg this]
    · rw [if_neg hk]
      unfold mapFind
      by_cases ho : k = other
      · rw [if_pos ho, if_pos ho]
      · rw [if_neg ho, if_neg ho]
        exact ih

/-- A successful read of `obj[i]`. -/
theorem objAt_ok (S : State) (i : Nat) (o : MyObject) :
    objAt S i = .ok o ↔ i < NUM ∧ S.obj[i]? = some o := by
  unfold objAt
  by_cases hi : i < NUM
  · rw [if_pos hi]
    cases ho : S.obj[i]? with
    | none => simp [hi]
    | some w => simp [hi]
  · rw [if_neg hi]
    simp [hi]

/-- A successful read of `scaling[i]`. -/
theorem scalingAt_ok (S : State) (i : Nat) (x : ℚ) :
    scalingAt S i = .ok x ↔ i < NUM ∧ S.scaling[i]? = some x := by
  unfold scalingAt
  by_cases hi : i < NUM
  · rw [if_pos hi]
    cases ho : S.scaling[i]? with
    | none => simp [hi]
    | some w => simp [hi]
  · rw [if_neg hi]
    simp [hi]

/-- What `makeObject` does to the world and to the object: one more body, every earlier body
kept, and the object changed only in `body` and `geom`. -/
theorem makeObject_facts (P : Params) (w : World) (o : MyObject) :
    (makeObject P w o).2.bodies.length = w.bodies.length + 1 ∧
    (∀ b, b < w.bodies.length → (makeObject P w o).2.bodies[b]? = w.bodies[b]?) ∧
    (makeObject P w o).1.body = w.bodies.length ∧
    (makeObject P w o).1.model_ID = o.model_ID ∧
    (makeObject P w o).1.vertexGeomVec = o.vertexGeomVec ∧
    (makeObject P w o).1.vertexDrawVec = o.vertexDrawVec ∧
    (makeObject P w o).1.indexGeomVec = o.indexGeomVec ∧
    (makeObject P w o).1.centerOfMass = o.centerOfMass ∧
    (makeObject P w o).1.center = o.center := by
  refine ⟨by simp [makeObject], ?_, rfl, rfl, rfl, rfl, rfl, rfl, rfl⟩
  intro b hb
  simp [makeObject, List.getElem?_append_left hb]

/-- What a returning run of the registration loop leaves: the parameters, the map, the object
count and the scaling table are unchanged; the world has one more body per iteration and keeps
every earlier body; the slots outside the range are unchanged; and each slot `j` of the range
holds the object that `makeObject` made of what `setObject` returned for the earlier content of
the slot, the name, the file and the scale of position `j`. -/
theorem registerLoop_props (load : String → objLoader) (modelnames filenames : List String) :
    ∀ (k i : Nat) (S S1 : State), registerLoop load modelnames filenames k i S = .ok S1 →
      S1.params = S.params ∧ S1.m = S.m ∧ S1.num = S.num ∧ S1.scaling = S.scaling ∧
      S1.obj.length = S.obj.length ∧
      S1.world.bodies.length = S.world.bodies.length + k ∧
      (∀ b, b < S.world.bodies.length → S1.world.bodies[b]? = S.world.bodies[b]?) ∧
      (∀ j, j < i ∨ i + k ≤ j → S1.obj[j]? = S.obj[j]?) ∧
      (∀ j, i ≤ j → j < i + k →
        ∃ oj name file sc o1 w, S.obj[j]? = some oj ∧ modelnames[j]? = some name ∧
          filenames[j]? = some file ∧ S.scaling[j]? = some sc ∧ j < NUM ∧
          setObject load { oj with model_ID := name } sc file = .ok o1 ∧
          S1.obj[j]? = some (makeObject S.params w o1).1) := by
  intro k
  induction k with
  | zero =>
    intro i S S1 h
    unfold registerLoop at h
    injection h with h
    subst h
    refine ⟨rfl, rfl, rfl, rfl, rfl, rfl, fun _ _ => rfl, fun _ _ => rfl, ?_⟩
    intro j h1 h2
    omega
  | succ k ih =>
    intro i S S1 h
    unfold registerLoop at h
    cases ho : objAt S i with
    | error e => simp [ho] at h
    | ok o =>
      cases hn : modelnames[i]? with
      | none => simp [ho, hn] at h
      | some name =>
        cases hf : filenames[i]? with
        | none => simp [ho, hn, hf] at h
        | some file =>
          cases hs : scalingAt S i with
          | error e => simp [ho, hn, hf, hs] at h
          | ok sc =>
            cases hset : setObject load { o with model_ID := name } sc file with
            | error e => simp [ho, hn, hf, hs, hset] at h
            | ok o1 =>
              simp only [ho, hn, hf, hs, hset] at h
              obtain ⟨hiN, hoi⟩ := (objAt_ok S i o).mp ho
              obtain ⟨-, hsi⟩ := (scalingAt_ok S i sc).mp hs
              have hlen : i < S.obj.length := by
                by_contra hge
                rw [List.getElem?_eq_none (by omega)] at hoi
                cases hoi
              obtain ⟨p1, p2, p3, p4, p5, p6, p7, p8, p9⟩ := ih (i + 1) _ S1 h
              obtain ⟨m1, m2, -⟩ := makeObject_facts S.params S.world o1
              simp only at p1 p2 p3 p4 p5 p6 p7 p8 p9
              refine ⟨p1, p2, p3, p4, ?_, ?_, ?_, ?_, ?_⟩
              · rw [p5, List.length_set]
              · rw [p6, m1]
                omega
              · intro b hb
                rw [p7 b (by rw [m1]; omega)]
                exact m2 b hb
              · intro j hj
                rw [p8 j (by omega), List.getElem?_set_ne (by omega)]
              · intro j h1 h2
                by_cases hji : j = i
                · subst hji
                  refine ⟨o, name, file, sc, o1, S.world, hoi, hn, hf, hsi, hiN, hset, ?_⟩
                  rw [p8 j (by omega), List.getElem?_set_self hlen]
                · obtain ⟨oj, name2, file2, sc2, o2, w, q1, q2, q3, q4, q5, q6, q7⟩ :=
                    p9 j (by omega) (by omega)
                  rw [List.getElem?_set_ne (fun e => hji e.symm)] at q1
                  exact ⟨oj, name2, file2, sc2, o2, w, q1, q2, q3, q4, q5, q6, q7⟩

/-- The registration loop returns when the slots of its range exist and `setObject` returns
for each of them. -/
theorem registerLoop_ok (load : String → objLoader) (modelnames filenames : List String) :
    ∀ (k i : Nat) (S : State), i + k ≤ NUM → i + k ≤ S.obj.length →
      i + k ≤ S.scaling.length → i + k ≤ modelnames.length → i + k ≤ filenames.length →
      (∀ j oj name file sc, i ≤ j → j < i + k → S.obj[j]? = some oj →
        modelnames[j]? = some name → filenames[j]? = some file → S.scaling[j]? = some sc →
        ∃ o1, setObject load { oj with model_ID := name } sc file = .ok o1) →
      ∃ S1, registerLoop load modelnames filenames k i S = .ok S1 := by
  intro k
  induction k with
  | zero =>
    intro i S _ _ _ _ _ _
    exact ⟨S, rfl⟩
  | succ k ih =>
    intro i S hN hO hSc hM hF hset
    have ho : objAt S i = .ok S.obj[i] := by
      rw [objAt_ok]
      exact ⟨by omega, List.getElem?_eq_getElem (by omega)⟩
    have hs : scalingAt S i = .ok S.scaling[i] := by
      rw [scalingAt_ok]
      exact ⟨by omega, List.getElem?_eq_getElem (by omega)⟩
    have hn : modelnames[i]? = some modelnames[i] := List.getElem?_eq_getElem (by omega)
    have hf : filenames[i]? = some filenames[i] := List.getElem?_eq_getElem (by omega)
    obtain ⟨o1, h1⟩ := hset i S.obj[i] modelnames[i] filenames[i] S.scaling[i] (le_refl _)
      (by omega) (List.getElem?_eq_getElem (by omega)) hn hf
      (List.getElem?_eq_getElem (by omega))
    unfold registerLoop
    simp only [ho, hn, hf, hs, h1]
    apply ih (i + 1) _ (by omega) (by simp only [List.length_set]; omega)
      (by simp only; omega) (by omega) (by omega)
    intro j oj name file sc hj1 hj2 hoj hnj hfj hsj
    simp only at hoj hsj
    rw [List.getElem?_set_ne (by omega)] at hoj
    exact hset j oj name file sc (by omega) (by omega) hoj hnj hfj hsj

/-- What a returning `setObject` returned. -/
theorem setObject_inv (load : String → objLoader) (object : MyObject) (number : ℚ)
    (filename : String) (o : MyObject) (h : setObject load object number filename = .ok o) :
    ∃ ts com, fillTriangles (load filename) (load filename).faceList = .ok ts ∧
      centerOfMassOf ts number = .ok com ∧
      o = { object with
            indCount := (load filename).faceList.length
            vertCount := (load filename).vertexList.length
            centerOfMass := com
            indexDrawVec := object.indexDrawVec ++ faceRows (load filename).faceList
            indexGeomVec := object.indexGeomVec ++ faceIndices (load filename).faceList
            vertexDrawVec := object.vertexDrawVec ++
              recentred (load filename).vertexList number com
            vertexGeomVec := object.vertexGeomVec ++
              recentred (load filename).vertexList number com } := by
  unfold setObject at h
  cases hf : fillTriangles (load filename) (load filename).faceList with
  | error e => simp [hf] at h
  | ok ts =>
    cases hc : centerOfMassOf ts number with
    | error e => simp [hf, hc] at h
    | ok com =>
      simp only [hf, hc, Except.ok.injEq] at h
      exact ⟨ts, com, rfl, hc, h.symm⟩

/-- What a returning run of the map loop leaves: only the map changes; a name outside the
range keeps its entry; a name of the range is bound to the object of the last slot of the range
that carries the name. -/
theorem mapLoop_props (modelnames : List String) :
    ∀ (k i : Nat) (S S1 : State), mapLoop modelnames k i S = .ok S1 →
      S1.params = S.params ∧ S1.num = S.num ∧ S1.scaling = S.scaling ∧ S1.obj = S.obj ∧
      S1.world = S.world ∧
      (∀ name, (∀ j, i ≤ j → j < i + k → modelnames[j]? ≠ some name) →
        mapFind S1.m name = mapFind S.m name) ∧
      (∀ j name, i ≤ j → j < i + k → modelnames[j]? = some name →
        (∀ j1, j < j1 → j1 < i + k → modelnames[j1]? ≠ some name) →
        ∃ o, S.obj[j]? = some o ∧ mapFind S1.m name = some o) := by
  intro k
  induction k with
  | zero =>
    intro i S S1 h
    unfold mapLoop at h
    injection h with h
    subst h
    refine ⟨rfl, rfl, rfl, rfl, rfl, fun _ _ => rfl, ?_⟩
    intro j name h1 h2
    omega
  | succ k ih =>
    intro i S S1 h
    unfold mapLoop at h
    cases hn : modelnames[i]? with
    | none => simp [hn] at h
    | some name1 =>
      cases ho : objAt S i with
      | error e => simp [hn, ho] at h
      | ok o =>
        simp only [hn, ho] at h
        obtain ⟨-, hoi⟩ := (objAt_ok S i o).mp ho
        obtain ⟨p1, p2, p3, p4, p5, p6, p7⟩ := ih (i + 1) _ S1 h
        simp only at p1 p2 p3 p4 p5 p6 p7
        refine ⟨p1, p2, p3, p4, p5, ?_, ?_⟩
        · intro name hno
          rw [p6 name (fun j h1 h2 => hno j (by omega) (by omega))]
          apply mapFind_mapAssign_other
          intro e
          apply hno i (le_refl _) (by omega)
          rw [hn, e]
        · intro j name h1 h2 hj hlast
          by_cases hji : j = i
          · subst hji
            rw [hn] at hj
            injection hj with hj
            subst hj
            refine ⟨o, hoi, ?_⟩
            rw [p6 name1 (fun j1 h3 h4 => hlast j1 (by omega) (by omega))]
            exact mapFind_mapAssign_same S.m name1 o
          · exact p7 j name (by omega) (by omega) hj (fun j1 h3 h4 => hlast j1 h3 (by omega))

/-- The map loop returns when the names and the slots of its range exist. -/
theorem mapLoop_ok (modelnames : List String) :
    ∀ (k i : Nat) (S : State), i + k ≤ NUM → i + k ≤ S.obj.length →
      i + k ≤ modelnames.length → ∃ S1, mapLoop modelnames k i S = .ok S1 := by
  intro k
  induction k with
  | zero =>
    intro i S _ _ _
    exact ⟨S, rfl⟩
  | succ k ih =>
    intro i S hN hO hM
    have ho : objAt S i = .ok S.obj[i] := by
      rw [objAt_ok]
      exact ⟨by omega, List.getElem?_eq_getElem (by omega)⟩
    have hn : modelnames[i]? = some modelnames[i] := List.getElem?_eq_getElem (by omega)
    unfold mapLoop
    simp only [ho, hn]
    exact ih (i + 1) _ (by omega) (by simp only; omega) (by omega)

/-- With names and files of equal number, `setModels` is the registration loop followed by the
map loop. -/
theorem setModels_equal (load : String → objLoader) (modelnames filenames : List String)
    (S S1 S2 : State) (hlen : modelnames.length = filenames.length)
    (h1 : registerLoop load modelnames filenames filenames.length 0
      { S with num := filenames.length } = .ok S1)
    (h2 : mapLoop modelnames filenames.length 0 S1 = .ok S2) :
    setModels load modelnames filenames S = .ok S2 := by
  have hnum : S1.num = filenames.length :=
    (registerLoop_props load modelnames filenames _ _ _ S1 h1).2.2.1
  unfold setModels
  rw [if_neg (fun h => h hlen)]
  simp only [h1, hnum, h2]

/-- In a list without repetition an index is the last one that carries its element. -/
theorem nodup_no_later (l : List String) (hnd : l.Nodup) (i : Nat) (name : String)
    (hi : l[i]? = some name) : ∀ j, i < j → l[j]? ≠ some name := by
  intro j hij
  by_cases hj : j < l.length
  · rw [← hi]
    exact fun e => (List.nodup_iff_getElem?_ne_getElem?.mp hnd i j hij hj) e.symm
  · rw [List.getElem?_eq_none (by omega)]
    exact fun e => by cases e

/-- C16: on a validator with an empty map and a blank object array (a fresh validator), for
names and files of equal number `n` at most `NUM`, names without repetition, and meshes for
which `setObject` returns, `setModels` returns; afterwards `num` is `n`, looking up the name at
position `i` succeeds and gives the object with that `model_ID` that `makeObject` made of what
`setObject` built from the file at position `i` with the divisor `scaling[i]`, and the keys of
the map are exactly the names. -/
theorem setModels_fresh (load : String → objLoader) (modelnames filenames : List String)
    (S : State) (hm : S.m = []) (hobj : S.obj = List.replicate NUM MyObject.blank)
    (hsc : S.scaling.length = NUM) (hlen : modelnames.length = filenames.length)
    (hcap : modelnames.length ≤ NUM) (hnd : modelnames.Nodup)
    (hmesh : ∀ (i : Nat) (name file : String) (sc : ℚ), modelnames[i]? = some name →
      filenames[i]? = some file → S.scaling[i]? = some sc →
      ∃ o1, setObject load { MyObject.blank with model_ID := name } sc file = .ok o1) :
    ∃ S2, setModels load modelnames filenames S = .ok S2 ∧ S2.num = modelnames.length ∧
      (∀ (i : Nat) (name : String), modelnames[i]? = some name →
        ∃ file sc o1 w o, filenames[i]? = some file ∧ S.scaling[i]? = some sc ∧
          setObject load { MyObject.blank with model_ID := name } sc file = .ok o1 ∧
          o = (makeObject S.params w o1).1 ∧ mapFind S2.m name = some o ∧
          o.model_ID = name) ∧
      (∀ name, (∃ o, mapFind S2.m name = some o) ↔ name ∈ modelnames) := by
  have hblank : ∀ (j : Nat) (oj : MyObject), S.obj[j]? = some oj → oj = MyObject.blank := by
    intro j oj hj
    rw [hobj] at hj
    have hmem : oj ∈ List.replicate NUM MyObject.blank := List.getElem?_mem hj
    exact (List.mem_replicate.mp hmem).2
  have hol : S.obj.length = NUM := by
    rw [hobj, List.length_replicate]
  obtain ⟨S1, h1⟩ := registerLoop_ok load modelnames filenames filenames.length 0
    { S with num := filenames.length } (by omega) (by simp only; omega)
    (by simp only; omega) (by omega) (by omega)
    (by
      intro j oj name file sc _ _ hoj hnj hfj hsj
      rw [hblank j oj hoj]
      exact hmesh j name file sc hnj hfj hsj)
  obtain ⟨p1, p2, p3, p4, p5, -, -, -, p9⟩ :=
    registerLoop_props load modelnames filenames _ _ _ S1 h1
  simp only at p1 p2 p3 p4 p5 p9
  obtain ⟨S2, h2⟩ := mapLoop_ok modelnames filenames.length 0 S1 (by omega)
    (by rw [p5]; omega) (by omega)
  obtain ⟨q1, q2, -, -, -, q6, q7⟩ := mapLoop_props modelnames _ _ S1 S2 h2
  have key : ∀ (i : Nat) (name : String), modelnames[i]? = some name →
      ∃ file sc o1 w o, filenames[i]? = some file ∧ S.scaling[i]? = some sc ∧
        setObject load { MyObject.blank with model_ID := name } sc file = .ok o1 ∧
        o = (makeObject S.params w o1).1 ∧ mapFind S2.m name = some o ∧
        o.model_ID = name := by
    intro i name hi
    have hlt : i < modelnames.length := by
      by_contra hge
      rw [List.getElem?_eq_none (by omega)] at hi
      cases hi
    obtain ⟨oj, name2, file, sc, o1, w, r1, r2, r3, r4, -, r6, r7⟩ :=
      p9 i (Nat.zero_le _) (by omega)
    rw [hi] at r2
    injection r2 with r2
    subst r2
    rw [hblank i oj r1] at r6
    obtain ⟨o, s1, s2⟩ := q7 i name (Nat.zero_le _) (by omega) hi
      (fun j1 h3 _ => nodup_no_later modelnames hnd i name hi j1 h3)
    rw [r7] at s1
    injection s1 with s1
    refine ⟨file, sc, o1, w, o, r3, r4, r6, s1.symm, s2, ?_⟩
    rw [← s1, (makeObject_facts S.params w o1).2.2.2.1]
    obtain ⟨ts, com, -, -, e⟩ := setObject_inv load _ sc file o1 r6
    rw [e]
  refine ⟨S2, setModels_equal load modelnames filenames S S1 S2 hlen h1 h2, ?_, key, ?_⟩
  · rw [q2, p3, hlen]
  · intro name
    constructor
    · rintro ⟨o, ho⟩
      by_contra hnot
      rw [q6 name (by
        intro j _ _ e
        exact hnot (List.getElem?_mem e)), p2, hm] at ho
      simp [mapFind] at ho
    · intro hmem
      obtain ⟨i, hi, hin⟩ := List.getElem_of_mem hmem
      obtain ⟨-, -, -, -, o, -, -, -, -, ho, -⟩ :=
        key i name (by rw [List.getElem?_eq_getElem hi, hin])
      exact ⟨o, ho⟩

/-- Registering one name: what `setModels` returns when slot 0 exists and `setObject`
returns. -/
theorem setModels_single (load : String → objLoader) (S : State) (name file : String)
    (o0 o1 : MyObject) (sc : ℚ) (h0 : S.obj[0]? = some o0) (hs : S.scaling[0]? = some sc)
    (hset : setObject load { o0 with model_ID := name } sc file = .ok o1) :
    setModels load [name] [file] S = .ok
      { S with
        num := 1
        obj := S.obj.set 0 (makeObject S.params S.world o1).1
        world := (makeObject S.params S.world o1).2
        m := mapAssign S.m name (makeObject S.params S.world o1).1 } := by
  have hlen : 0 < S.obj.length := by
    by_contra hge
    rw [List.getElem?_eq_none (by omega)] at h0
    cases h0
  have hN : 0 < NUM := by decide
  unfold setModels
  simp only [List.length_singleton, ne_eq, not_true_eq_false, if_false]
  unfold registerLoop
  simp only [objAt, scalingAt, hN, if_true, h0, hs, List.getElem?_cons_zero, hset]
  unfold registerLoop
  simp only
  unfold mapLoop
  simp only [objAt, hN, if_true, List.getElem?_cons_zero, List.getElem?_set_self hlen]
  unfold mapLoop
  rfl

/-- C17, what the code does: registering a name in slot 0 again keeps what the buffers of the
slot held and appends the new mesh to it, so the stored buffers are longer than the new mesh;
the trimesh of the new body is built from the first `3 * vertCount` entries of that buffer; and
the world keeps every earlier body and gains one, so the body of an earlier registration is
still in the world. -/
theorem setModels_reregister (load : String → objLoader) (S : State) (name file : String)
    (o0 : MyObject) (sc : ℚ) (ts : List data) (h0 : S.obj[0]? = some o0)
    (hs : S.scaling[0]? = some sc)
    (hfill : fillTriangles (load file) (load file).faceList = .ok ts)
    (hV : volumeSum ts ≠ 0) (hsc : sc ≠ 0) :
    ∃ S1 e nb, setModels load [name] [file] S = .ok S1 ∧ S1.scaling = S.scaling ∧
      S1.obj[0]? = some e ∧ mapFind S1.m name = some e ∧
      e.vertexGeomVec =
        o0.vertexGeomVec ++ recentred (load file).vertexList sc (centroidSpec ts sc) ∧
      e.indexGeomVec = o0.indexGeomVec ++ faceIndices (load file).faceList ∧
      e.vertexGeomVec.length = o0.vertexGeomVec.length + 3 * (load file).vertexList.length ∧
      e.indexGeomVec.length = o0.indexGeomVec.length + 3 * (load file).faceList.length ∧
      S1.world.bodies.length = S.world.bodies.length + 1 ∧
      (∀ b, b < S.world.bodies.length → S1.world.bodies[b]? = S.world.bodies[b]?) ∧
      S1.world.bodies[S.world.bodies.length]? = some nb ∧
      nb.meshVerts = e.vertexGeomVec.take (3 * (load file).vertexList.length) := by
  have hlen : 0 < S.obj.length := by
    by_contra hge
    rw [List.getElem?_eq_none (by omega)] at h0
    cases h0
  have hcom := centerOfMassOf_eq ts sc hV hsc
  have hset := setObject_eq load { o0 with model_ID := name } sc file ts _ hfill hcom
  obtain ⟨o1, ho1⟩ : ∃ o1 : MyObject, o1 =
      { ({ o0 with model_ID := name } : MyObject) with
        indCount := (load file).faceList.length
        vertCount := (load file).vertexList.length
        centerOfMass := centroidSpec ts sc
        indexDrawVec := o0.indexDrawVec ++ faceRows (load file).faceList
        indexGeomVec := o0.indexGeomVec ++ faceIndices (load file).faceList
        vertexDrawVec := o0.vertexDrawVec ++
          recentred (load file).vertexList sc (centroidSpec ts sc)
        vertexGeomVec := o0.vertexGeomVec ++
          recentred (load file).vertexList sc (centroidSpec ts sc) } := ⟨_, rfl⟩
  have hset1 : setObject load { o0 with model_ID := name } sc file = .ok o1 := by
    rw [ho1]
    exact hset
  have h1 := setModels_single load S name file o0 o1 sc h0 hs hset1
  refine ⟨_, (makeObject S.params S.world o1).1,
    { Body.blank with
      meshVerts := o1.vertexGeomVec.take (3 * o1.vertCount.toNat)
      meshInds := o1.indexGeomVec.take (3 * o1.indCount.toNat)
      density := S.params.DENSITY },
    h1, rfl, ?_, mapFind_mapAssign_same _ _ _, ?_, ?_, ?_, ?_, ?_, ?_, ?_, ?_⟩
  · simp only [List.getElem?_set_self hlen]
  · rw [ho1]
    rfl
  · rw [ho1]
    rfl
  · rw [ho1]
    simp [makeObject, recentred_length]
  · rw [ho1]
    simp [makeObject, faceIndices_length]
  · simp [makeObject]
  · intro b hb
    simp [makeObject, List.getElem?_append_left hb]
  · simp [makeObject]
  · rw [ho1]
    simp [makeObject]

/-- The state of a fresh validator: the start-up state after the default constructor. -/
theorem fresh_facts :
    (constructDefault State.initial).m = [] ∧
    (constructDefault State.initial).obj = List.replicate NUM MyObject.blank ∧
    (constructDefault State.initial).scaling = List.replicate NUM 100 ∧
    (constructDefault State.initial).world.bodies = [] ∧
    (constructDefault State.initial).num = 0 ∧
    (constructDefault State.initial).obj[0]? = some MyObject.blank ∧
    (constructDefault State.initial).scaling[0]? = some 100 := by
  refine ⟨rfl, rfl, rfl, rfl, rfl, ?_, ?_⟩
  · show (List.replicate NUM MyObject.blank)[0]? = some MyObject.blank
    rw [List.getElem?_replicate, if_pos (by decide)]
  · show (List.replicate NUM (100 : ℚ))[0]? = some 100
    rw [List.getElem?_replicate, if_pos (by decide)]

/-- Witness for C17: the unit tetrahedron registered twice under the name a on a fresh
validator leaves 24 vertex coordinates (not 12) in the stored buffer and 2 bodies (not 1) in
the world. -/
theorem setModels_reregister_witness :
    ∃ S1 S2 e, setModels demoLoad ["a"] ["tetra.obj"] (constructDefault State.initial) = .ok S1 ∧
      setModels demoLoad ["a"] ["tetra.obj"] S1 = .ok S2 ∧ mapFind S2.m "a" = some e ∧
      e.vertexGeomVec.length = 24 ∧ S2.world.bodies.length = 2 := by
  obtain ⟨hfill, hV, -⟩ := tetra_facts
  have hV0 : volumeSum tetraTriangles ≠ 0 := by
    rw [hV]
    norm_num
  obtain ⟨-, -, -, -, -, f0, fs⟩ := fresh_facts
  obtain ⟨S1, e1, -, r1, rs, ro, -, -, -, rl, -, rb, -⟩ := setModels_reregister demoLoad
    (constructDefault State.initial) "a" "tetra.obj" MyObject.blank 100 tetraTriangles
    f0 fs hfill hV0 (by norm_num)
  have hs1 : S1.scaling[0]? = some 100 := by
    rw [rs]
    exact fs
  obtain ⟨S2, e2, -, t1, -, -, tm, -, -, tl, -, tb, -⟩ := setModels_reregister demoLoad
    S1 "a" "tetra.obj" e1 100 tetraTriangles ro hs1 hfill hV0 (by norm_num)
  refine ⟨S1, S2, e2, r1, t1, tm, ?_, ?_⟩
  · rw [tl, rl]
    rfl
  · rw [tb, rb]
    rfl

/-- C18, what the code does: with names and files of different number `setModels` skips the
registration but still runs the loop that copies objects into the map, with the object count
left by the last call.  With a count of 0 nothing changes; with a count of 1 the first name is
bound to the object of slot 0, which changes the map. -/
theorem setModels_mismatch (load : String → objLoader) (modelnames filenames : List String)
    (S : State) (hne : modelnames.length ≠ filenames.length) :
    setModels load modelnames filenames S = mapLoop modelnames S.num 0 S ∧
    (S.num = 0 → setModels load modelnames filenames S = .ok S) ∧
    (∀ (name : String) (o : MyObject), S.num = 1 → modelnames[0]? = some name →
      S.obj[0]? = some o →
      setModels load modelnames filenames S = .ok { S with m := mapAssign S.m name o }) := by
  have h : setModels load modelnames filenames S = mapLoop modelnames S.num 0 S := by
    unfold setModels
    rw [if_pos hne]
  refine ⟨h, ?_, ?_⟩
  · intro h0
    rw [h, h0]
    rfl
  · intro name o h1 hn ho
    have hN : 0 < NUM := by decide
    have h2 : mapLoop modelnames S.num 0 S = mapLoop modelnames 1 0 S := by
      rw [h1]
    rw [h, h2]
    unfold mapLoop
    simp only [hn, objAt, hN, if_true, ho]
    unfold mapLoop
    rfl

/-- Witness for C18: after the name base has been registered on a fresh validator, a call with
the one name top and no file binds top in the map, which had no such key. -/
theorem setModels_mismatch_witness :
    ∃ S1 S2 e, setModels demoLoad ["base"] ["tetra.obj"] (constructDefault State.initial) =
        .ok S1 ∧
      mapFind S1.m "top" = none ∧
      setModels demoLoad ["top"] [] S1 = .ok S2 ∧ mapFind S2.m "top" = some e := by
  obtain ⟨hfill, hV, -⟩ := tetra_facts
  have hcom := centerOfMassOf_eq tetraTriangles 100 (by rw [hV]; norm_num) (by norm_num)
  have hset := setObject_eq demoLoad { MyObject.blank with model_ID := "base" } 100
    "tetra.obj" tetraTriangles _ hfill hcom
  obtain ⟨-, -, -, -, -, f0, fs⟩ := fresh_facts
  have h1 := setModels_single demoLoad (constructDefault State.initial) "base" "tetra.obj"
    MyObject.blank _ 100 f0 fs hset
  have hlen : 0 < (constructDefault State.initial).obj.length := by
    show 0 < (List.replicate NUM MyObject.blank).length
    rw [List.length_replicate]
    decide
  refine ⟨_, _, _, h1, ?_, (setModels_mismatch demoLoad ["top"] [] _ (by decide)).2.2 "top" _
    rfl rfl (List.getElem?_set_self hlen), mapFind_mapAssign_same _ _ _⟩
  rw [mapFind_mapAssign_other _ _ _ _ (by decide)]
  rfl

/-- Witness for C16: two names registered from the unit tetrahedron on a fresh validator. -/
theorem setModels_fresh_witness :
    ∃ S2 o, setModels demoLoad ["base", "top"] ["tetra.obj", "tetra.obj"]
        (constructDefault State.initial) = .ok S2 ∧
      S2.num = 2 ∧ mapFind S2.m "top" = some o ∧ o.model_ID = "top" := by
  obtain ⟨hfill, hV, -⟩ := tetra_facts
  obtain ⟨f1, f2, f3, -⟩ := fresh_facts
  obtain ⟨S2, h, hn, hk, -⟩ := setModels_fresh demoLoad ["base", "top"]
    ["tetra.obj", "tetra.obj"] (constructDefault State.initial) f1 f2
    (by rw [f3, List.length_replicate]) rfl (by decide) (by decide)
    (by
      intro i name file sc _ hf hs
      have hfile : file = "tetra.obj" := by
        have hmem := List.getElem?_mem hf
        simp only [List.mem_cons, List.mem_singleton, List.not_mem_nil, or_false,
          or_self] at hmem
        exact hmem
      have hsc : sc = 100 := by
        rw [f3] at hs
        exact (List.mem_replicate.mp (List.getElem?_mem hs)).2
      subst hfile hsc
      exact ⟨_, setObject_eq demoLoad _ 100 "tetra.obj" tetraTriangles _ hfill
        (centerOfMassOf_eq tetraTriangles 100 (by rw [hV]; norm_num) (by norm_num))⟩)
  obtain ⟨-, -, -, -, o, -, -, -, -, ho, hid⟩ := hk 1 "top" rfl
  exact ⟨S2, o, h, hn, ho, hid⟩

/-- What a returning `setModels` did when the names and the files are of equal number. -/
theorem setModels_inv (load : String → objLoader) (modelnames filenames : List String)
    (S S2 : State) (hlen : modelnames.length = filenames.length)
    (h : setModels load modelnames filenames S = .ok S2) :
    ∃ S1, registerLoop load modelnames filenames filenames.length 0
        { S with num := filenames.length } = .ok S1 ∧
      mapLoop modelnames filenames.length 0 S1 = .ok S2 := by
  unfold setModels at h
  rw [if_neg (fun e => e hlen)] at h
  cases h1 : registerLoop load modelnames filenames filenames.length 0
      { S with num := filenames.length } with
  | error e => simp [h1] at h
  | ok S1 =>
    simp only [h1] at h
    have hnum : S1.num = filenames.length :=
      (registerLoop_props load modelnames filenames _ _ _ S1 h1).2.2.1
    rw [hnum] at h
    exact ⟨S1, rfl, h⟩

/-- C20: for an object stored under a name in the map, whose body is a body of the world,
`translateObject` makes the given position the reference position of the map entry and the
position of the body, makes the given rotation the rotation of the body, and makes the linear
and the angular velocity of the body zero; every other map entry, every other body and the
object array are unchanged. -/
theorem translateObject_effect (S : State) (name : String) (object : MyObject) (center : Vec3)
    (R : List ℚ) (hfind : mapFind S.m name = some object)
    (hbody : object.body < S.world.bodies.length) :
    (∃ o1, mapFind (translateObject S name object center R).m name = some o1 ∧
      o1.center = center ∧ o1.body = object.body) ∧
    dBodyGetPosition (translateObject S name object center R).world object.body = center ∧
    ((translateObject S name object center R).world.bodies.getD object.body Body.blank).R = R ∧
    ((translateObject S name object center R).world.bodies.getD object.body Body.blank).lvel =
      ⟨0, 0, 0⟩ ∧
    ((translateObject S name object center R).world.bodies.getD object.body Body.blank).avel =
      ⟨0, 0, 0⟩ ∧
    (∀ other, other ≠ name →
      mapFind (translateObject S name object center R).m other = mapFind S.m other) ∧
    (∀ b, b ≠ object.body →
      (translateObject S name object center R).world.bodies[b]? = S.world.bodies[b]?) ∧
    (translateObject S name object center R).world.bodies.length = S.world.bodies.length ∧
    (translateObject S name object center R).obj = S.obj := by
  refine ⟨translateObject_center S name object center R hfind, ?_, ?_, ?_, ?_, ?_, ?_, ?_, rfl⟩
  · cases center
    simp [translateObject, dBodyGetPosition, dBodySetPosition, dBodySetRotation,
      dBodySetLinearVel, dBodySetAngularVel, List.getD_eq_getElem?_getD, hbody]
  · simp [translateObject, dBodySetPosition, dBodySetRotation,
      dBodySetLinearVel, dBodySetAngularVel, List.getD_eq_getElem?_getD, hbody]
  · simp [translateObject, dBodySetPosition, dBodySetRotation,
      dBodySetLinearVel, dBodySetAngularVel, List.getD_eq_getElem?_getD, hbody]
  · simp [translateObject, dBodySetPosition, dBodySetRotation,
      dBodySetLinearVel, dBodySetAngularVel, List.getD_eq_getElem?_getD, hbody]
  · intro other hother
    exact mapFind_mapModify_other S.m name other _ hother
  · intro b hb
    simp [translateObject, dBodySetPosition, dBodySetRotation,
      dBodySetLinearVel, dBodySetAngularVel, List.getElem?_set_ne (fun e => hb e.symm)]
  · simp [translateObject, dBodySetPosition, dBodySetRotation,
      dBodySetLinearVel, dBodySetAngularVel]

/-- Witness for C20: the object base of the one-object state moved to (1, 2, 3). -/
theorem translateObject_effect_witness :
    dBodyGetPosition (translateObject oneObjectState "base"
      { MyObject.blank with model_ID := "base" } ⟨1, 2, 3⟩ (poseRotation identityPose)).world
      ({ MyObject.blank with model_ID := "base" } : MyObject).body = ⟨1, 2, 3⟩ :=
  (translateObject_effect oneObjectState "base" { MyObject.blank with model_ID := "base" }
    ⟨1, 2, 3⟩ (poseRotation identityPose) rfl (by decide)).2.1

/-! ## Termination of the phases -/

/-- The wrap always lands in the `int` range. -/
theorem wrapInt32_range (x : Int) : INT_MIN ≤ wrapInt32 x ∧ wrapInt32 x ≤ INT_MAX := by
  unfold wrapInt32 INT_MIN INT_MAX
  omega

/-- With the largest `int` as the step count the condition `i <= step` of the headless loop
holds for every value of the counter, so the loop uses up any fuel. -/
theorem headlessLoop_maxint (E : Engine) (fuel : Nat) :
    ∀ (i : Int) (S : State), i ≤ INT_MAX → S.num ≤ NUM →
      headlessLoop E INT_MAX fuel i S = .error .fuel := by
  induction fuel with
  | zero =>
    intro i S hi _
    unfold headlessLoop
    rw [if_pos hi]
  | succ f ih =>
    intro i S hi hn
    unfold headlessLoop
    rw [if_pos hi]
    obtain ⟨S2, hs, hr, -⟩ := simLoop_ok E 0 S hn
    rw [hs]
    exact ih _ S2 (wrapInt32_range _).2 (by rw [hr.2.2.1]; exact hn)

/-- C21, what the code does: in the headless mode, with the largest `int` stored in `STEP1`
(a value `setParams` accepts), every name registered, a pose for every name and at most `NUM`
names, `isValidScene` does not return whatever fuel it is given: the loop
`for (i = 0; i <= step; i++)` of phase 1 never ends, because its condition holds for every value
of the 32-bit counter. -/
theorem isValidScene_maxint_diverges (E : Engine) (modelnames : List String)
    (model_poses : List Affine3d) (S : State) (hd : S.params.DRAW = false)
    (hs : S.params.STEP1 = INT_MAX) (hreg : AllRegistered S modelnames)
    (hposes : modelnames.length ≤ model_poses.length) (hcap : modelnames.length ≤ NUM)
    (fuel : Nat) :
    (∃ S1, setParams "STEP1" ((INT_MAX : Int) : ℚ) S = .ok (true, S1) ∧
      S1.params.STEP1 = INT_MAX) ∧
    isValidScene E fuel modelnames model_poses S = .error .fuel := by
  constructor
  · have h := doubleToInt_intCast INT_MAX (by decide) (by decide)
    exact ⟨{ S with params := { S.params with STEP1 := INT_MAX } },
      by simp [setParams, h], rfl⟩
  · obtain ⟨Sp, hp, -⟩ := poseLoop_ok modelnames model_poses hposes modelnames.length 0
      { S with num := modelnames.length } (by omega) hreg
    obtain ⟨e0, n0, -⟩ := poseLoop_frame _ _ _ _ _ _ hp
    have hrun : runSteps E fuel Sp.params.STEP1 Sp = .error .fuel := by
      unfold runSteps
      rw [e0]
      simp only [hd, Bool.false_eq_true, if_false, hs]
      exact headlessLoop_maxint E fuel 0 Sp (by decide) (by rw [n0]; exact hcap)
    unfold isValidScene
    simp only [hp]
    unfold isStableStill
    simp only [hrun]

/-- Witness for C21: the one-object scene with `STEP1` the largest `int` and a fuel of 1000. -/
theorem isValidScene_maxint_diverges_witness :
    isValidScene restingEngine 1000 ["base"] [identityPose] maxStepState = .error .fuel :=
  (isValidScene_maxint_diverges restingEngine ["base"] [identityPose] maxStepState rfl rfl
    (by
      intro n hn
      rw [List.mem_singleton] at hn
      subst hn
      exact ⟨_, rfl⟩)
    (by decide) (by decide) 1000).2

/-! ## Observability settings -/

/-- C23: the verdicts do not depend on the observability settings.  For two states with the same
`THRESHOLD`, world, registry map and object count, whatever `DRAW`, the print toggles (and every
other parameter) are in the one and in the other, `inStaticEquilibrium` returns the same boolean
for every object and `isValid` the same result for every scene. -/
theorem verdict_independent_of_toggles (S T : State)
    (ht : T.params.THRESHOLD = S.params.THRESHOLD) (hw : T.world = S.world)
    (hm : T.m = S.m) (hn : T.num = S.num) :
    (∀ object : MyObject, inStaticEquilibrium T object = inStaticEquilibrium S object) ∧
    (∀ modelnames : List String, isValid T modelnames = isValid S modelnames) := by
  have h1 : ∀ object : MyObject, inStaticEquilibrium T object = inStaticEquilibrium S object := by
    intro object
    unfold inStaticEquilibrium
    rw [ht, hw]
  refine ⟨h1, ?_⟩
  intro modelnames
  have h2 : ∀ (k i : Nat), isValidFrom T modelnames k i = isValidFrom S modelnames k i := by
    intro k
    induction k with
    | zero =>
      intro i
      rfl
    | succ k ih =>
      intro i
      unfold isValidFrom
      rw [hm]
      cases modelnames[i]? with
      | none => rfl
      | some name =>
        simp only
        cases mapFind S.m name with
        | none => rfl
        | some o =>
          simp only [h1 o, ih (i + 1)]
  unfold isValid
  rw [hn, h2]

/-- Witness for C23: the start-up state and the same state with `DRAW` and every print toggle
switched on. -/
theorem verdict_independent_of_toggles_witness :
    (∀ object : MyObject,
      inStaticEquilibrium
        { oneObjectState with
          params := { Params.initial with
            DRAW := true, PRINT_START_POS := true, PRINT_END_POS := true,
            PRINT_DELTA_POS := true, PRINT_CHKR_RSLT := true, PRINT_AABB := true,
            PRINT_COM := true } } object = inStaticEquilibrium oneObjectState object) ∧
    (∀ modelnames : List String,
      isValid
        { oneObjectState with
          params := { Params.initial with
            DRAW := true, PRINT_START_POS := true, PRINT_END_POS := true,
            PRINT_DELTA_POS := true, PRINT_CHKR_RSLT := true, PRINT_AABB := true,
            PRINT_COM := true } } modelnames = isValid oneObjectState modelnames) :=
  verdict_independent_of_toggles oneObjectState _ rfl rfl rfl rfl

/-! ## The rotation handed to the engine -/

/-- C25, what the code does: the nine initialisers fill the first nine entries of the
twelve-entry array row after row, so entry `3 i + j` holds `a(i,j)` and the entries 9, 10, 11
are zero.  Read in the layout of the rest of the code (entry `(i,j)` at `4 i + j`) the array does
not hold the rotation: entry 4 holds `a(1,1)` instead of `a(1,0)`, and entry 10 is zero instead
of `a(2,2)`. -/
theorem poseRotation_layout (a : Affine3d) :
    (∀ i j : Nat, i < 3 → j < 3 → (poseRotation a)[3 * i + j]? = some (a.coeff i j)) ∧
    (poseRotation a)[9]? = some 0 ∧ (poseRotation a)[10]? = some 0 ∧
    (poseRotation a)[11]? = some 0 ∧ (poseRotation a).length = 12 ∧
    (poseRotation a)[4 * 1 + 0]? = some (a.coeff 1 1) ∧
    (poseRotation a)[4 * 2 + 2]? = some 0 := by
  refine ⟨?_, rfl, rfl, rfl, rfl, rfl, rfl⟩
  intro i j hi hj
  interval_cases i <;> interval_cases j <;> rfl

/-- The layout claimed in C25 fails for the identity pose: entry `4 * 2 + 2` of the array is 0,
while `a(2,2)` is 1. -/
theorem poseRotation_identity_mismatch :
    (poseRotation identityPose)[4 * 2 + 2]? = some 0 ∧ identityPose.coeff 2 2 = 1 ∧
    (poseRotation identityPose)[4 * 2 + 2]? ≠ some (identityPose.coeff 2 2) := by
  refine ⟨rfl, by simp [identityPose], ?_⟩
  simp [poseRotation, identityPose]

/-! ## No lookup or index fails -/

/-- With at most `NUM` objects the headless loop can end abnormally only by running out of
fuel. -/
theorem headlessLoop_fault (E : Engine) (step : Int) (fuel : Nat) :
    ∀ (i : Int) (S : State) (e : Fault), S.num ≤ NUM →
      headlessLoop E step fuel i S = .error e → e = .fuel := by
  induction fuel with
  | zero =>
    intro i S e _ h
    unfold headlessLoop at h
    split_ifs at h
    injection h with h
    exact h.symm
  | succ f ih =>
    intro i S e hn h
    unfold headlessLoop at h
    split_ifs at h
    obtain ⟨S2, hs, hr, -⟩ := simLoop_ok E 0 S hn
    rw [hs] at h
    exact ih _ S2 e (by rw [hr.2.2.1]; exact hn) h

/-- With at most `NUM` objects the drawstuff loop can end abnormally only by running out of
fuel. -/
theorem dsSimulationLoop_fault (E : Engine) (fuel : Nat) :
    ∀ (S : State) (e : Fault), S.num ≤ NUM →
      dsSimulationLoop E fuel S = .error e → e = .fuel := by
  induction fuel with
  | zero =>
    intro S e _ h
    unfold dsSimulationLoop at h
    injection h with h
    exact h.symm
  | succ f ih =>
    intro S e hn h
    unfold dsSimulationLoop at h
    obtain ⟨S2, hs, hr, -⟩ := simLoop_ok E 0 S hn
    rw [hs] at h
    simp only at h
    split_ifs at h
    exact ih S2 e (by rw [hr.2.2.1]; exact hn) h

/-- With every name registered and at most `NUM` names, a phase either returns a verdict,
leaving every name registered, or runs out of fuel. -/
theorem isStableStill_fault (E : Engine) (fuel : Nat) (modelnames : List String)
    (step : Int) (S : State) (hreg : AllRegistered S modelnames)
    (hnum : S.num = modelnames.length) (hcap : modelnames.length ≤ NUM) :
    (∀ e, isStableStill E fuel modelnames step S = .error e → e = .fuel) ∧
    (∀ b S1, isStableStill E fuel modelnames step S = .ok (b, S1) →
      AllRegistered S1 modelnames ∧ S1.num = modelnames.length) := by
  have hn : S.num ≤ NUM := by omega
  have hgood : ∀ S1, runSteps E fuel step S = .ok S1 →
      AllRegistered S1 modelnames ∧ S1.num = modelnames.length ∧
        ∃ b, isValid S1 modelnames = .ok b := by
    intro S1 hr
    obtain ⟨-, hm, hn1, -, -⟩ := (runSteps_frame E fuel step S S1 hr).1
    have hreg1 : AllRegistered S1 modelnames := by
      intro n hmem
      rw [hm]
      exact hreg n hmem
    obtain ⟨b, hb, -⟩ := isValidFrom_spec S1 modelnames modelnames.length 0 (by omega)
      (by simpa using hreg1)
    rw [← hnum, ← hn1] at hb
    exact ⟨hreg1, by rw [hn1, hnum], b, isValid_eq S1 modelnames b hb⟩
  constructor
  · intro e h
    unfold isStableStill at h
    cases hr : runSteps E fuel step S with
    | error e1 =>
      rw [hr] at h
      simp only [Except.error.injEq] at h
      subst h
      unfold runSteps at hr
      split_ifs at hr
      · unfold drawstuffsimLoop at hr
        refine dsSimulationLoop_fault E fuel _ e1 ?_ hr
        exact hn
      · exact headlessLoop_fault E step fuel 0 S e1 hn hr
    | ok S1 =>
      obtain ⟨-, -, b, hb⟩ := hgood S1 hr
      rw [hr] at h
      simp only [hb] at h
      cases h
  · intro b S1 h
    obtain ⟨hr, -⟩ := (isStableStill_ok_iff E fuel modelnames step S S1 b).mp h
    obtain ⟨h1, h2, -⟩ := hgood S1 hr
    exact ⟨h1, h2⟩

/-- C26: when every name of the scene is a key of the registry map, there is a pose for every
name and there are at most `NUM` names, no map lookup, vector index or array index of
`isValidScene`, `isStableStill`, `isValid` and `simLoop` fails: the call never ends in one of
the faults of the embedding that stand for such a failure.  The only abnormal outcome left is
the exhaustion of the fuel granted to a stepping loop. -/
theorem isValidScene_no_fault (E : Engine) (fuel : Nat) (modelnames : List String)
    (model_poses : List Affine3d) (S : State) (hreg : AllRegistered S modelnames)
    (hposes : modelnames.length ≤ model_poses.length) (hcap : modelnames.length ≤ NUM) :
    ∀ e, isValidScene E fuel modelnames model_poses S = .error e → e = .fuel := by
  intro e h
  obtain ⟨Sp, hp, hregp⟩ := poseLoop_ok modelnames model_poses hposes modelnames.length 0
    { S with num := modelnames.length } (by omega) hreg
  have n0 : Sp.num = modelnames.length := (poseLoop_frame _ _ _ _ _ _ hp).2.1
  unfold isValidScene at h
  simp only [hp] at h
  obtain ⟨f1, g1⟩ := isStableStill_fault E fuel modelnames Sp.params.STEP1 Sp hregp n0 hcap
  cases h1 : isStableStill E fuel modelnames Sp.params.STEP1 Sp with
  | error e1 =>
    rw [h1] at h
    simp only [Except.error.injEq] at h
    rw [← h]
    exact f1 e1 h1
  | ok r1 =>
    obtain ⟨b1, S1⟩ := r1
    obtain ⟨r1, n1⟩ := g1 b1 S1 h1
    simp only [h1] at h
    cases b1 with
    | false => simp at h
    | true =>
      simp only [Bool.not_true, Bool.false_eq_true, if_false] at h
      obtain ⟨f2, g2⟩ := isStableStill_fault E fuel modelnames S1.params.STEP2 S1 r1 n1 hcap
      cases h2 : isStableStill E fuel modelnames S1.params.STEP2 S1 with
      | error e2 =>
        rw [h2] at h
        simp only [Except.error.injEq] at h
        rw [← h]
        exact f2 e2 h2
      | ok r2 =>
        obtain ⟨b2, S2⟩ := r2
        obtain ⟨r2, n2⟩ := g2 b2 S2 h2
        simp only [h2] at h
        cases b2 with
        | false => simp at h
        | true =>
          simp only [Bool.not_true, Bool.false_eq_true, if_false] at h
          obtain ⟨f3, g3⟩ :=
            isStableStill_fault E fuel modelnames S2.params.STEP3 S2 r2 n2 hcap
          cases h3 : isStableStill E fuel modelnames S2.params.STEP3 S2 with
          | error e3 =>
            rw [h3] at h
            simp only [Except.error.injEq] at h
            rw [← h]
            exact f3 e3 h3
          | ok r3 =>
            obtain ⟨b3, S3⟩ := r3
            obtain ⟨r3, n3⟩ := g3 b3 S3 h3
            simp only [h3] at h
            cases b3 with
            | false => simp at h
            | true =>
              simp only [Bool.not_true, Bool.false_eq_true, if_false] at h
              obtain ⟨f4, -⟩ :=
                isStableStill_fault E fuel modelnames S3.params.STEP4 S3 r3 n3 hcap
              cases h4 : isStableStill E fuel modelnames S3.params.STEP4 S3 with
              | error e4 =>
                rw [h4] at h
                simp only [Except.error.injEq] at h
                rw [← h]
                exact f4 e4 h4
              | ok r4 =>
                obtain ⟨b4, S4⟩ := r4
                simp only [h4] at h
                cases b4 <;> simp at h

/-- Witness for C26: the one-object scene; with a fuel of 3 its phase 1 (7 steps) cannot
finish, and the outcome is the exhaustion of the fuel, not a failed lookup. -/
theorem isValidScene_no_fault_witness :
    ∃ e, isValidScene restingEngine 3 ["base"] [identityPose] oneObjectState = .error e ∧
      e = .fuel :=
  ⟨.fuel, rfl, isValidScene_no_fault restingEngine 3 ["base"] [identityPose] oneObjectState
    (by
      intro n hn
      rw [List.mem_singleton] at hn
      subst hn
      exact ⟨_, rfl⟩)
    (by decide) (by decide) .fuel rfl⟩

/-! ## Coercion of parameter values -/

/-- The quotient the conversion to `int` takes is the truncation toward zero. -/
theorem tdiv_eq_truncSpec (v : ℚ) : Int.tdiv v.num v.den = truncSpec v := by
  unfold truncSpec
  by_cases h : 0 ≤ v
  · rw [if_pos h, Rat.floor_def]
    exact Int.tdiv_eq_ediv (Rat.num_nonneg.mpr h) (Int.natCast_nonneg _)
  · rw [if_neg h]
    have hneg : 0 ≤ -v := by
      have := not_le.mp h
      linarith
    have h1 : ⌈v⌉ = -⌊-v⌋ := by
      rw [Int.floor_neg, neg_neg]
    rw [h1, Rat.floor_def, Rat.neg_num, Rat.neg_den]
    have h2 : (-v.num).tdiv (v.den : Int) = (-v.num) / (v.den : Int) :=
      Int.tdiv_eq_ediv (by simpa using Rat.num_nonneg.mpr hneg) (Int.natCast_nonneg _)
    rw [← h2, Int.neg_tdiv, neg_neg]

/-- A value whose truncation lies in the `int` range converts to its truncation. -/
theorem doubleToInt_truncSpec (v : ℚ) (hlo : INT_MIN ≤ truncSpec v)
    (hhi : truncSpec v ≤ INT_MAX) : doubleToInt v = .ok (truncSpec v) := by
  unfold doubleToInt
  simp only [tdiv_eq_truncSpec, hlo, hhi, and_self, if_true]

/-- C30: `setParams` converts instead of checking the type.  For every value `v` whose
truncation toward zero lies in the `int` range, the five integer keys return true and store that
truncation, whether or not `v` is integral, zero or negative; the seven toggles return true and
store true exactly when `v` is not zero. -/
theorem setParams_coerces (S : State) (v : ℚ) (hlo : INT_MIN ≤ truncSpec v)
    (hhi : truncSpec v ≤ INT_MAX) :
    (∃ S1, setParams "STEP1" v S = .ok (true, S1) ∧ S1.params.STEP1 = truncSpec v) ∧
    (∃ S1, setParams "STEP2" v S = .ok (true, S1) ∧ S1.params.STEP2 = truncSpec v) ∧
    (∃ S1, setParams "STEP3" v S = .ok (true, S1) ∧ S1.params.STEP3 = truncSpec v) ∧
    (∃ S1, setParams "STEP4" v S = .ok (true, S1) ∧ S1.params.STEP4 = truncSpec v) ∧
    (∃ S1, setParams "MAX_CONTACTS" v S = .ok (true, S1) ∧
      S1.params.MAX_CONTACTS = truncSpec v) ∧
    (∃ S1, setParams "DRAW" v S = .ok (true, S1) ∧ (S1.params.DRAW = true ↔ v ≠ 0)) ∧
    (∃ S1, setParams "PRINT_START_POS" v S = .ok (true, S1) ∧
      (S1.params.PRINT_START_POS = true ↔ v ≠ 0)) ∧
    (∃ S1, setParams "PRINT_END_POS" v S = .ok (true, S1) ∧
      (S1.params.PRINT_END_POS = true ↔ v ≠ 0)) ∧
    (∃ S1, setParams "PRINT_DELTA_POS" v S = .ok (true, S1) ∧
      (S1.params.PRINT_DELTA_POS = true ↔ v ≠ 0)) ∧
    (∃ S1, setParams "PRINT_CHKR_RSLT" v S = .ok (true, S1) ∧
      (S1.params.PRINT_CHKR_RSLT = true ↔ v ≠ 0)) ∧
    (∃ S1, setParams "PRINT_AABB" v S = .ok (true, S1) ∧
      (S1.params.PRINT_AABB = true ↔ v ≠ 0)) ∧
    (∃ S1, setParams "PRINT_COM" v S = .ok (true, S1) ∧
      (S1.params.PRINT_COM = true ↔ v ≠ 0)) := by
  have hn := doubleToInt_truncSpec v hlo hhi
  refine ⟨?_, ?_, ?_, ?_, ?_, ?_, ?_, ?_, ?_, ?_, ?_, ?_⟩ <;>
    simp [setParams, hn, doubleToBool]

/-- The truncation of -5/2 is -2. -/
theorem truncSpec_example : truncSpec (-5 / 2) = -2 := by
  unfold truncSpec
  rw [if_neg (by norm_num)]
  rw [Int.ceil_eq_iff]
  norm_num

/-- Witness for C30: the value -5/2 is stored in `STEP1` as -2. -/
theorem setParams_coerces_witness :
    ∃ S1, setParams "STEP1" (-5 / 2) State.initial = .ok (true, S1) ∧
      S1.params.STEP1 = -2 := by
  have ht := truncSpec_example
  obtain ⟨S1, h1, h2⟩ := (setParams_coerces State.initial (-5 / 2)
    (by rw [ht]; decide) (by rw [ht]; decide)).1
  exact ⟨S1, h1, by rw [h2, ht]⟩

/-! ## Negative thresholds -/

/-- C22, as the code has it: every validator works on the one set of file-scope statics.  A call
made through a validator `A` is the call made through any other validator `B`, on the same
state, and `B` observes the whole state `A` left; constructing a validator keeps the parameters,
the registry map, the object array and the object count, replaces the world by a new empty one
and sets every entry of the scaling table to the default scale. -/
theorem instances_share_statics (A B : Validator) (S : State) :
    Validator.view B S = S ∧ Validator.view A S = Validator.view B S ∧
    (∀ name v, Validator.callSetParams A name v S = Validator.callSetParams B name v S) ∧
    (∀ i x, Validator.callSetScale A i x S = Validator.callSetScale B i x S) ∧
    (∀ load names files,
      Validator.callSetModels A load names files S =
        Validator.callSetModels B load names files S) ∧
    (∀ E fuel names poses,
      Validator.callIsValidScene A E fuel names poses S =
        Validator.callIsValidScene B E fuel names poses S) ∧
    ((constructDefault S).params = S.params ∧ (constructDefault S).m = S.m ∧
      (constructDefault S).obj = S.obj ∧ (constructDefault S).num = S.num ∧
      (constructDefault S).world.bodies = [] ∧
      (constructDefault S).scaling = List.replicate NUM S.params.DEFAULT_SCALE) ∧
    (∀ gx gy gz pa pb pc pd sc,
      (constructCustom gx gy gz pa pb pc pd sc S).params = S.params ∧
      (constructCustom gx gy gz pa pb pc pd sc S).m = S.m ∧
      (constructCustom gx gy gz pa pb pc pd sc S).obj = S.obj ∧
      (constructCustom gx gy gz pa pb pc pd sc S).num = S.num ∧
      (constructCustom gx gy gz pa pb pc pd sc S).world.bodies = [] ∧
      (constructCustom gx gy gz pa pb pc pd sc S).scaling = List.replicate NUM sc) :=
  ⟨rfl, rfl, fun _ _ => rfl, fun _ _ => rfl, fun _ _ _ => rfl, fun _ _ _ _ => rfl,
    ⟨rfl, rfl, rfl, rfl, rfl, rfl⟩, fun _ _ _ _ _ _ _ _ => ⟨rfl, rfl, rfl, rfl, rfl, rfl⟩⟩

/-! ## Registration beyond the capacity -/

/-- The registration loop reads `obj[NUM]` when it runs past the last slot: with every mesh
registering, the loop from a slot `i` over `k` iterations with `NUM < i + k` ends in the fault
`objIndex`. -/
theorem registerLoop_overflow (load : String → objLoader) (modelnames filenames : List String) :
    ∀ (k i : Nat) (S : State), i ≤ NUM → NUM < i + k → S.obj.length = NUM →
      S.scaling.length = NUM → i + k ≤ modelnames.length → i + k ≤ filenames.length →
      (∀ o sc file, sc ∈ S.scaling → file ∈ filenames →
        ∃ o1, setObject load o sc file = .ok o1) →
      registerLoop load modelnames filenames k i S = .error .objIndex := by
  intro k
  induction k with
  | zero =>
    intro i S h1 h2
    omega
  | succ k ih =>
    intro i S hi hover hO hSc hM hF hgood
    by_cases hN : i = NUM
    · subst hN
      unfold registerLoop
      have ho : objAt S NUM = .error .objIndex := by
        unfold objAt
        rw [if_neg (lt_irrefl _)]
      simp only [ho]
    · have hlt : i < NUM := lt_of_le_of_ne hi hN
      have ho : objAt S i = .ok S.obj[i] := by
        rw [objAt_ok]
        exact ⟨hlt, List.getElem?_eq_getElem (by omega)⟩
      have hs : scalingAt S i = .ok S.scaling[i] := by
        rw [scalingAt_ok]
        exact ⟨hlt, List.getElem?_eq_getElem (by omega)⟩
      have hn : modelnames[i]? = some modelnames[i] := List.getElem?_eq_getElem (by omega)
      have hf : filenames[i]? = some filenames[i] := List.getElem?_eq_getElem (by omega)
      obtain ⟨o1, h1⟩ := hgood { S.obj[i] with model_ID := modelnames[i] } S.scaling[i]
        filenames[i] (List.getElem_mem _) (List.getElem_mem _)
      unfold registerLoop
      simp only [ho, hn, hf, hs, h1]
      exact ih (i + 1) _ (by omega) (by omega) (by simp only [List.length_set]; omega)
        hSc (by omega) (by omega) hgood

/-- C24: `setModels` does not recycle slots.  For name and file lists of one length above `NUM`,
on a state whose object array and scaling table have `NUM` entries, `setModels` never returns,
whatever the meshes; and when every mesh registers, it faults reading `obj[NUM]`, the entry
after the last one.  The static `nextobj` is never consulted. -/
theorem setModels_over_capacity (load : String → objLoader) (modelnames filenames : List String)
    (S : State) (hlen : modelnames.length = filenames.length) (hover : NUM < filenames.length)
    (hobj : S.obj.length = NUM) (hsc : S.scaling.length = NUM)
    (hgood : ∀ o sc file, sc ∈ S.scaling → file ∈ filenames →
      ∃ o1, setObject load o sc file = .ok o1) :
    setModels load modelnames filenames S = .error .objIndex ∧
    objAt S NUM = .error .objIndex ∧
    (∀ (load1 : String → objLoader) (S1 : State),
      setModels load1 modelnames filenames S ≠ .ok S1) := by
  have hne : ¬ modelnames.length ≠ filenames.length := by simp [hlen]
  refine ⟨?_, ?_, ?_⟩
  · unfold setModels
    rw [if_neg hne]
    rw [registerLoop_overflow load modelnames filenames filenames.length 0
      { S with num := filenames.length } (by omega) (by omega) hobj hsc (by omega) (by omega)
      hgood]
  · unfold objAt
    rw [if_neg (lt_irrefl _)]
  · intro load1 S1 h
    unfold setModels at h
    rw [if_neg hne] at h
    cases hr : registerLoop load1 modelnames filenames filenames.length 0
        { S with num := filenames.length } with
    | error e => simp [hr] at h
    | ok S2 =>
      obtain ⟨-, -, -, -, -, -, -, -, hall⟩ := registerLoop_props load1 modelnames filenames
        filenames.length 0 _ S2 hr
      obtain ⟨_, _, _, _, _, _, _, _, _, _, hlt, _⟩ := hall NUM (by omega) (by omega)
      exact lt_irrefl _ hlt

/-- Witness for C24: 201 registrations of the unit tetrahedron on a freshly constructed
validator fault at `obj[200]`. -/
theorem setModels_over_capacity_witness :
    setModels demoLoad (List.replicate 201 "m") (List.replicate 201 "tetra.obj")
      (constructDefault State.initial) = .error .objIndex := by
  obtain ⟨hfill, hV, -⟩ := tetra_facts
  obtain ⟨-, f2, f3, -⟩ := fresh_facts
  refine (setModels_over_capacity demoLoad (List.replicate 201 "m")
    (List.replicate 201 "tetra.obj") (constructDefault State.initial)
    (by rw [List.length_replicate, List.length_replicate])
    (by rw [List.length_replicate]; decide)
    (by rw [f2, List.length_replicate]) (by rw [f3, List.length_replicate]) ?_).1
  intro o sc file hsc hfile
  rw [f3] at hsc
  have e1 : sc = 100 := List.eq_of_mem_replicate hsc
  have e2 : file = "tetra.obj" := List.eq_of_mem_replicate hfile
  subst e1
  subst e2
  exact ⟨_, setObject_eq demoLoad o 100 "tetra.obj" tetraTriangles _ hfill
    (centerOfMassOf_eq tetraTriangles 100 (by rw [hV]; norm_num) (by norm_num))⟩

/-! ## Monotonicity in the threshold -/

/-- One call of `simLoop` does not read the threshold. -/
theorem simLoop_threshold (E : Engine) (pause : Int) (t : ℚ) (S : State) :
    simLoop E pause (withThreshold t S) = Except.map (withThreshold t) (simLoop E pause S) := by
  unfold simLoop
  by_cases h : NUM < S.num
  · have h1 : NUM < (withThreshold t S).num := h
    simp only [h, h1, if_true]
    rfl
  · have h1 : ¬ NUM < (withThreshold t S).num := h
    simp only [h, h1, if_false]
    rfl

/-- The headless loop does not read the threshold. -/
theorem headlessLoop_threshold (E : Engine) (step : Int) (t : ℚ) :
    ∀ (fuel : Nat) (i : Int) (S : State),
      headlessLoop E step fuel i (withThreshold t S) =
        Except.map (withThreshold t) (headlessLoop E step fuel i S) := by
  intro fuel
  induction fuel with
  | zero =>
    intro i S
    unfold headlessLoop
    by_cases h : i ≤ step
    · simp only [h, if_true]
      rfl
    · simp only [h, if_false]
      rfl
  | succ fuel ih =>
    intro i S
    unfold headlessLoop
    by_cases h : i ≤ step
    · simp only [h, if_true]
      rw [simLoop_threshold]
      cases hs : simLoop E 0 S with
      | error e => rfl
      | ok S1 =>
        simp only [Except.map]
        exact ih _ S1
    · simp only [h, if_false]
      rfl

/-- The drawstuff loop does not read the threshold. -/
theorem dsSimulationLoop_threshold (E : Engine) (t : ℚ) :
    ∀ (fuel : Nat) (S : State),
      dsSimulationLoop E fuel (withThreshold t S) =
        Except.map (withThreshold t) (dsSimulationLoop E fuel S) := by
  intro fuel
  induction fuel with
  | zero =>
    intro S
    rfl
  | succ fuel ih =>
    intro S
    unfold dsSimulationLoop
    rw [simLoop_threshold]
    cases hs : simLoop E 0 S with
    | error e => rfl
    | ok S1 =>
      simp only [Except.map]
      have hr : (withThreshold t S1).run = S1.run := rfl
      rw [hr]
      by_cases h : S1.run = true
      · simp only [h, if_true]
        exact ih S1
      · simp only [h, if_false]
        rfl

/-- The stepping half of `isStableStill` does not read the threshold. -/
theorem runSteps_threshold (E : Engine) (fuel : Nat) (step : Int) (t : ℚ) (S : State) :
    runSteps E fuel step (withThreshold t S) =
      Except.map (withThreshold t) (runSteps E fuel step S) := by
  unfold runSteps
  have hd : (withThreshold t S).params.DRAW = S.params.DRAW := rfl
  rw [hd]
  by_cases h : S.params.DRAW = true
  · simp only [h, if_true]
    unfold drawstuffsimLoop
    exact dsSimulationLoop_threshold E t fuel
      { S with counter := 0, dsSTEP := step, run := true }
  · simp only [h, if_false]
    exact headlessLoop_threshold E step t fuel 0 S

/-- The pose loop does not read the threshold. -/
theorem poseLoop_threshold (modelnames : List String) (model_poses : List Affine3d) (t : ℚ) :
    ∀ (k i : Nat) (S : State),
      poseLoop modelnames model_poses k i (withThreshold t S) =
        Except.map (withThreshold t) (poseLoop modelnames model_poses k i S) := by
  intro k
  induction k with
  | zero =>
    intro i S
    rfl
  | succ k ih =>
    intro i S
    unfold poseLoop
    cases hn : modelnames[i]? with
    | none => rfl
    | some name =>
      cases ha : model_poses[i]? with
      | none => rfl
      | some a =>
        have hm : (withThreshold t S).m = S.m := rfl
        simp only [hm]
        cases ho : mapFind S.m name with
        | none => rfl
        | some o => exact ih (i + 1) (translateObject S name o a.translation (poseRotation a))

/-- An object within a threshold is within every larger one. -/
theorem inStaticEquilibrium_mono (S : State) (t : ℚ) (object : MyObject)
    (hle : S.params.THRESHOLD ≤ t) (h : inStaticEquilibrium S object = true) :
    inStaticEquilibrium (withThreshold t S) object = true := by
  unfold inStaticEquilibrium at h ⊢
  simp only [gt_iff_lt, ite_eq_right_iff, Bool.false_eq_true, imp_false, not_or, not_lt] at h ⊢
  obtain ⟨hx, hy, hz⟩ := h
  have ht : (withThreshold t S).params.THRESHOLD = t := rfl
  have hw : (withThreshold t S).world = S.world := rfl
  rw [ht, hw]
  exact ⟨le_trans hx hle, le_trans hy hle, le_trans hz hle⟩

/-- A passing run of the loop of `isValid` passes under every larger threshold. -/
theorem isValidFrom_mono (S : State) (t : ℚ) (modelnames : List String)
    (hle : S.params.THRESHOLD ≤ t) :
    ∀ (k i : Nat), isValidFrom S modelnames k i = .ok true →
      isValidFrom (withThreshold t S) modelnames k i = .ok true := by
  intro k
  induction k with
  | zero =>
    intro i _
    rfl
  | succ k ih =>
    intro i h
    unfold isValidFrom at h ⊢
    cases hn : modelnames[i]? with
    | none => simp [hn] at h
    | some name =>
      have hm : (withThreshold t S).m = S.m := rfl
      simp only [hn, hm] at h ⊢
      cases ho : mapFind S.m name with
      | none => simp [ho] at h
      | some o =>
        simp only [ho] at h ⊢
        cases he : inStaticEquilibrium S o with
        | false => simp [he] at h
        | true =>
          simp only [he, Bool.not_true, Bool.false_eq_true, if_false] at h
          simp only [inStaticEquilibrium_mono S t o hle he, Bool.not_true, Bool.false_eq_true,
            if_false]
          exact ih (i + 1) h

/-- A passing `isValid` passes under every larger threshold. -/
theorem isValid_mono (S : State) (t : ℚ) (modelnames : List String)
    (hle : S.params.THRESHOLD ≤ t) (h : isValid S modelnames = .ok true) :
    isValid (withThreshold t S) modelnames = .ok true := by
  unfold isValid at h ⊢
  have hn : (withThreshold t S).num = S.num := rfl
  rw [hn]
  cases hv : isValidFrom S modelnames S.num 0 with
  | error e => simp [hv] at h
  | ok b =>
    cases b with
    | false => simp [hv] at h
    | true =>
      rw [isValidFrom_mono S t modelnames hle S.num 0 hv]
      rfl

/-- A passing phase passes under every larger threshold, leaving the same state apart from the
threshold. -/
theorem isStableStill_mono (E : Engine) (fuel : Nat) (modelnames : List String) (step : Int)
    (S S1 : State) (t : ℚ) (hle : S.params.THRESHOLD ≤ t)
    (h : isStableStill E fuel modelnames step S = .ok (true, S1)) :
    isStableStill E fuel modelnames step (withThreshold t S) = .ok (true, withThreshold t S1) ∧
      S1.params = S.params := by
  obtain ⟨hr, hv⟩ := (isStableStill_ok_iff E fuel modelnames step S S1 true).mp h
  have hp : S1.params = S.params := runSteps_params E fuel step S S1 hr
  refine ⟨?_, hp⟩
  unfold isStableStill
  rw [runSteps_threshold, hr]
  simp only [Except.map]
  rw [isValid_mono S1 t modelnames (by rw [hp]; exact hle) hv]

/-- The one-object scene with one step per phase passes under the resting engine. -/
theorem quickScene_true :
    ∃ S4, isValidScene restingEngine 2 ["base"] [identityPose] quickState = .ok (true, S4) := by
  have hv : ∀ S : State, S.m = [("base", { MyObject.blank with model_ID := "base" })] →
      S.num = 1 → S.world = ⟨Vec3.zero, [], [{ Body.blank with R := poseRotation identityPose }]⟩ →
      S.params.THRESHOLD = 2 / 25 → isValid S ["base"] = .ok true := by
    intro S hm hn hw ht
    simp [isValid, isValidFrom, hm, hn, hw, ht, mapFind, inStaticEquilibrium,
      dBodyGetPosition, Body.blank, MyObject.blank, Vec3.zero]
    norm_num
  refine ⟨_, (isValidScene_true_chain restingEngine 2 ["base"] [identityPose] quickState _).mpr
    ⟨_, _, _, _, rfl,
      (isStableStill_ok_iff _ _ _ _ _ _ _).mpr ⟨rfl, hv _ rfl rfl rfl rfl⟩,
      (isStableStill_ok_iff _ _ _ _ _ _ _).mpr ⟨rfl, hv _ rfl rfl rfl rfl⟩,
      (isStableStill_ok_iff _ _ _ _ _ _ _).mpr ⟨rfl, hv _ rfl rfl rfl rfl⟩,
      (isStableStill_ok_iff _ _ _ _ _ _ _).mpr ⟨rfl, hv _ rfl rfl rfl rfl⟩⟩⟩

/-- C27: the verdict is monotone in `THRESHOLD`.  For a state whose threshold is at most `t`,
every object in static equilibrium is in static equilibrium with the threshold `t`; and, the
engine being a function that is not given the threshold, whenever `isValidScene` returns true it
returns true from the same state with the threshold `t`, leaving the same final state apart
from the threshold. -/
theorem threshold_monotone (E : Engine) (fuel : Nat) (modelnames : List String)
    (model_poses : List Affine3d) (S : State) (t : ℚ) (hle : S.params.THRESHOLD ≤ t) :
    (∀ object : MyObject, inStaticEquilibrium S object = true →
      inStaticEquilibrium (withThreshold t S) object = true) ∧
    (∀ Sf : State, isValidScene E fuel modelnames model_poses S = .ok (true, Sf) →
      isValidScene E fuel modelnames model_poses (withThreshold t S) =
        .ok (true, withThreshold t Sf)) := by
  refine ⟨fun o h => inStaticEquilibrium_mono S t o hle h, ?_⟩
  intro Sf h
  obtain ⟨Sp, S1, S2, S3, hp, h1, h2, h3, h4⟩ :=
    (isValidScene_true_chain E fuel modelnames model_poses S Sf).mp h
  have ep : Sp.params = S.params := (poseLoop_frame _ _ _ _ _ _ hp).1
  obtain ⟨g1, e1⟩ := isStableStill_mono E fuel modelnames _ Sp S1 t (by rw [ep]; exact hle) h1
  obtain ⟨g2, e2⟩ := isStableStill_mono E fuel modelnames _ S1 S2 t
    (by rw [e1, ep]; exact hle) h2
  obtain ⟨g3, e3⟩ := isStableStill_mono E fuel modelnames _ S2 S3 t
    (by rw [e2, e1, ep]; exact hle) h3
  obtain ⟨g4, -⟩ := isStableStill_mono E fuel modelnames _ S3 Sf t
    (by rw [e3, e2, e1, ep]; exact hle) h4
  refine (isValidScene_true_chain E fuel modelnames model_poses (withThreshold t S)
    (withThreshold t Sf)).mpr ⟨withThreshold t Sp, withThreshold t S1, withThreshold t S2,
      withThreshold t S3, ?_, g1, g2, g3, g4⟩
  have hq := poseLoop_threshold modelnames model_poses t modelnames.length 0
    { S with num := modelnames.length }
  rw [hp] at hq
  exact hq

/-- Witness for C27: the one-object scene passes with the threshold 2/25, hence with the
threshold 1. -/
theorem threshold_monotone_witness :
    ∃ Sf, isValidScene restingEngine 2 ["base"] [identityPose] (withThreshold 1 quickState) =
      .ok (true, Sf) := by
  obtain ⟨S4, h⟩ := quickScene_true
  exact ⟨_, (threshold_monotone restingEngine 2 ["base"] [identityPose] quickState 1
    (by
      show (2 / 25 : ℚ) ≤ 1
      norm_num)).2 S4 h⟩

/-! ## Winding direction of the faces -/

/-- Reversing a triangle negates its signed volume. -/
theorem tetraVolume_reverse (t : data) : tetraVolume (reverseTriangle t) = -tetraVolume t := by
  simp only [tetraVolume, tripleProduct, reverseTriangle, data.a, data.b, data.c]
  ring

/-- Reversing every triangle negates the total signed volume and the three moments. -/
theorem sums_reverse (ts : List data) :
    volumeSum (ts.map reverseTriangle) = -volumeSum ts ∧
    momentX (ts.map reverseTriangle) = -momentX ts ∧
    momentY (ts.map reverseTriangle) = -momentY ts ∧
    momentZ (ts.map reverseTriangle) = -momentZ ts := by
  induction ts with
  | nil => simp [volumeSum, momentX, momentY, momentZ]
  | cons t rest ih =>
    obtain ⟨hv, hx, hy, hz⟩ := ih
    unfold volumeSum at hv ⊢
    unfold momentX at hx ⊢
    unfold momentY at hy ⊢
    unfold momentZ at hz ⊢
    simp only [List.map_cons, List.sum_cons, tetraVolume_reverse, hv, hx, hy, hz]
    simp only [reverseTriangle, data.a, data.b, data.c]
    refine ⟨by ring, by ring, by ring, by ring⟩

/-- Reversing every triangle leaves the volume-weighted centroid unchanged. -/
theorem centroidSpec_reverse (ts : List data) (scale : ℚ) :
    centroidSpec (ts.map reverseTriangle) scale = centroidSpec ts scale := by
  obtain ⟨hv, hx, hy, hz⟩ := sums_reverse ts
  unfold centroidSpec
  rw [hv, hx, hy, hz, neg_div_neg_eq, neg_div_neg_eq, neg_div_neg_eq]

/-- The triangles read from the faces in reversed vertex order are the reversed triangles. -/
theorem fillTriangles_reverse (objData : objLoader) :
    ∀ (faces : List obj_face) (ts : List data), fillTriangles objData faces = .ok ts →
      fillTriangles (reverseMesh objData) (faces.map reverseFace) =
        .ok (ts.map reverseTriangle) := by
  have hv : ∀ i, vertexAt (reverseMesh objData) i = vertexAt objData i := fun _ => rfl
  intro faces
  induction faces with
  | nil =>
    intro ts hf
    unfold fillTriangles at hf
    injection hf with hf
    subst hf
    rfl
  | cons f rest ih =>
    intro ts hf
    unfold fillTriangles at hf
    simp only [List.map_cons]
    unfold fillTriangles
    simp only [hv, reverseFace]
    cases h0 : vertexAt objData f.vertex_index0 with
    | error e => simp [h0] at hf
    | ok a =>
      cases h1 : vertexAt objData f.vertex_index1 with
      | error e => simp [h0, h1] at hf
      | ok b =>
        cases h2 : vertexAt objData f.vertex_index2 with
        | error e => simp [h0, h1, h2] at hf
        | ok c =>
          cases hr : fillTriangles objData rest with
          | error e => simp [h0, h1, h2, hr] at hf
          | ok rs =>
            simp only [h0, h1, h2, hr, Except.ok.injEq] at hf
            subst hf
            simp only [ih rs hr, List.map_cons]
            rfl

/-- C29: the centre of mass does not depend on the winding direction of the faces.  For a mesh
whose triangles have a total signed volume other than zero and a scale other than zero,
`setObject` returns for the mesh and for the mesh with the vertex order of every face reversed,
with the same centre of mass, the volume-weighted centroid; the triangles of the reversed mesh
are the reversed triangles, each of the opposite signed volume. -/
theorem centerOfMass_winding (load : String → objLoader) (object : MyObject) (number : ℚ)
    (filename : String) (ts : List data)
    (hfill : fillTriangles (load filename) (load filename).faceList = .ok ts)
    (hV : volumeSum ts ≠ 0) (hs : number ≠ 0) :
    (∃ o o1, setObject load object number filename = .ok o ∧
      setObject (fun f => reverseMesh (load f)) object number filename = .ok o1 ∧
      o.centerOfMass = centroidSpec ts number ∧ o1.centerOfMass = o.centerOfMass) ∧
    fillTriangles (reverseMesh (load filename)) (reverseMesh (load filename)).faceList =
      .ok (ts.map reverseTriangle) ∧
    (∀ t : data, currentVolume (reverseTriangle t) = -currentVolume t) ∧
    centerOfMassOf (ts.map reverseTriangle) number = centerOfMassOf ts number := by
  have hrev := fillTriangles_reverse (load filename) (load filename).faceList ts hfill
  have hV1 : volumeSum (ts.map reverseTriangle) ≠ 0 := by
    rw [(sums_reverse ts).1]
    exact neg_ne_zero.mpr hV
  have hc := centerOfMassOf_eq ts number hV hs
  have hc1 := centerOfMassOf_eq (ts.map reverseTriangle) number hV1 hs
  rw [centroidSpec_reverse] at hc1
  refine ⟨⟨_, _, setObject_eq load object number filename ts _ hfill hc,
    setObject_eq (fun f => reverseMesh (load f)) object number filename
      (ts.map reverseTriangle) _ hrev hc1, rfl, rfl⟩, hrev, ?_, by rw [hc, hc1]⟩
  intro t
  rw [currentVolume_eq, currentVolume_eq, tetraVolume_reverse]

/-- Witness for C29: the unit tetrahedron with every face reversed still has its centre of mass
at (1/4, 1/4, 1/4). -/
theorem centerOfMass_winding_witness :
    ∃ o1, setObject (fun f => reverseMesh (demoLoad f)) MyObject.blank 1 "tetra.obj" = .ok o1 ∧
      o1.centerOfMass = [1 / 4, 1 / 4, 1 / 4] := by
  obtain ⟨hfill, hV, hc⟩ := tetra_facts
  obtain ⟨o, o1, -, h1, e, e1⟩ := (centerOfMass_winding demoLoad MyObject.blank 1 "tetra.obj"
    tetraTriangles hfill (by rw [hV]; norm_num) (by norm_num)).1
  exact ⟨o1, h1, by rw [e1, e, hc]⟩

/-! ## Rounding -/

/-- An integer rounds to itself. -/
theorem roundHalfEven_intCast (n : Int) : roundHalfEven (n : ℚ) = n := by
  unfold roundHalfEven
  simp

/-- Rounding does not pass an integer above. -/
theorem roundHalfEven_le (z : ℚ) (N : Int) (h : z ≤ N) : roundHalfEven z ≤ N := by
  rcases eq_or_lt_of_le h with h1 | h1
  · rw [h1, roundHalfEven_intCast]
  · have hf : ⌊z⌋ + 1 ≤ N := by
      have : ⌊z⌋ < N := Int.floor_lt.mpr h1
      omega
    unfold roundHalfEven
    split_ifs <;> omega

/-- Rounding a non-negative value gives a non-negative integer. -/
theorem roundHalfEven_nonneg (z : ℚ) (h : 0 ≤ z) : 0 ≤ roundHalfEven z := by
  have hf : 0 ≤ ⌊z⌋ := Int.floor_nonneg.mpr h
  unfold roundHalfEven
  split_ifs <;> omega

/-- The rounded integer is within one half. -/
theorem roundHalfEven_near (z : ℚ) : |z - roundHalfEven z| ≤ 1 / 2 := by
  have h1 : (⌊z⌋ : ℚ) ≤ z := Int.floor_le z
  have h2 : z < ⌊z⌋ + 1 := Int.lt_floor_add_one z
  unfold roundHalfEven
  rw [abs_le]
  split_ifs with ha hb hc
  · constructor <;> linarith
  · push_cast
    constructor <;> linarith
  · have : z - ⌊z⌋ = 1 / 2 := le_antisymm (not_lt.mp hb) (not_lt.mp ha)
    constructor <;> linarith
  · have : z - ⌊z⌋ = 1 / 2 := le_antisymm (not_lt.mp hb) (not_lt.mp ha)
    push_cast
    constructor <;> linarith

/-- An integer within less than one half is the rounded integer. -/
theorem roundHalfEven_eq (z : ℚ) (n : Int) (h : |z - n| < 1 / 2) : roundHalfEven z = n := by
  rw [abs_lt] at h
  have hn := roundHalfEven_near z
  rw [abs_le] at hn
  have h1 : ((roundHalfEven z : Int) : ℚ) - n < 1 := by linarith [h.1, h.2, hn.1, hn.2]
  have h2 : (-1 : ℚ) < (roundHalfEven z : Int) - n := by linarith [h.1, h.2, hn.1, hn.2]
  have h3 : roundHalfEven z - n < 1 := by exact_mod_cast h1
  have h4 : -1 < roundHalfEven z - n := by exact_mod_cast h2
  omega

/-- Powers of two are positive. -/
theorem two_zpow_pos (k : Int) : (0 : ℚ) < 2 ^ k := zpow_pos (by norm_num) k

/-- The binade of a positive rational. -/
theorem log_two_eq (x : ℚ) (k : Int) (h1 : 2 ^ k ≤ x) (h2 : x < 2 ^ (k + 1)) :
    Int.log 2 x = k := by
  have hx : 0 < x := lt_of_lt_of_le (two_zpow_pos k) h1
  have a1 : k ≤ Int.log 2 x := by
    rw [← Int.zpow_le_iff_le_log (by norm_num) hx]
    simpa using h1
  have a2 : Int.log 2 x < k + 1 := by
    rw [← Int.lt_zpow_iff_log_lt (by norm_num) hx]
    simpa using h2
  omega

/-- Rounding a non-negative value gives a non-negative value. -/
theorem roundPos_nonneg (F : Format) (x : ℚ) (h : 0 ≤ x) : 0 ≤ F.roundPos x := by
  unfold Format.roundPos
  have h1 : 0 ≤ roundHalfEven (x / 2 ^ F.quantum x) :=
    roundHalfEven_nonneg _ (div_nonneg h (le_of_lt (two_zpow_pos _)))
  have h2 : (0 : ℚ) ≤ (roundHalfEven (x / 2 ^ F.quantum x) : Int) := by exact_mod_cast h1
  exact mul_nonneg h2 (le_of_lt (two_zpow_pos _))

/-- Zero rounds to zero. -/
theorem roundPos_zero (F : Format) : F.roundPos 0 = 0 := by
  unfold Format.roundPos
  rw [zero_div]
  have : roundHalfEven 0 = 0 := by
    have := roundHalfEven_intCast 0
    simpa using this
  rw [this]
  simp

/-- The spacing does not shrink as the magnitude grows. -/
theorem quantum_mono (F : Format) (x t : ℚ) (hx : 0 < x) (h : x ≤ t) :
    F.quantum x ≤ F.quantum t := by
  unfold Format.quantum
  have ht : 0 < t := lt_of_lt_of_le hx h
  rw [abs_of_pos hx, abs_of_pos ht]
  have := Int.log_mono_right (b := 2) hx h
  exact max_le_max (by omega) (le_refl _)

/-- A value at most a value of the format rounds to at most that value. -/
theorem roundPos_le (F : Format) (x t : ℚ) (hx : 0 ≤ x) (h : x ≤ t)
    (ht : F.roundPos t = t) : F.roundPos x ≤ t := by
  rcases eq_or_lt_of_le hx with h0 | h0
  · rw [← h0, roundPos_zero]
    exact le_trans hx h
  · have hq := quantum_mono F x t h0 h
    obtain ⟨d, hd⟩ : ∃ d : Nat, F.quantum t = F.quantum x + d :=
      ⟨(F.quantum t - F.quantum x).toNat, by omega⟩
    have hpx := two_zpow_pos (F.quantum x)
    have e1 : t / 2 ^ F.quantum x =
        ((roundHalfEven (t / 2 ^ F.quantum t) * 2 ^ d : Int) : ℚ) := by
      have e2 : (2 : ℚ) ^ F.quantum t = 2 ^ F.quantum x * 2 ^ d := by
        rw [hd, zpow_add₀ (by norm_num), zpow_natCast]
      nth_rewrite 1 [← ht]
      unfold Format.roundPos
      rw [e2]
      push_cast
      field_simp
      ring
    have e3 : x / 2 ^ F.quantum x ≤
        ((roundHalfEven (t / 2 ^ F.quantum t) * 2 ^ d : Int) : ℚ) := by
      rw [← e1]
      exact div_le_div_of_nonneg_right h (le_of_lt hpx)
    have e4 := roundHalfEven_le _ _ e3
    have e5 : ((roundHalfEven (x / 2 ^ F.quantum x) : Int) : ℚ) ≤
        ((roundHalfEven (t / 2 ^ F.quantum t) * 2 ^ d : Int) : ℚ) := by exact_mod_cast e4
    unfold Format.roundPos
    calc (roundHalfEven (x / 2 ^ F.quantum x) : ℚ) * 2 ^ F.quantum x
        ≤ ((roundHalfEven (t / 2 ^ F.quantum t) * 2 ^ d : Int) : ℚ) * 2 ^ F.quantum x :=
          mul_le_mul_of_nonneg_right e5 (le_of_lt hpx)
      _ = t := by
          rw [← e1]
          field_simp

/-- The rounded value of a positive rational, from its binade and the nearest integer multiple
of the spacing. -/
theorem roundPos_eval (F : Format) (x : ℚ) (k n : Int) (h1 : 2 ^ k ≤ x) (h2 : x < 2 ^ (k + 1))
    (hn : |x / 2 ^ (max (k - (F.prec - 1)) F.emin) - n| < 1 / 2) :
    F.roundPos x = n * 2 ^ (max (k - (F.prec - 1)) F.emin) := by
  have hx : 0 < x := lt_of_lt_of_le (two_zpow_pos k) h1
  have hq : F.quantum x = max (k - (F.prec - 1)) F.emin := by
    unfold Format.quantum
    rw [abs_of_pos hx, log_two_eq x k h1 h2]
  unfold Format.roundPos
  rw [hq, roundHalfEven_eq _ n hn]

/-- The magnitude of the rounded value is the rounded magnitude. -/
theorem abs_roundQ (F : Format) (x : ℚ) : |F.roundQ x| = F.roundPos |x| := by
  unfold Format.roundQ
  by_cases h : 0 ≤ x
  · rw [if_pos h, abs_of_nonneg h, abs_of_nonneg (roundPos_nonneg F x h)]
  · have h1 : x < 0 := not_le.mp h
    rw [if_neg h, abs_of_neg h1, abs_neg, abs_of_nonneg (roundPos_nonneg F (-x) (by linarith))]

/-- The absolute value of a rounded value. -/
theorem abs_round (F : Format) (x : ℚ) :
    FP.abs (F.round x) =
      if 2 ^ (F.emax + 1) ≤ F.roundPos |x| then .inf false else .fin (F.roundPos |x|) := by
  unfold Format.round
  rw [abs_roundQ]
  by_cases h : 2 ^ (F.emax + 1) ≤ F.roundPos |x|
  · rw [if_pos h, if_pos h]
    rfl
  · rw [if_neg h, if_neg h]
    show FP.fin |F.roundQ x| = _
    rw [abs_roundQ]

/-- A non-negative value of the format is its own rounding and lies below the overflow bound. -/
theorem representable_nonneg (F : Format) (t : ℚ) (h0 : 0 ≤ t) (h : F.Representable t) :
    F.roundPos t = t ∧ t < 2 ^ (F.emax + 1) := by
  unfold Format.Representable Format.round at h
  by_cases hb : 2 ^ (F.emax + 1) ≤ |F.roundQ t|
  · rw [if_pos hb] at h
    cases h
  · rw [if_neg hb] at h
    injection h with h
    have h1 : F.roundPos t = t := by
      unfold Format.roundQ at h
      rw [if_pos h0] at h
      exact h
    refine ⟨h1, ?_⟩
    rw [abs_roundQ, abs_of_nonneg h0, h1] at hb
    exact not_le.mp hb

/-- The delta of two finite values whose exact distance is at most a value of the format is a
finite value at most that value. -/
theorem deltaDouble_le (a b t : ℚ) (ht : binary64.Representable t) (h : |a - b| ≤ t) :
    ∃ d, deltaDouble (.fin a) (.fin b) = .fin d ∧ d ≤ t := by
  have h0 : 0 ≤ t := le_trans (abs_nonneg _) h
  obtain ⟨r1, r2⟩ := representable_nonneg binary64 t h0 ht
  have hle := roundPos_le binary64 |a - b| t (abs_nonneg _) h r1
  refine ⟨binary64.roundPos |a - b|, ?_, hle⟩
  show FP.abs (binary64.round (a - b)) = _
  rw [abs_round, if_neg (not_le.mpr (lt_of_le_of_lt hle r2))]

/-- The delta of two finite values whose difference is a value of the format is the exact
distance. -/
theorem deltaDouble_exact (a b : ℚ) (h : binary64.Representable (a - b)) :
    deltaDouble (.fin a) (.fin b) = .fin |a - b| := by
  show FP.abs (binary64.round (a - b)) = _
  unfold Format.Representable at h
  rw [h]
  rfl

/-- The comparison `>` fails exactly on a NaN operand or on `<=`. -/
theorem gt_false_iff (d T : FP) (hT : T ≠ .nan) :
    FP.gt d T = false ↔ d = .nan ∨ FP.le d T = true := by
  cases d with
  | nan => simp [FP.gt]
  | inf a =>
    cases T with
    | nan => exact absurd rfl hT
    | inf b => cases a <;> cases b <;> simp [FP.gt, FP.le]
    | fin y => cases a <;> simp [FP.gt, FP.le]
  | fin x =>
    cases T with
    | nan => exact absurd rfl hT
    | inf b => cases b <;> simp [FP.gt, FP.le]
    | fin y => simp [FP.gt, FP.le]

/-- The function returns true exactly when no comparison holds. -/
theorem inStaticEquilibriumDouble_true (T : FP) (c p : FPVec3) :
    inStaticEquilibriumDouble T c p = true ↔
      FP.gt (deltaDouble c.x p.x) T = false ∧ FP.gt (deltaDouble c.y p.y) T = false ∧
        FP.gt (deltaDouble c.z p.z) T = false := by
  unfold inStaticEquilibriumDouble
  simp only
  generalize FP.gt (deltaDouble c.x p.x) T = gx
  generalize FP.gt (deltaDouble c.y p.y) T = gy
  generalize FP.gt (deltaDouble c.z p.z) T = gz
  cases gx <;> cases gy <;> cases gz <;> simp

/-- The rounding of a positive rational, from its binade and the nearest multiple of the
spacing. -/
theorem round_eval (F : Format) (x y : ℚ) (k n e : Int) (h1 : 2 ^ k ≤ x)
    (h2 : x < 2 ^ (k + 1)) (he : max (k - (F.prec - 1)) F.emin = e)
    (hn : |x / 2 ^ e - n| < 1 / 2) (hy : (n : ℚ) * 2 ^ e = y) (hb : y < 2 ^ (F.emax + 1)) :
    F.round x = .fin y := by
  have hx : 0 < x := lt_of_lt_of_le (two_zpow_pos k) h1
  have hr : F.roundPos x = y := by
    rw [roundPos_eval F x k n h1 h2 (by rw [he]; exact hn), he, hy]
  have hq : F.roundQ x = y := by
    unfold Format.roundQ
    rw [if_pos (le_of_lt hx), hr]
  have hy0 : 0 ≤ y := by
    rw [← hr]
    exact roundPos_nonneg F x (le_of_lt hx)
  unfold Format.round
  rw [hq, abs_of_nonneg hy0, if_neg (not_le.mpr hb)]

/-- Zero is a value of the format `double`. -/
theorem round_zero : binary64.round 0 = .fin 0 := by
  have hq : binary64.roundQ 0 = 0 := by
    unfold Format.roundQ
    rw [if_pos (le_refl _), roundPos_zero]
  unfold Format.round
  rw [hq, abs_zero, if_neg (not_le.mpr (two_zpow_pos _))]

/-- One is a value of the format `double`. -/
theorem round_one : binary64.round 1 = .fin 1 :=
  round_eval binary64 1 1 0 4503599627370496 (-52) (by norm_num) (by norm_num) (by decide)
    (by norm_num) (by norm_num) (by
      show (1 : ℚ) < 2 ^ ((1023 : Int) + 1)
      exact one_lt_zpow₀ (by norm_num) (by norm_num))

/-- The sum of 1 and 2^-60 rounds to 1 in `double`. -/
theorem round_example : binary64.round (1 - -(1 / 2 ^ 60)) = .fin 1 :=
  round_eval binary64 _ 1 0 4503599627370496 (-52) (by norm_num) (by norm_num) (by decide)
    (by norm_num [abs_lt]) (by norm_num) (by
      show (1 : ℚ) < 2 ^ ((1023 : Int) + 1)
      exact one_lt_zpow₀ (by norm_num) (by norm_num))

/-- For finite values the `double` function is the exact one wherever the three differences are
values of the format. -/
theorem inStaticEquilibriumDouble_exact (t cx cy cz px py pz : ℚ)
    (hx : binary64.Representable (cx - px)) (hy : binary64.Representable (cy - py))
    (hz : binary64.Representable (cz - pz)) :
    inStaticEquilibriumDouble (.fin t) ⟨.fin cx, .fin cy, .fin cz⟩ ⟨.fin px, .fin py, .fin pz⟩ =
      true ↔ |cx - px| ≤ t ∧ |cy - py| ≤ t ∧ |cz - pz| ≤ t := by
  rw [inStaticEquilibriumDouble_true]
  simp only [deltaDouble_exact _ _ hx, deltaDouble_exact _ _ hy, deltaDouble_exact _ _ hz,
    FP.gt, decide_eq_false_iff_not, not_lt]

/-- C1, as the code has it with `double` values.  When `THRESHOLD` is not a NaN the function
returns true exactly when on every axis the computed delta is a NaN or compares `<=` to
`THRESHOLD`; when `THRESHOLD` is a NaN it returns true.  For finite values: if the three exact
differences are values of the format, it returns true exactly when the exact displacement is at
most `THRESHOLD` on every axis; if `THRESHOLD` is a value of the format, an exact displacement at
most `THRESHOLD` on every axis (equal to it, in particular) gives true; and a rounded
displacement above `THRESHOLD` on any one axis gives false.  On states of exact values whose
differences are values of the format, the function of the exact embedding is this function. -/
theorem inStaticEquilibrium_double (T : FP) (c p : FPVec3) :
    (T ≠ .nan →
      (inStaticEquilibriumDouble T c p = true ↔
        (deltaDouble c.x p.x = .nan ∨ FP.le (deltaDouble c.x p.x) T = true) ∧
        (deltaDouble c.y p.y = .nan ∨ FP.le (deltaDouble c.y p.y) T = true) ∧
        (deltaDouble c.z p.z = .nan ∨ FP.le (deltaDouble c.z p.z) T = true))) ∧
    (T = .nan → inStaticEquilibriumDouble T c p = true) ∧
    (∀ t cx cy cz px py pz : ℚ, T = .fin t → c = ⟨.fin cx, .fin cy, .fin cz⟩ →
      p = ⟨.fin px, .fin py, .fin pz⟩ →
      (binary64.Representable (cx - px) → binary64.Representable (cy - py) →
        binary64.Representable (cz - pz) →
        (inStaticEquilibriumDouble T c p = true ↔
          |cx - px| ≤ t ∧ |cy - py| ≤ t ∧ |cz - pz| ≤ t)) ∧
      (binary64.Representable t → |cx - px| ≤ t → |cy - py| ≤ t → |cz - pz| ≤ t →
        inStaticEquilibriumDouble T c p = true) ∧
      (t < binary64.roundPos |cx - px| ∨ t < binary64.roundPos |cy - py| ∨
          t < binary64.roundPos |cz - pz| →
        inStaticEquilibriumDouble T c p = false)) ∧
    (∀ (S : State) (object : MyObject), T = .fin S.params.THRESHOLD →
      c = Vec3.toFP object.center → p = Vec3.toFP (dBodyGetPosition S.world object.body) →
      binary64.Representable (object.center.x - (dBodyGetPosition S.world object.body).x) →
      binary64.Representable (object.center.y - (dBodyGetPosition S.world object.body).y) →
      binary64.Representable (object.center.z - (dBodyGetPosition S.world object.body).z) →
      inStaticEquilibriumDouble T c p = inStaticEquilibrium S object) := by
  refine ⟨?_, ?_, ?_, ?_⟩
  · intro hT
    rw [inStaticEquilibriumDouble_true, gt_false_iff _ _ hT, gt_false_iff _ _ hT,
      gt_false_iff _ _ hT]
  · intro hT
    rw [inStaticEquilibriumDouble_true, hT]
    have h : ∀ d : FP, FP.gt d .nan = false := by
      intro d
      cases d <;> rfl
    exact ⟨h _, h _, h _⟩
  · intro t cx cy cz px py pz hT hc hp
    subst hT hc hp
    refine ⟨inStaticEquilibriumDouble_exact t cx cy cz px py pz, ?_, ?_⟩
    · intro ht hx hy hz
      obtain ⟨dx, ex, lx⟩ := deltaDouble_le cx px t ht hx
      obtain ⟨dy, ey, ly⟩ := deltaDouble_le cy py t ht hy
      obtain ⟨dz, ez, lz⟩ := deltaDouble_le cz pz t ht hz
      rw [inStaticEquilibriumDouble_true]
      simp only [ex, ey, ez, FP.gt, decide_eq_false_iff_not, not_lt]
      exact ⟨lx, ly, lz⟩
    · intro h
      have key : ∀ a b : ℚ, t < binary64.roundPos |a - b| →
          FP.gt (deltaDouble (.fin a) (.fin b)) (.fin t) = true := by
        intro a b hab
        show FP.gt (FP.abs (binary64.round (a - b))) (.fin t) = true
        rw [abs_round]
        split_ifs
        · rfl
        · simp only [FP.gt, decide_eq_true_eq]
          exact hab
      cases hb : inStaticEquilibriumDouble (.fin t) ⟨.fin cx, .fin cy, .fin cz⟩
          ⟨.fin px, .fin py, .fin pz⟩ with
      | false => rfl
      | true =>
        obtain ⟨gx, gy, gz⟩ := (inStaticEquilibriumDouble_true _ _ _).mp hb
        rcases h with h | h | h
        · rw [key _ _ h] at gx
          cases gx
        · rw [key _ _ h] at gy
          cases gy
        · rw [key _ _ h] at gz
          cases gz
  · intro S object hT hc hp hx hy hz
    subst hT hc hp
    have h1 := inStaticEquilibriumDouble_exact S.params.THRESHOLD object.center.x
      object.center.y object.center.z (dBodyGetPosition S.world object.body).x
      (dBodyGetPosition S.world object.body).y (dBodyGetPosition S.world object.body).z hx hy hz
    have h2 : inStaticEquilibrium S object = true ↔
        |object.center.x - (dBodyGetPosition S.world object.body).x| ≤ S.params.THRESHOLD ∧
        |object.center.y - (dBodyGetPosition S.world object.body).y| ≤ S.params.THRESHOLD ∧
        |object.center.z - (dBodyGetPosition S.world object.body).z| ≤ S.params.THRESHOLD := by
      unfold inStaticEquilibrium
      simp only [gt_iff_lt]
      split_ifs with hgt
      · simp only [Bool.false_eq_true, false_iff, not_and_or, not_le]
        exact hgt
      · simp only [true_iff]
        simp only [not_or, not_lt] at hgt
        exact hgt
    have h3 : inStaticEquilibriumDouble (.fin S.params.THRESHOLD) (Vec3.toFP object.center)
        (Vec3.toFP (dBodyGetPosition S.world object.body)) = true ↔
        inStaticEquilibrium S object = true := by
      rw [h2]
      exact h1
    cases ha : inStaticEquilibrium S object with
    | true => exact h3.mpr ha
    | false =>
      cases hb : inStaticEquilibriumDouble (.fin S.params.THRESHOLD) (Vec3.toFP object.center)
          (Vec3.toFP (dBodyGetPosition S.world object.body)) with
      | false => rfl
      | true =>
        rw [h3.mp hb] at ha
        cases ha

/-- C1 fails as stated.  With a NaN as the x position of the body the function returns true,
although the delta of the x axis does not compare `<=` to the threshold; and with reference x
coordinate 1, body x coordinate -2^-60 and threshold 1 it returns true, although the
displacement 1 + 2^-60 is above the threshold: the `double` difference is rounded to 1. -/
theorem inStaticEquilibrium_double_counterexample :
    (inStaticEquilibriumDouble (.fin 1) ⟨.fin 0, .fin 0, .fin 0⟩ ⟨.nan, .fin 0, .fin 0⟩ = true ∧
      FP.le (deltaDouble (.fin 0) .nan) (.fin 1) = false) ∧
    (inStaticEquilibriumDouble (.fin 1) ⟨.fin 1, .fin 0, .fin 0⟩
        ⟨.fin (-(1 / 2 ^ 60)), .fin 0, .fin 0⟩ = true ∧
      ¬ |(1 : ℚ) - -(1 / 2 ^ 60)| ≤ 1) := by
  have d0 : deltaDouble (.fin 0) (.fin 0) = .fin 0 := by
    show FP.abs (binary64.round (0 - 0)) = _
    rw [sub_zero, round_zero]
    show FP.fin |0| = _
    rw [abs_zero]
  have d1 : deltaDouble (.fin 1) (.fin (-(1 / 2 ^ 60))) = .fin 1 := by
    show FP.abs (binary64.round (1 - -(1 / 2 ^ 60))) = _
    rw [round_example]
    show FP.fin |1| = _
    rw [abs_one]
  refine ⟨⟨?_, rfl⟩, ?_, by norm_num [abs_le]⟩
  · rw [inStaticEquilibriumDouble_true]
    simp only [d0]
    exact ⟨rfl, by simp [FP.gt], by simp [FP.gt]⟩
  · rw [inStaticEquilibriumDouble_true]
    simp only [d0, d1]
    exact ⟨by simp [FP.gt], by simp [FP.gt], by simp [FP.gt]⟩

/-- The threshold boundary of C1 in `double`: the reference x coordinate 1, the body at the
origin and the threshold 1 give true. -/
theorem inStaticEquilibrium_double_boundary :
    inStaticEquilibriumDouble (.fin 1) ⟨.fin 1, .fin 0, .fin 0⟩ ⟨.fin 0, .fin 0, .fin 0⟩ =
      true :=
  ((inStaticEquilibrium_double (.fin 1) ⟨.fin 1, .fin 0, .fin 0⟩ ⟨.fin 0, .fin 0, .fin 0⟩).2.2.1
    1 1 0 0 0 0 0 rfl rfl rfl).2.1 round_one (by norm_num) (by norm_num) (by norm_num)

/-! ## Negative thresholds -/

/-- C19, what the code does: `setScale` is declared to return `bool` and has no `return`
statement, so no call returns: for an index `i` from 0 up to `NUM - 1` the assignment is
executed and the end of the function is then reached without a value (undefined behaviour).
The assignment itself is the one the claim describes: it leaves `scaling[i]` equal to `f`, every
other entry of the scaling table unchanged and nothing else of the state changed, and a
`setModels` call on that state (names and files of equal number) builds the object registered
at position `k` by `setObject` with the divisor `f` when `k` is `i` and with the unchanged
`scaling[k]` otherwise. -/
theorem setScale_no_return (S : State) (thisObject : Int) (scaleFactor : ℚ)
    (h0 : 0 ≤ thisObject) (h1 : thisObject < NUM) (hlen : S.scaling.length = NUM) :
    setScale thisObject scaleFactor S = .error .noReturn ∧
    (∀ (i : Int) (f : ℚ) (S0 : State) (r : Bool × State), setScale i f S0 ≠ .ok r) ∧
    ∃ S1, setScaleBody thisObject scaleFactor S = .ok S1 ∧
      S1.scaling[thisObject.toNat]? = some scaleFactor ∧
      (∀ k, k ≠ thisObject.toNat → S1.scaling[k]? = S.scaling[k]?) ∧
      S1 = { S with scaling := S1.scaling } ∧
      (∀ (load : String → objLoader) (modelnames filenames : List String) (S2 : State),
        modelnames.length = filenames.length →
        setModels load modelnames filenames S1 = .ok S2 →
        ∀ k, k < modelnames.length →
          ∃ ok name file sc o1 w, S.obj[k]? = some ok ∧ modelnames[k]? = some name ∧
            filenames[k]? = some file ∧
            sc = (if k = thisObject.toNat then scaleFactor else S.scaling.getD k 0) ∧
            setObject load { ok with model_ID := name } sc file = .ok o1 ∧
            S2.obj[k]? = some (makeObject S.params w o1).1) := by
  have hi : thisObject.toNat < S.scaling.length := by
    have : (NUM : Int) = 200 := rfl
    omega
  have hbody : setScaleBody thisObject scaleFactor S =
      .ok { S with scaling := S.scaling.set thisObject.toNat scaleFactor } := by
    unfold setScaleBody
    rw [if_pos ⟨h0, h1⟩]
  refine ⟨?_, ?_, { S with scaling := S.scaling.set thisObject.toNat scaleFactor }, hbody, ?_,
    ?_, rfl, ?_⟩
  · unfold setScale
    rw [hbody]
  · intro i f S0 r h
    unfold setScale at h
    cases hb : setScaleBody i f S0 with
    | error e => simp [hb] at h
    | ok S1 => simp [hb] at h
  · simp only [List.getElem?_set_self hi]
  · intro k hk
    simp only
    rw [List.getElem?_set_ne (fun e => hk e.symm)]
  · intro load modelnames filenames S2 hl hset k hk
    obtain ⟨Sr, hr, hm⟩ := setModels_inv load modelnames filenames _ S2 hl hset
    obtain ⟨-, -, -, -, -, -, -, -, p9⟩ :=
      registerLoop_props load modelnames filenames _ _ _ Sr hr
    obtain ⟨-, -, -, q4, -⟩ := mapLoop_props modelnames _ _ Sr S2 hm
    obtain ⟨oj, name, file, sc, o1, w, r1, r2, r3, r4, -, r6, r7⟩ :=
      p9 k (Nat.zero_le _) (by omega)
    simp only at r1 r4 r7
    refine ⟨oj, name, file, sc, o1, w, r1, r2, r3, ?_, r6, ?_⟩
    · by_cases hki : k = thisObject.toNat
      · rw [if_pos hki]
        rw [hki, List.getElem?_set_self hi] at r4
        injection r4 with r4
        exact r4.symm
      · rw [if_neg hki]
        rw [List.getElem?_set_ne (fun e => hki e.symm)] at r4
        rw [List.getD_eq_getElem?_getD, r4]
        rfl
    · rw [q4]
      exact r7

/-- Witness for C19: the call `setScale(2, 10)` on a fresh validator does not return. -/
theorem setScale_no_return_witness :
    setScale 2 10 (constructDefault State.initial) = .error .noReturn :=
  (setScale_no_return (constructDefault State.initial) 2 10
    (by decide) (by decide) (by
      rw [fresh_facts.2.2.1, List.length_replicate])).1

/-! ## Validator instances: sharing -/

/-- Counterexample for C22: starting from the start-up state, a `setParams` call through one
validator changes the threshold another validator observes (from 2/25 to 1); constructing a
validator with the custom constructor and the scale 5 changes the scaling entry 0 the other
observes (from 0 to 5), and a further default construction resets it to 100; and constructing a
validator empties the world the other one's registered body lives in. -/
theorem instances_share_state :
    (Validator.view ⟨1, 1⟩ State.initial).params.THRESHOLD = 2 / 25 ∧
    (∃ S1, Validator.callSetParams ⟨0, 0⟩ "THRESHOLD" 1 State.initial = .ok (true, S1) ∧
      (Validator.view ⟨1, 1⟩ S1).params.THRESHOLD = 1) ∧
    (Validator.view ⟨1, 1⟩ State.initial).scaling[0]? = some 0 ∧
    (Validator.view ⟨1, 1⟩ (constructCustom 0 0 (-1) 0 0 1 0 5 State.initial)).scaling[0]? =
      some 5 ∧
    (Validator.view ⟨1, 1⟩
      (constructDefault (constructCustom 0 0 (-1) 0 0 1 0 5 State.initial))).scaling[0]? =
      some 100 ∧
    (Validator.view ⟨1, 1⟩ oneObjectState).world.bodies.length = 1 ∧
    (Validator.view ⟨1, 1⟩ (constructDefault oneObjectState)).world.bodies.length = 0 := by
  have h0 : (List.replicate NUM (0 : ℚ))[0]? = some 0 := by
    rw [List.getElem?_replicate, if_pos (by decide)]
  have h5 : (List.replicate NUM (5 : ℚ))[0]? = some 5 := by
    rw [List.getElem?_replicate, if_pos (by decide)]
  have h100 : (List.replicate NUM (100 : ℚ))[0]? = some 100 := by
    rw [List.getElem?_replicate, if_pos (by decide)]
  refine ⟨rfl, ⟨{ State.initial with
      params := { State.initial.params with THRESHOLD := 1 } }, ?_, rfl⟩, h0, h5, h100, rfl, rfl⟩
  simp [Validator.callSetParams, setParams]

/-! ## The centering invariant on a reused slot -/

/-- The bipyramid can be read; it is closed and consistently oriented, its total signed volume
is 1 and its centre of mass the origin. -/
theorem bipyramid_facts :
    fillTriangles (sceneLoad "bipyramid.obj") (sceneLoad "bipyramid.obj").faceList =
      .ok bipyramidTriangles ∧
    volumeSum bipyramidTriangles = 1 ∧ centroidSpec bipyramidTriangles 1 = [0, 0, 0] ∧
    ClosedOriented (sceneLoad "bipyramid.obj").faceList := by
  refine ⟨rfl, ?_, ?_, ?_⟩
  · simp [volumeSum, tetraVolume, tripleProduct, bipyramidTriangles, data.a, data.b, data.c]
    norm_num
  · simp [centroidSpec, volumeSum, momentX, momentY, momentZ, tetraVolume, tripleProduct,
      bipyramidTriangles, data.a, data.b, data.c]
    norm_num
  · have h : (sceneLoad "bipyramid.obj").faceList = bipyramidMesh.faceList := rfl
    rw [h]
    unfold ClosedOriented
    decide

/-- The triangles read from the first four vertices of the bipyramid have the total signed
volume -1/2 and the centre of mass (0, 0, 1/4). -/
theorem stale_facts :
    volumeSum staleTriangles = -1 / 2 ∧ centroidSpec staleTriangles 1 = [0, 0, 1 / 4] := by
  constructor
  · simp [volumeSum, tetraVolume, tripleProduct, staleTriangles, data.a, data.b, data.c]
    norm_num
  · simp [centroidSpec, volumeSum, momentX, momentY, momentZ, tetraVolume, tripleProduct,
      staleTriangles, data.a, data.b, data.c]
    norm_num

/-- C13 fails on a reused slot.  The bipyramid is registered with scale 1 in a blank object and
the unit tetrahedron (closed, consistently oriented, of volume 1/6) with scale 1 in the object
that results.  `setObject` only appends to the vertex buffer, so the stored buffer still starts
with the vertices of the bipyramid: the centre-of-mass computation run again on the stored
buffer, with the faces of the tetrahedron and scale 1, returns (0, 0, 1/4), not the zero
vector. -/
theorem setObject_centering_reused :
    ∃ o1 o, setObject sceneLoad MyObject.blank 1 "bipyramid.obj" = .ok o1 ∧
      setObject sceneLoad o1 1 "tetra.obj" = .ok o ∧
      fillTriangles ⟨bufferVertices o.vertexGeomVec, (sceneLoad "tetra.obj").faceList⟩
        (sceneLoad "tetra.obj").faceList = .ok staleTriangles ∧
      centerOfMassOf staleTriangles 1 = .ok [0, 0, 1 / 4] ∧
      centerOfMassOf staleTriangles 1 ≠ .ok [0, 0, 0] := by
  obtain ⟨bfill, bV, bc, -⟩ := bipyramid_facts
  obtain ⟨tfill, tV, tc⟩ := tetra_facts
  obtain ⟨sV, sc⟩ := stale_facts
  have tfill1 : fillTriangles (sceneLoad "tetra.obj") (sceneLoad "tetra.obj").faceList =
      .ok tetraTriangles := tfill
  have hb := centerOfMassOf_eq bipyramidTriangles 1 (by rw [bV]; norm_num) one_ne_zero
  have ht := centerOfMassOf_eq tetraTriangles 1 (by rw [tV]; norm_num) one_ne_zero
  have hs := centerOfMassOf_eq staleTriangles 1 (by rw [sV]; norm_num) one_ne_zero
  rw [bc] at hb
  rw [tc] at ht
  rw [sc] at hs
  refine ⟨_, _, setObject_eq sceneLoad MyObject.blank 1 "bipyramid.obj" _ _ bfill hb,
    setObject_eq sceneLoad _ 1 "tetra.obj" _ _ tfill1 ht, ?_, hs, ?_⟩
  · have hv : bufferVertices (MyObject.blank.vertexGeomVec ++
        recentred (sceneLoad "bipyramid.obj").vertexList 1 [0, 0, 0] ++
        recentred (sceneLoad "tetra.obj").vertexList 1 [1 / 4, 1 / 4, 1 / 4]) =
        [⟨0, 0, 1⟩, ⟨1, 0, 0⟩, ⟨0, 1, 0⟩, ⟨-1, -1, 0⟩, ⟨0, 0, -1⟩,
          ⟨-1 / 4, -1 / 4, -1 / 4⟩, ⟨3 / 4, -1 / 4, -1 / 4⟩, ⟨-1 / 4, 3 / 4, -1 / 4⟩,
          ⟨-1 / 4, -1 / 4, 3 / 4⟩] := by
      have e1 : (sceneLoad "bipyramid.obj").vertexList = bipyramidMesh.vertexList := rfl
      have e2 : (sceneLoad "tetra.obj").vertexList = tetraMesh.vertexList := rfl
      rw [e1, e2]
      simp [bufferVertices, recentred, bipyramidMesh, tetraMesh, MyObject.blank]
      norm_num
    simp only [hv]
    rfl
  · rw [hs]
    intro h
    injection h with h
    simp at h

/-! ## The vertex buffers in the types of the source -/

/-- A step of a computation that can fault returns exactly when its first part returns and the
rest returns from that result. -/
theorem bind_ok {α β : Type} (x : Except Fault α) (f : α → Except Fault β) (b : β) :
    (x >>= f) = .ok b ↔ ∃ a, x = .ok a ∧ f a = .ok b := by
  cases x with
  | error e => simp [bind, Except.bind]
  | ok a => simp [bind, Except.bind]

/-- A returned result in a format is the rounded exact value. -/
theorem finite_ok (F : Format) (x y : ℚ) (h : F.finite x = .ok y) :
    y = F.roundQ x ∧ F.round x = .fin y := by
  unfold Format.finite at h
  cases hr : F.round x with
  | nan => simp [hr] at h
  | inf s => simp [hr] at h
  | fin z =>
    simp only [hr, Except.ok.injEq] at h
    subst h
    refine ⟨?_, rfl⟩
    unfold Format.round at hr
    split_ifs at hr
    injection hr with hr
    exact hr.symm

/-- Rounding moves a value by at most half the spacing of the format at its magnitude. -/
theorem roundQ_error (F : Format) (x : ℚ) : |F.roundQ x - x| ≤ 2 ^ F.quantum x / 2 := by
  have key : ∀ y : ℚ, |F.roundPos y - y| ≤ 2 ^ F.quantum y / 2 := by
    intro y
    have hp := two_zpow_pos (F.quantum y)
    have hn := roundHalfEven_near (y / 2 ^ F.quantum y)
    have e : F.roundPos y - y =
        -((y / 2 ^ F.quantum y - roundHalfEven (y / 2 ^ F.quantum y)) * 2 ^ F.quantum y) := by
      unfold Format.roundPos
      field_simp
      ring
    rw [e, abs_neg, abs_mul, abs_of_pos hp]
    calc |y / 2 ^ F.quantum y - ↑(roundHalfEven (y / 2 ^ F.quantum y))| * 2 ^ F.quantum y
        ≤ 1 / 2 * 2 ^ F.quantum y := mul_le_mul_of_nonneg_right hn (le_of_lt hp)
      _ = 2 ^ F.quantum y / 2 := by ring
  unfold Format.roundQ
  by_cases h : 0 ≤ x
  · rw [if_pos h]
    exact key x
  · rw [if_neg h]
    have hq : F.quantum (-x) = F.quantum x := by
      unfold Format.quantum
      rw [abs_neg]
    have := key (-x)
    rw [hq] at this
    have e : -F.roundPos (-x) - x = -(F.roundPos (-x) - -x) := by ring
    rw [e, abs_neg]
    exact this

/-- A value of the format is its own rounding. -/
theorem roundQ_representable (F : Format) (x : ℚ) (h : F.Representable x) : F.roundQ x = x := by
  unfold Format.Representable Format.round at h
  split_ifs at h
  injection h with h

/-- What a returning `bufferEntry` returns: the quotient rounded to `double`, the difference
rounded to `double`, the result rounded to `float`. -/
theorem bufferEntry_ok (raw SCALE com x : ℚ) (h : bufferEntry raw SCALE com = .ok x) :
    SCALE ≠ 0 ∧
      x = binary32.roundQ (binary64.roundQ (binary64.roundQ (raw / SCALE) - com)) := by
  unfold bufferEntry at h
  simp only [bind_ok] at h
  obtain ⟨q, hq, d, hd, hx⟩ := h
  unfold divideDouble at hq
  by_cases hs : SCALE = 0
  · rw [if_pos hs] at hq
    cases hq
  · rw [if_neg hs] at hq
    have e1 := (finite_ok binary64 _ _ hq).1
    have e2 := (finite_ok binary64 _ _ hd).1
    have e3 := (finite_ok binary32 _ _ hx).1
    exact ⟨hs, by rw [e3, e2, e1]⟩

/-- The buffer of `float` values holds the three entries of vertex `i` at `3 i`, `3 i + 1` and
`3 i + 2`. -/
theorem recentredFloat_spec (s : ℚ) (com : List ℚ) :
    ∀ (vs : List Vec3) (buf : List ℚ), recentredFloat vs s com = .ok buf →
      buf.length = 3 * vs.length ∧
      ∀ (i : Nat) (v : Vec3), vs[i]? = some v →
        (∃ x, bufferEntry v.x s (com.getD 0 0) = .ok x ∧ buf[3 * i]? = some x) ∧
        (∃ y, bufferEntry v.y s (com.getD 1 0) = .ok y ∧ buf[3 * i + 1]? = some y) ∧
        (∃ z, bufferEntry v.z s (com.getD 2 0) = .ok z ∧ buf[3 * i + 2]? = some z) := by
  intro vs
  induction vs with
  | nil =>
    intro buf h
    unfold recentredFloat at h
    injection h with h
    subst h
    exact ⟨rfl, fun i v hv => by simp at hv⟩
  | cons w rest ih =>
    intro buf h
    unfold recentredFloat at h
    simp only [bind_ok] at h
    obtain ⟨x, hx, y, hy, z, hz, r, hr, hb⟩ := h
    injection hb with hb
    subst hb
    obtain ⟨hl, hrest⟩ := ih r hr
    refine ⟨by simp only [List.length_cons, hl]; omega, ?_⟩
    intro i v hv
    cases i with
    | zero =>
      simp only [List.getElem?_cons_zero, Option.some.injEq] at hv
      subst hv
      exact ⟨⟨x, hx, by simp⟩, ⟨y, hy, by simp⟩, ⟨z, hz, by simp⟩⟩
    | succ j =>
      simp only [List.getElem?_cons_succ] at hv
      obtain ⟨h0, h1, h2⟩ := hrest j v hv
      have e0 : 3 * (j + 1) = 3 * j + 1 + 1 + 1 := by omega
      have e1 : 3 * (j + 1) + 1 = 3 * j + 1 + 1 + 1 + 1 := by omega
      have e2 : 3 * (j + 1) + 2 = 3 * j + 2 + 1 + 1 + 1 := by omega
      rw [e1, e2, e0]
      simp only [List.getElem?_cons_succ]
      exact ⟨h0, h1, h2⟩

/-- What a returning `setObjectFloat` returned. -/
theorem setObjectFloat_inv (load : String → objLoader) (object : MyObject) (number : ℚ)
    (filename : String) (o : MyObject) (h : setObjectFloat load object number filename = .ok o) :
    ∃ ts com vs, fillTrianglesFloat (load filename) (load filename).faceList = .ok ts ∧
      centerOfMassFloat ts number = .ok com ∧
      recentredFloat (load filename).vertexList number com = .ok vs ∧
      o = { object with
            indCount := (load filename).faceList.length
            vertCount := (load filename).vertexList.length
            centerOfMass := com
            indexDrawVec := object.indexDrawVec ++ faceRows (load filename).faceList
            indexGeomVec := object.indexGeomVec ++ faceIndices (load filename).faceList
            vertexDrawVec := object.vertexDrawVec ++ vs
            vertexGeomVec := object.vertexGeomVec ++ vs } := by
  unfold setObjectFloat at h
  simp only [bind_ok] at h
  obtain ⟨ts, hts, com, hcom, vs, hvs, ho⟩ := h
  injection ho with ho
  exact ⟨ts, com, vs, hts, hcom, hvs, ho.symm⟩

/-- C15, as the code has it with `float` buffers.  For an object whose buffers are empty before
the call, a returning `setObject` leaves the geometry and the drawing vertex buffers both of
length `3 * vertCount`, holding at `3 i + j` the `float` nearest to the `double` result of
`raw[i][j] / s - centerOfMass[j]`: the quotient rounded to `double`, the difference with the
stored `float` centre of mass rounded to `double`, the result rounded to `float`; where these
three values are values of their formats the entry is `raw[i][j] / s - centerOfMass[j]` itself.
Every rounding moves a value by at most half the spacing of the format.  The geometry index
buffer has length `3 * faceCount` and holds the vertex indices of face `k` at `3 k`, `3 k + 1`,
`3 k + 2`. -/
theorem setObjectFloat_buffers (load : String → objLoader) (object : MyObject) (number : ℚ)
    (filename : String) (o : MyObject)
    (hG : object.vertexGeomVec = []) (hD : object.vertexDrawVec = [])
    (hI : object.indexGeomVec = [])
    (h : setObjectFloat load object number filename = .ok o) :
    o.vertCount = (load filename).vertexList.length ∧
    o.indCount = (load filename).faceList.length ∧
    o.vertexGeomVec.length = 3 * (load filename).vertexList.length ∧
    o.vertexDrawVec = o.vertexGeomVec ∧
    (∀ (i j : Nat) (v : Vec3), (load filename).vertexList[i]? = some v → j < 3 →
      o.vertexGeomVec[3 * i + j]? =
        some (binary32.roundQ (binary64.roundQ
          (binary64.roundQ ([v.x, v.y, v.z].getD j 0 / number) - o.centerOfMass.getD j 0))) ∧
      (binary64.Representable ([v.x, v.y, v.z].getD j 0 / number) →
        binary64.Representable ([v.x, v.y, v.z].getD j 0 / number - o.centerOfMass.getD j 0) →
        binary32.Representable ([v.x, v.y, v.z].getD j 0 / number - o.centerOfMass.getD j 0) →
        o.vertexGeomVec[3 * i + j]? =
          some ([v.x, v.y, v.z].getD j 0 / number - o.centerOfMass.getD j 0))) ∧
    (∀ (F : Format) (x : ℚ), |F.roundQ x - x| ≤ 2 ^ F.quantum x / 2) ∧
    o.indexGeomVec.length = 3 * (load filename).faceList.length ∧
    (∀ (k : Nat) (f : obj_face), (load filename).faceList[k]? = some f →
      o.indexGeomVec[3 * k]? = some f.vertex_index0 ∧
      o.indexGeomVec[3 * k + 1]? = some f.vertex_index1 ∧
      o.indexGeomVec[3 * k + 2]? = some f.vertex_index2) := by
  obtain ⟨ts, com, vs, -, -, hvs, ho⟩ := setObjectFloat_inv load object number filename o h
  obtain ⟨hl, hent⟩ := recentredFloat_spec number com _ vs hvs
  subst ho
  have hform : ∀ (i j : Nat) (v : Vec3), (load filename).vertexList[i]? = some v → j < 3 →
      vs[3 * i + j]? = some (binary32.roundQ (binary64.roundQ
        (binary64.roundQ ([v.x, v.y, v.z].getD j 0 / number) - com.getD j 0))) := by
    intro i j v hv hj
    obtain ⟨⟨x, hx, ex⟩, ⟨y, hy, ey⟩, ⟨z, hz, ez⟩⟩ := hent i v hv
    interval_cases j
    · rw [Nat.add_zero, ex, (bufferEntry_ok _ _ _ _ hx).2]
      rfl
    · rw [ey, (bufferEntry_ok _ _ _ _ hy).2]
      rfl
    · rw [ez, (bufferEntry_ok _ _ _ _ hz).2]
      rfl
  refine ⟨rfl, rfl, ?_, ?_, ?_, roundQ_error, ?_, ?_⟩
  · simp only [hG, List.nil_append]
    exact hl
  · simp only [hG, hD]
  · intro i j v hv hj
    simp only [hG, List.nil_append]
    refine ⟨hform i j v hv hj, ?_⟩
    intro r1 r2 r3
    rw [hform i j v hv hj, roundQ_representable _ _ r1, roundQ_representable _ _ r2,
      roundQ_representable _ _ r3]
  · simp only [hI, List.nil_append]
    exact faceIndices_length _
  · intro k f hf
    simp only [hI, List.nil_append]
    exact faceIndices_getElem _ k f hf

/-! ## The unit tetrahedron at the default scale -/

/-- Zero is a value of every format. -/
theorem finite_zero (F : Format) : F.finite 0 = .ok 0 := by
  have hq : F.roundQ 0 = 0 := by
    unfold Format.roundQ
    rw [if_pos (le_refl _), roundPos_zero]
  unfold Format.finite Format.round
  rw [hq, abs_zero, if_neg (not_le.mpr (two_zpow_pos _))]

/-- The result of an operation with a positive exact value, from the binade of the value and
the nearest multiple of the spacing. -/
theorem finite_eval (F : Format) (x y : ℚ) (k n e : Int) (h1 : 2 ^ k ≤ x)
    (h2 : x < 2 ^ (k + 1)) (he : max (k - (F.prec - 1)) F.emin = e)
    (hn : |x / 2 ^ e - n| < 1 / 2) (hy : (n : ℚ) * 2 ^ e = y) (hb : y < 2 ^ (F.emax + 1)) :
    F.finite x = .ok y := by
  unfold Format.finite
  rw [round_eval F x y k n e h1 h2 he hn hy hb]

/-- The result of an operation with a negative exact value is the negated result for the
opposite value. -/
theorem finite_neg (F : Format) (x y : ℚ) (hx : 0 < x) (h : F.finite x = .ok y) :
    F.finite (-x) = .ok (-y) := by
  obtain ⟨hq, hr⟩ := finite_ok F x y h
  have hq1 : F.roundQ x = F.roundPos x := by
    unfold Format.roundQ
    rw [if_pos (le_of_lt hx)]
  have hq2 : F.roundQ (-x) = -F.roundPos x := by
    unfold Format.roundQ
    rw [if_neg (by linarith), neg_neg]
  unfold Format.round at hr
  split_ifs at hr with hb
  unfold Format.finite Format.round
  rw [hq2, abs_neg, ← hq1, if_neg hb, ← hq]

/-- A value at most 1 is below the overflow bound of `float`. -/
theorem below_bound32 (y : ℚ) (h : y ≤ 1) : y < 2 ^ (binary32.emax + 1) :=
  lt_of_le_of_lt h (one_lt_zpow₀ (by norm_num) (by decide))

/-- A value at most 1 is below the overflow bound of `double`. -/
theorem below_bound64 (y : ℚ) (h : y ≤ 1) : y < 2 ^ (binary64.emax + 1) :=
  lt_of_le_of_lt h (one_lt_zpow₀ (by norm_num) (by decide))

/-- The roundings met in registering the unit tetrahedron with the scale 100. -/
theorem tetra_roundings :
    f32 0 = .ok 0 ∧ f64 0 = .ok 0 ∧ f32 1 = .ok 1 ∧
    f32 (1 / 6) = .ok (11184811 / 67108864) ∧
    f32 (1 / 4) = .ok (1 / 4) ∧
    f64 (11184811 / 67108864) = .ok (11184811 / 67108864) ∧
    f64 (11184811 / 268435456) = .ok (11184811 / 268435456) ∧
    f64 (1 / 4) = .ok (1 / 4) ∧
    f64 (1 / 400) = .ok (5764607523034235 / 2305843009213693952) ∧
    f32 (5764607523034235 / 2305843009213693952) = .ok (5368709 / 2147483648) ∧
    f64 (1 / 100) = .ok (5764607523034235 / 576460752303423488) ∧
    f64 (-(5368709 / 2147483648)) = .ok (-(5368709 / 2147483648)) ∧
    f32 (-(5368709 / 2147483648)) = .ok (-(5368709 / 2147483648)) ∧
    f64 (4323455674487931 / 576460752303423488) =
      .ok (4323455674487931 / 576460752303423488) ∧
    f32 (4323455674487931 / 576460752303423488) = .ok (16106127 / 2147483648) := by
  refine ⟨finite_zero _, finite_zero _, ?_, ?_, ?_, ?_, ?_, ?_, ?_, ?_, ?_, ?_, ?_, ?_, ?_⟩
  · exact finite_eval binary32 1 1 0 8388608 (-23) (by norm_num) (by norm_num) (by decide)
      (by norm_num) (by norm_num) (below_bound32 _ (by norm_num))
  · exact finite_eval binary32 _ _ (-3) 11184811 (-26) (by norm_num) (by norm_num) (by decide)
      (by norm_num [abs_lt]) (by norm_num) (below_bound32 _ (by norm_num))
  · exact finite_eval binary32 _ _ (-2) 8388608 (-25) (by norm_num) (by norm_num) (by decide)
      (by norm_num) (by norm_num) (below_bound32 _ (by norm_num))
  · exact finite_eval binary64 _ _ (-3) 6004799682117632 (-55) (by norm_num) (by norm_num)
      (by decide) (by norm_num) (by norm_num) (below_bound64 _ (by norm_num))
  · exact finite_eval binary64 _ _ (-5) 6004799682117632 (-57) (by norm_num) (by norm_num)
      (by decide) (by norm_num) (by norm_num) (below_bound64 _ (by norm_num))
  · exact finite_eval binary64 _ _ (-2) 4503599627370496 (-54) (by norm_num) (by norm_num)
      (by decide) (by norm_num) (by norm_num) (below_bound64 _ (by norm_num))
  · exact finite_eval binary64 _ _ (-9) 5764607523034235 (-61) (by norm_num) (by norm_num)
      (by decide) (by norm_num [abs_lt]) (by norm_num) (below_bound64 _ (by norm_num))
  · exact finite_eval binary32 _ _ (-9) 10737418 (-32) (by norm_num) (by norm_num)
      (by decide) (by norm_num [abs_lt]) (by norm_num) (below_bound32 _ (by norm_num))
  · exact finite_eval binary64 _ _ (-7) 5764607523034235 (-59) (by norm_num) (by norm_num)
      (by decide) (by norm_num [abs_lt]) (by norm_num) (below_bound64 _ (by norm_num))
  · exact finite_neg binary64 _ _ (by norm_num)
      (finite_eval binary64 _ _ (-9) 5764607394185216 (-61) (by norm_num) (by norm_num)
        (by decide) (by norm_num) (by norm_num) (below_bound64 _ (by norm_num)))
  · exact finite_neg binary32 _ _ (by norm_num)
      (finite_eval binary32 _ _ (-9) 10737418 (-32) (by norm_num) (by norm_num)
        (by decide) (by norm_num) (by norm_num) (below_bound32 _ (by norm_num)))
  · exact finite_eval binary64 _ _ (-8) 8646911348975862 (-60) (by norm_num) (by norm_num)
      (by decide) (by norm_num) (by norm_num) (below_bound64 _ (by norm_num))
  · exact finite_eval binary32 _ _ (-8) 16106127 (-31) (by norm_num) (by norm_num)
      (by decide) (by norm_num [abs_lt]) (by norm_num) (below_bound32 _ (by norm_num))

/-- The `float` triangles of the unit tetrahedron are its triangles. -/
theorem tetraFloat_fill :
    fillTrianglesFloat (demoLoad "tetra.obj") (demoLoad "tetra.obj").faceList =
      .ok tetraTriangles := by
  obtain ⟨z32, -, o32, -⟩ := tetra_roundings
  have h : demoLoad "tetra.obj" = tetraMesh := rfl
  rw [h]
  simp [fillTrianglesFloat, tetraMesh, vertexAt, bind, Except.bind, z32, o32, tetraTriangles]

/-- A computation whose first part returned continues with the rest. -/
theorem ok_bind {α β : Type} (a : α) (f : α → Except Fault β) :
    ((Except.ok a : Except Fault α) >>= f) = f a := by
  simp only [bind, Except.bind]

/-- The accumulators after the loop over the triangles of the unit tetrahedron. -/
theorem tetraFloat_accumulate :
    accumulateFloat tetraTriangles ⟨0, 0, 0, 0⟩ =
      .ok ⟨11184811 / 67108864, 11184811 / 268435456, 11184811 / 268435456,
        11184811 / 268435456⟩ := by
  obtain ⟨z32, z64, o32, s32, q32, f64a, f64b, -⟩ := tetra_roundings
  have e1 : (1 / 4 : ℚ) * (11184811 / 67108864) = 11184811 / 268435456 := by norm_num
  simp only [accumulateFloat, tetraTriangles, currentVolumeFloat, momentTermFloat, zero_mul,
    mul_zero, mul_one, sub_zero, add_zero, zero_add, zero_div, z32, z64, o32, s32, q32, f64a,
    f64b, e1, ok_bind]

/-- The centre of mass stored for the unit tetrahedron with the scale 100. -/
theorem tetraFloat_com :
    centerOfMassFloat tetraTriangles 100 =
      .ok [5368709 / 2147483648, 5368709 / 2147483648, 5368709 / 2147483648] := by
  obtain ⟨-, -, -, -, -, -, -, q64, d64, c32, -⟩ := tetra_roundings
  have e1 : (11184811 / 268435456 : ℚ) / (11184811 / 67108864) = 1 / 4 := by norm_num
  have e2 : (1 / 4 : ℚ) / 100 = 1 / 400 := by norm_num
  have n1 : ¬ (11184811 / 67108864 : ℚ) = 0 := by norm_num
  have n2 : ¬ (100 : ℚ) = 0 := by norm_num
  simp only [centerOfMassFloat, tetraFloat_accumulate, divideDouble, if_neg n1, if_neg n2, e1,
    e2, q64, d64, c32, ok_bind]

/-- The entries of the vertex buffer for the unit tetrahedron with the scale 100. -/
theorem tetraFloat_buffer :
    recentredFloat (demoLoad "tetra.obj").vertexList 100
        [5368709 / 2147483648, 5368709 / 2147483648, 5368709 / 2147483648] =
      .ok [-(5368709 / 2147483648), -(5368709 / 2147483648), -(5368709 / 2147483648),
        16106127 / 2147483648, -(5368709 / 2147483648), -(5368709 / 2147483648),
        -(5368709 / 2147483648), 16106127 / 2147483648, -(5368709 / 2147483648),
        -(5368709 / 2147483648), -(5368709 / 2147483648), 16106127 / 2147483648] := by
  obtain ⟨-, z64, -, -, -, -, -, -, -, -, h64, n64, n32, d64, w32⟩ := tetra_roundings
  have h : (demoLoad "tetra.obj").vertexList = tetraMesh.vertexList := rfl
  have e1 : (1 : ℚ) / 100 = 1 / 100 := rfl
  have e2 : (5764607523034235 / 576460752303423488 : ℚ) - 5368709 / 2147483648 =
      4323455674487931 / 576460752303423488 := by norm_num
  have n2 : ¬ (100 : ℚ) = 0 := by norm_num
  rw [h]
  simp only [recentredFloat, tetraMesh, bufferEntry, divideDouble, if_neg n2, zero_div,
    zero_sub, List.getD_cons_zero, List.getD_cons_succ, z64, h64, n64, n32, e2, d64, w32,
    ok_bind]

/-- The object `setObject` returns for the unit tetrahedron with the scale 100, in the types of
the source. -/
theorem tetraFloat_object :
    setObjectFloat demoLoad MyObject.blank 100 "tetra.obj" = .ok
      { MyObject.blank with
        indCount := (demoLoad "tetra.obj").faceList.length
        vertCount := (demoLoad "tetra.obj").vertexList.length
        centerOfMass := [5368709 / 2147483648, 5368709 / 2147483648, 5368709 / 2147483648]
        indexDrawVec := MyObject.blank.indexDrawVec ++ faceRows (demoLoad "tetra.obj").faceList
        indexGeomVec :=
          MyObject.blank.indexGeomVec ++ faceIndices (demoLoad "tetra.obj").faceList
        vertexDrawVec := MyObject.blank.vertexDrawVec ++
          [-(5368709 / 2147483648), -(5368709 / 2147483648), -(5368709 / 2147483648),
            16106127 / 2147483648, -(5368709 / 2147483648), -(5368709 / 2147483648),
            -(5368709 / 2147483648), 16106127 / 2147483648, -(5368709 / 2147483648),
            -(5368709 / 2147483648), -(5368709 / 2147483648), 16106127 / 2147483648]
        vertexGeomVec := MyObject.blank.vertexGeomVec ++
          [-(5368709 / 2147483648), -(5368709 / 2147483648), -(5368709 / 2147483648),
            16106127 / 2147483648, -(5368709 / 2147483648), -(5368709 / 2147483648),
            -(5368709 / 2147483648), 16106127 / 2147483648, -(5368709 / 2147483648),
            -(5368709 / 2147483648), -(5368709 / 2147483648), 16106127 / 2147483648] } := by
  simp only [setObjectFloat, tetraFloat_fill, tetraFloat_com, tetraFloat_buffer, ok_bind]

/-- C15 fails as stated.  For the unit tetrahedron registered with the default scale 100 in a
blank object, the stored centre of mass has the x coordinate 5368709 / 2^31 (the `float`
nearest to 1/400) and the geometry vertex buffer holds 16106127 / 2^31 at index 3, the x
coordinate of vertex 1: not `raw / s - centerOfMass[0]` = 1/100 - 5368709 / 2^31, and not the
value 3/400 of exact arithmetic, which the exact embedding stores. -/
theorem setObject_buffers_rounded :
    ∃ o o1, setObjectFloat demoLoad MyObject.blank 100 "tetra.obj" = .ok o ∧
      o.centerOfMass.getD 0 0 = 5368709 / 2147483648 ∧
      o.vertexGeomVec[3]? = some (16106127 / 2147483648) ∧
      (16106127 / 2147483648 : ℚ) ≠ 1 / 100 - o.centerOfMass.getD 0 0 ∧
      setObject demoLoad MyObject.blank 100 "tetra.obj" = .ok o1 ∧
      o1.vertexGeomVec[3]? = some (3 / 400) ∧
      (16106127 / 2147483648 : ℚ) ≠ 3 / 400 := by
  obtain ⟨hfill, hV, -⟩ := tetra_facts
  have hcom := centerOfMassOf_eq tetraTriangles 100 (by rw [hV]; norm_num) (by norm_num)
  have hc : centroidSpec tetraTriangles 100 = [1 / 400, 1 / 400, 1 / 400] := by
    simp [centroidSpec, volumeSum, momentX, momentY, momentZ, tetraVolume, tripleProduct,
      tetraTriangles, data.a, data.b, data.c]
    norm_num
  rw [hc] at hcom
  refine ⟨_, _, tetraFloat_object, rfl, rfl, ?_,
    setObject_eq demoLoad MyObject.blank 100 "tetra.obj" tetraTriangles _ hfill hcom, ?_, ?_⟩
  · show (16106127 / 2147483648 : ℚ) ≠ 1 / 100 - 5368709 / 2147483648
    norm_num
  · have h := (recentred_getElem 100 [1 / 400, 1 / 400, 1 / 400]
      (demoLoad "tetra.obj").vertexList 1 ⟨1, 0, 0⟩ rfl).1
    have e : (MyObject.blank.vertexGeomVec ++
        recentred (demoLoad "tetra.obj").vertexList 100 [1 / 400, 1 / 400, 1 / 400])[3]? =
        (recentred (demoLoad "tetra.obj").vertexList 100 [1 / 400, 1 / 400, 1 / 400])[3 * 1]? :=
      rfl
    show (MyObject.blank.vertexGeomVec ++
      recentred (demoLoad "tetra.obj").vertexList 100 [1 / 400, 1 / 400, 1 / 400])[3]? = _
    rw [e, h]
    norm_num
  · norm_num

/-- Witness for C15: the buffers of the unit tetrahedron registered with the scale 100 have 12
vertex coordinates and 12 indices. -/
theorem setObjectFloat_buffers_witness :
    ∃ o, setObjectFloat demoLoad MyObject.blank 100 "tetra.obj" = .ok o ∧
      o.vertexGeomVec.length = 12 ∧ o.indexGeomVec.length = 12 ∧
      o.vertexDrawVec = o.vertexGeomVec := by
  obtain ⟨-, -, hl, hd, -, -, hi, -⟩ := setObjectFloat_buffers demoLoad MyObject.blank 100
    "tetra.obj" _ rfl rfl rfl tetraFloat_object
  exact ⟨_, tetraFloat_object, hl, hi, hd⟩

end SceneValidator
